import Mathlib

/-! # Calorie estimation of nutri-app (`src/App.tsx`)

A shallow embedding of the rule-based estimator `estimateCaloriesFromDescription` with the
three reference tables it scans (`foodKeywords`, `portionModifiers`,
`preparationModifiers`), of the remote estimator `estimateCaloriesWithOpenAI`, of the
coordinator `handleAiEstimate`, of the entry built by `handleAddMealFromAi`, and of
`buildMealEntry` with the table `baseFoods` it searches.

Modelling conventions.

* A JavaScript string is a list of characters (code points); `includes` is substring
  search. Every phrase of the tables lies in the Basic Multilingual Plane, where code points
  and UTF-16 code units coincide, so on well-formed text the search gives the same answer on
  either sequence. The property `length` counts UTF-16 code units.
* `toLowerCase`, `normalize('NFD')` and the removal of U+0300..U+036F are
  modelled character by character on Basic Latin and the Latin-1 Supplement
  (the alphabet of the tables and of Spanish text); every other character is a
  fixed point of case folding and of decomposition. All universally quantified
  results on the rule-based estimator are proved for an arbitrary normalized text, so they
  do not depend on this table.
* In the rule-based estimator quantities are integers. The portion multipliers `1.5`, `0.6`,
  `1.0` are stored in tenths (`15`, `6`, `10`), and `Math.round (total * multiplier)` is
  `⌊(2 * total * tenths + 10) / 20⌋`. The totals are integers of magnitude below
  `10 ^ 4`, so the binary64 product differs from the exact one by less than
  `10 ^ (-11)`, while the exact product `total * tenths / 10` is never closer
  than `1 / 10` to a half-integer unless it is one exactly (only for `1.5`,
  where the product is exact in binary64): the integer formula is the value
  JavaScript computes.
* Elsewhere a number is a `JsNumber`: a rational (every finite binary64 value is one), `NaN`
  or an infinity. The product `*` rounds the exact product to the nearest binary64 value,
  ties to even (`roundToBinary64`); this matters for the scale `0.7`, where `165 * 0.7` is
  just below `115.5`. `Math.round` is `⌊x + 1 / 2⌋`, exact on every finite value.
* An asynchronous function is a function of what the remote call did (`RemoteOutcome`) that
  returns an `Except` value: `error` stands for a thrown exception or a rejected promise.
  The built-ins `JSON.parse`, `ToNumber` and `ToString` on non-primitive values are
  parameters (`Runtime`). React state is passed explicitly (`AiState`).
-/

namespace NutriApp

/-! ## Strings -/

/-- The method `String.prototype.includes`: `pat` occurs as a contiguous block of `s`. -/
def includes : List Char → List Char → Bool
  | [], pat => pat.isEmpty
  | c :: cs, pat => pat.isPrefixOf (c :: cs) || includes cs pat

/-- One character of `toLowerCase` (Basic Latin and Latin-1 Supplement). -/
def toLowerChar (c : Char) : Char :=
  let n := c.toNat
  if 65 ≤ n ∧ n ≤ 90 then Char.ofNat (n + 32)
  else if 192 ≤ n ∧ n ≤ 222 ∧ n ≠ 215 then Char.ofNat (n + 32)
  else c

/-- The method `toLowerCase`. -/
def toLowerCase (s : List Char) : List Char := s.map toLowerChar

/-- Canonical decomposition of one character (Latin-1 Supplement letters):
the base letter followed by its combining mark. -/
def nfdChar (c : Char) : List Char :=
  match c.toNat with
  | 192 => ['A', Char.ofNat 0x300] | 193 => ['A', Char.ofNat 0x301]
  | 194 => ['A', Char.ofNat 0x302] | 195 => ['A', Char.ofNat 0x303]
  | 196 => ['A', Char.ofNat 0x308] | 197 => ['A', Char.ofNat 0x30A]
  | 199 => ['C', Char.ofNat 0x327]
  | 200 => ['E', Char.ofNat 0x300] | 201 => ['E', Char.ofNat 0x301]
  | 202 => ['E', Char.ofNat 0x302] | 203 => ['E', Char.ofNat 0x308]
  | 204 => ['I', Char.ofNat 0x300] | 205 => ['I', Char.ofNat 0x301]
  | 206 => ['I', Char.ofNat 0x302] | 207 => ['I', Char.ofNat 0x308]
  | 209 => ['N', Char.ofNat 0x303]
  | 210 => ['O', Char.ofNat 0x300] | 211 => ['O', Char.ofNat 0x301]
  | 212 => ['O', Char.ofNat 0x302] | 213 => ['O', Char.ofNat 0x303]
  | 214 => ['O', Char.ofNat 0x308]
  | 217 => ['U', Char.ofNat 0x300] | 218 => ['U', Char.ofNat 0x301]
  | 219 => ['U', Char.ofNat 0x302] | 220 => ['U', Char.ofNat 0x308]
  | 221 => ['Y', Char.ofNat 0x301]
  | 224 => ['a', Char.ofNat 0x300] | 225 => ['a', Char.ofNat 0x301]
  | 226 => ['a', Char.ofNat 0x302] | 227 => ['a', Char.ofNat 0x303]
  | 228 => ['a', Char.ofNat 0x308] | 229 => ['a', Char.ofNat 0x30A]
  | 231 => ['c', Char.ofNat 0x327]
  | 232 => ['e', Char.ofNat 0x300] | 233 => ['e', Char.ofNat 0x301]
  | 234 => ['e', Char.ofNat 0x302] | 235 => ['e', Char.ofNat 0x308]
  | 236 => ['i', Char.ofNat 0x300] | 237 => ['i', Char.ofNat 0x301]
  | 238 => ['i', Char.ofNat 0x302] | 239 => ['i', Char.ofNat 0x308]
  | 241 => ['n', Char.ofNat 0x303]
  | 242 => ['o', Char.ofNat 0x300] | 243 => ['o', Char.ofNat 0x301]
  | 244 => ['o', Char.ofNat 0x302] | 245 => ['o', Char.ofNat 0x303]
  | 246 => ['o', Char.ofNat 0x308]
  | 249 => ['u', Char.ofNat 0x300] | 250 => ['u', Char.ofNat 0x301]
  | 251 => ['u', Char.ofNat 0x302] | 252 => ['u', Char.ofNat 0x308]
  | 253 => ['y', Char.ofNat 0x301] | 255 => ['y', Char.ofNat 0x308]
  | _ => [c]

/-- The method `normalize('NFD')`. -/
def normalizeNFD (s : List Char) : List Char := s.flatMap nfdChar

/-- Membership in the character class `[\u0300-\u036f]`. -/
def isCombiningMark (c : Char) : Bool := 0x300 ≤ c.toNat && c.toNat ≤ 0x36F

/-- The call `.replace(/[\u0300-\u036f]/g, '')`. -/
def removeMarks (s : List Char) : List Char := s.filter (fun c => !isCombiningMark c)

/-- Keyword normalization: `keyword.normalize('NFD').replace(/[\u0300-\u036f]/g, '')`. -/
def stripAccents (s : List Char) : List Char := removeMarks (normalizeNFD s)

/-- Description normalization:
`description.toLowerCase().normalize('NFD').replace(/[\u0300-\u036f]/g, '')`. -/
def normalizeDescription (description : String) : List Char :=
  removeMarks (normalizeNFD (toLowerCase description.toList))

/-! ## Reference tables -/

/-- The type `FoodKeyword` (its optional `multiplier` field is set nowhere and read nowhere). -/
structure FoodKeyword where
  keywords : List String
  caloriesBase : Int
  proteinBase : Int
  carbsBase : Int
  fatBase : Int
  fiberBase : Int
  deriving DecidableEq, Repr

/-- An element of `portionModifiers`; `multiplier` is in tenths. -/
structure PortionModifier where
  keywords : List String
  multiplier : Nat
  deriving DecidableEq, Repr

/-- An element of `preparationModifiers`. -/
structure PreparationModifier where
  keywords : List String
  caloriesAdd : Int
  fatAdd : Int
  deriving DecidableEq, Repr

/-- The table `foodKeywords`. -/
def foodKeywords : List FoodKeyword := [
  ⟨["pollo", "pechuga"], 165, 31, 0, 4, 0⟩,
  ⟨["carne", "bife", "lomo", "cuadril", "asado"], 200, 28, 0, 10, 0⟩,
  ⟨["pescado", "merluza", "filet"], 130, 25, 0, 3, 0⟩,
  ⟨["salmón", "salmon"], 230, 25, 0, 14, 0⟩,
  ⟨["atún", "atun"], 120, 26, 0, 1, 0⟩,
  ⟨["huevo", "huevos"], 78, 6, 1, 5, 0⟩,
  ⟨["milanesa"], 280, 20, 15, 16, 1⟩,
  ⟨["arroz"], 205, 4, 45, 0, 1⟩,
  ⟨["fideos", "pasta", "tallarines", "espagueti"], 220, 8, 43, 1, 2⟩,
  ⟨["papa", "papas", "puré", "pure"], 160, 4, 37, 0, 4⟩,
  ⟨["pan", "tostada", "tostadas"], 80, 3, 15, 1, 2⟩,
  ⟨["quinoa"], 220, 8, 39, 4, 5⟩,
  ⟨["avena"], 150, 5, 27, 3, 4⟩,
  ⟨["lentejas"], 230, 18, 40, 1, 16⟩,
  ⟨["garbanzos"], 270, 15, 45, 4, 12⟩,
  ⟨["ensalada"], 50, 2, 8, 1, 3⟩,
  ⟨["verduras", "vegetales", "brócoli", "brocoli"], 50, 3, 10, 0, 4⟩,
  ⟨["calabaza", "zapallo"], 50, 2, 12, 0, 3⟩,
  ⟨["tomate"], 22, 1, 5, 0, 1⟩,
  ⟨["yogur", "yogurt"], 100, 10, 12, 0, 0⟩,
  ⟨["leche"], 90, 9, 13, 0, 0⟩,
  ⟨["queso"], 100, 7, 1, 8, 0⟩,
  ⟨["fruta", "frutas", "manzana", "banana", "naranja"], 80, 1, 20, 0, 3⟩,
  ⟨["licuado", "smoothie"], 180, 4, 35, 2, 3⟩,
  ⟨["palta", "aguacate"], 160, 2, 9, 15, 7⟩,
  ⟨["aceite"], 120, 0, 0, 14, 0⟩,
  ⟨["frutos secos", "almendras", "nueces", "maní", "mani"], 170, 5, 6, 15, 2⟩,
  ⟨["tarta"], 280, 12, 25, 15, 4⟩,
  ⟨["empanada"], 250, 10, 25, 13, 1⟩,
  ⟨["pizza"], 280, 12, 35, 10, 2⟩,
  ⟨["hamburguesa"], 350, 20, 30, 18, 2⟩,
  ⟨["sandwich", "sándwich", "sanguche"], 350, 15, 35, 15, 3⟩,
  ⟨["wrap", "fajita"], 350, 20, 35, 14, 4⟩,
  ⟨["guiso"], 350, 18, 40, 12, 8⟩,
  ⟨["wok", "salteado"], 300, 20, 25, 14, 5⟩,
  ⟨["omelette", "tortilla"], 250, 14, 5, 18, 1⟩,
  ⟨["café", "cafe", "cortado"], 30, 2, 3, 1, 0⟩,
  ⟨["mate"], 10, 0, 2, 0, 0⟩,
  ⟨["té", "te"], 2, 0, 0, 0, 0⟩]

/-- The table `portionModifiers` (multipliers 1.5, 0.6, 1.0 in tenths). -/
def portionModifiers : List PortionModifier := [
  ⟨["grande", "mucho", "abundante", "plato lleno", "doble"], 15⟩,
  ⟨["chico", "pequeño", "poco", "media porción", "mitad"], 6⟩,
  ⟨["normal", "regular", "porción"], 10⟩]

/-- The table `preparationModifiers`. -/
def preparationModifiers : List PreparationModifier := [
  ⟨["frito", "fritas", "fritura"], 100, 10⟩,
  ⟨["gratinado", "con queso"], 80, 8⟩,
  ⟨["con salsa", "en salsa"], 50, 4⟩,
  ⟨["a la plancha", "grillado", "asado"], 10, 1⟩,
  ⟨["al horno", "horneado"], 20, 2⟩,
  ⟨["al vapor"], 0, 0⟩,
  ⟨["con aceite"], 60, 7⟩,
  ⟨["con palta", "con aguacate"], 80, 8⟩,
  ⟨["light", "diet", "descremado"], -30, -3⟩]

/-! ## The estimator -/

/-- The union type `'alta' | 'media' | 'baja'`. -/
inductive Confidence where
  | alta
  | media
  | baja
  deriving DecidableEq, Repr

/-- The mutable locals of `estimateCaloriesFromDescription`. -/
structure Totals where
  totalCalories : Int
  totalProtein : Int
  totalCarbs : Int
  totalFat : Int
  totalFiber : Int
  detectedIngredients : List String
  matchCount : Nat
  deriving DecidableEq, Repr

/-- The value returned by `estimateCaloriesFromDescription`. -/
structure Estimate where
  calories : Int
  protein : Int
  carbs : Int
  fat : Int
  fiber : Int
  confidence : Confidence
  detectedIngredients : List String
  deriving DecidableEq, Repr

/-- The test of the food and preparation loops:
`normalizedDesc.includes(keyword.normalize('NFD').replace(...))`. -/
def matchesStripped (normalizedDesc : List Char) (keyword : String) : Bool :=
  includes normalizedDesc (stripAccents keyword.toList)

/-- The test of the portion loop: `normalizedDesc.includes(keyword)`. -/
def matchesRaw (normalizedDesc : List Char) (keyword : String) : Bool :=
  includes normalizedDesc keyword.toList

/-- The initial values of the locals. -/
def initialTotals : Totals := ⟨0, 0, 0, 0, 0, [], 0⟩

/-- One iteration of `for (const food of foodKeywords)`: the inner loop stops at the
first keyword that matches. -/
def foodStep (normalizedDesc : List Char) (acc : Totals) (food : FoodKeyword) : Totals :=
  match food.keywords.find? (matchesStripped normalizedDesc) with
  | some keyword =>
    { totalCalories := acc.totalCalories + food.caloriesBase
      totalProtein := acc.totalProtein + food.proteinBase
      totalCarbs := acc.totalCarbs + food.carbsBase
      totalFat := acc.totalFat + food.fatBase
      totalFiber := acc.totalFiber + food.fiberBase
      detectedIngredients := acc.detectedIngredients ++ [keyword]
      matchCount := acc.matchCount + 1 }
  | none => acc

/-- The loop over `foodKeywords`. -/
def scanFoods (normalizedDesc : List Char) : Totals :=
  foodKeywords.foldl (foodStep normalizedDesc) initialTotals

/-- One iteration of `for (const mod of portionModifiers)`. -/
def portionStep (normalizedDesc : List Char) (portionMultiplier : Nat)
    (mod : PortionModifier) : Nat :=
  match mod.keywords.find? (matchesRaw normalizedDesc) with
  | some _ => mod.multiplier
  | none => portionMultiplier

/-- The loop over `portionModifiers`, started at `1.0`. -/
def scanPortion (normalizedDesc : List Char) : Nat :=
  portionModifiers.foldl (portionStep normalizedDesc) 10

/-- One iteration of `for (const mod of preparationModifiers)`. -/
def preparationStep (normalizedDesc : List Char) (acc : Totals)
    (mod : PreparationModifier) : Totals :=
  match mod.keywords.find? (matchesStripped normalizedDesc) with
  | some _ =>
    { acc with
      totalCalories := acc.totalCalories + mod.caloriesAdd
      totalFat := acc.totalFat + mod.fatAdd }
  | none => acc

/-- The loop over `preparationModifiers`. -/
def scanPreparation (normalizedDesc : List Char) (acc : Totals) : Totals :=
  preparationModifiers.foldl (preparationStep normalizedDesc) acc

/-- The value `Math.round(total * portionMultiplier)`, multiplier in tenths. -/
def roundScaled (total : Int) (portionMultiplier : Nat) : Int :=
  (2 * total * portionMultiplier + 10) / 20

/-- The generic estimate returned when nothing was detected. -/
def genericEstimate : Estimate := ⟨300, 15, 30, 12, 3, Confidence.baja, []⟩

/-- The confidence expression `matchCount >= 3 ? 'alta' : matchCount >= 2 ? 'media' : 'baja'`. -/
def confidenceOf (matchCount : Nat) : Confidence :=
  if matchCount ≥ 3 then Confidence.alta
  else if matchCount ≥ 2 then Confidence.media
  else Confidence.baja

/-- The body of `estimateCaloriesFromDescription` after the normalization of its argument. -/
def estimateNormalized (normalizedDesc : List Char) : Estimate :=
  let foods := scanFoods normalizedDesc
  let portionMultiplier := scanPortion normalizedDesc
  let t := scanPreparation normalizedDesc foods
  let totalCalories := roundScaled t.totalCalories portionMultiplier
  let totalProtein := roundScaled t.totalProtein portionMultiplier
  let totalCarbs := roundScaled t.totalCarbs portionMultiplier
  let totalFat := roundScaled t.totalFat portionMultiplier
  let totalFiber := roundScaled t.totalFiber portionMultiplier
  if t.matchCount = 0 then genericEstimate
  else
    { calories := max totalCalories 50
      protein := max totalProtein 0
      carbs := max totalCarbs 0
      fat := max totalFat 0
      fiber := max totalFiber 0
      confidence := confidenceOf t.matchCount
      detectedIngredients := t.detectedIngredients }

/-- The function `estimateCaloriesFromDescription`. -/
def estimateCaloriesFromDescription (description : String) : Estimate :=
  estimateNormalized (normalizeDescription description)

/-! ## The specification's vocabulary -/

/-- A food entry matches when at least one of its trigger phrases, accent-stripped, is a
substring of the normalized description. -/
def foodMatches (normalizedDesc : List Char) (food : FoodKeyword) : Bool :=
  food.keywords.any (matchesStripped normalizedDesc)

/-- The matched food entries, in table order. -/
def matchedFoods (normalizedDesc : List Char) : List FoodKeyword :=
  foodKeywords.filter (foodMatches normalizedDesc)

/-- A preparation entry matches when at least one of its phrases, accent-stripped, is a
substring of the normalized description. -/
def preparationMatches (normalizedDesc : List Char) (mod : PreparationModifier) : Bool :=
  mod.keywords.any (matchesStripped normalizedDesc)

/-- The matched preparation entries, in table order. -/
def matchedPreparations (normalizedDesc : List Char) : List PreparationModifier :=
  preparationModifiers.filter (preparationMatches normalizedDesc)

/-- A portion entry matches when at least one of its phrases, as written in the table, is a
substring of the normalized description. -/
def portionMatches (normalizedDesc : List Char) (mod : PortionModifier) : Bool :=
  mod.keywords.any (matchesRaw normalizedDesc)

/-- The multiplier of the first matching portion entry in table order, `1.0` if there is none
(the rule as the specification words it). -/
def firstMatchingMultiplier (normalizedDesc : List Char) : Nat :=
  match portionModifiers.find? (portionMatches normalizedDesc) with
  | some mod => mod.multiplier
  | none => 10

/-- The multiplier of the last matching portion entry in table order, `1.0` if there is none. -/
def lastMatchingMultiplier (normalizedDesc : List Char) : Nat :=
  match (portionModifiers.filter (portionMatches normalizedDesc)).getLast? with
  | some mod => mod.multiplier
  | none => 10

/-- No phrase of any portion entry occurs in the normalized description. -/
abbrev NoPortionPhrase (normalizedDesc : List Char) : Prop :=
  ∀ mod ∈ portionModifiers, ∀ kw ∈ mod.keywords, matchesRaw normalizedDesc kw = false

/-- No phrase of any preparation entry occurs in the normalized description. -/
abbrev NoPreparationPhrase (normalizedDesc : List Char) : Prop :=
  ∀ mod ∈ preparationModifiers, ∀ kw ∈ mod.keywords, matchesStripped normalizedDesc kw = false

/-- No phrase of any food entry occurs in the normalized description. -/
abbrev NoFoodPhrase (normalizedDesc : List Char) : Prop :=
  ∀ food ∈ foodKeywords, ∀ kw ∈ food.keywords, matchesStripped normalizedDesc kw = false

/-- Rounding to the nearest integer, halves upwards, of `tenths / 10 * total`. -/
def roundHalfUp (tenths : Nat) (total : Int) : Int :=
  ⌊(tenths : ℚ) / 10 * (total : ℚ) + 1 / 2⌋

/-- The five numeric fields of `e` are the pre-scale totals `t` multiplied by `tenths / 10`,
each rounded on its own, halves upwards, and then raised to its floor (50 for calories, 0 for
the other four). -/
def ScaledBy (tenths : Nat) (t : Totals) (e : Estimate) : Prop :=
  e.calories = max 50 (roundHalfUp tenths t.totalCalories) ∧
  e.protein = max 0 (roundHalfUp tenths t.totalProtein) ∧
  e.carbs = max 0 (roundHalfUp tenths t.totalCarbs) ∧
  e.fat = max 0 (roundHalfUp tenths t.totalFat) ∧
  e.fiber = max 0 (roundHalfUp tenths t.totalFiber)

/-- The locals of the estimator just before the multiplication by the portion multiplier. -/
def preScaleTotals (normalizedDesc : List Char) : Totals :=
  scanPreparation normalizedDesc (scanFoods normalizedDesc)

/-! ## JavaScript strings and numbers -/

/-- The code points that `String.prototype.trim` removes (WhiteSpace and LineTerminator). -/
def isWhiteSpace (c : Char) : Bool :=
  let n := c.toNat
  (9 ≤ n && n ≤ 13) || n == 0x20 || n == 0xA0 || n == 0x1680 || (0x2000 ≤ n && n ≤ 0x200A) ||
    n == 0x2028 || n == 0x2029 || n == 0x202F || n == 0x205F || n == 0x3000 || n == 0xFEFF

/-- The method `String.prototype.trim`. -/
def trim (s : List Char) : List Char :=
  ((s.dropWhile isWhiteSpace).reverse.dropWhile isWhiteSpace).reverse

/-- The property `length` of a string: its number of UTF-16 code units. -/
def utf16Length (s : List Char) : Nat :=
  (s.map (fun c => if 0x10000 ≤ c.toNat then 2 else 1)).sum

/-- A global replacement `.replace(/<fence>\n?/g, '')` for a literal `fence`: every
occurrence of `fence`, together with one line feed that follows it, is deleted, scanning from
the left. `skip` counts the characters of the current occurrence still to be dropped and
`afterFence` tells that an occurrence has just ended. -/
def removeFence (fence : List Char) : Nat → Bool → List Char → List Char
  | _, _, [] => []
  | skip + 1, _, _ :: cs => removeFence fence skip true cs
  | 0, afterFence, c :: cs =>
    if afterFence && c == '\n' then removeFence fence 0 false cs
    else if fence.isPrefixOf (c :: cs) && !fence.isEmpty then
      removeFence fence (fence.length - 1) true cs
    else c :: removeFence fence 0 false cs

/-- The expression `` content.replace(/```json\n?/g, '').replace(/```\n?/g, '').trim() ``. -/
def cleanContent (content : List Char) : List Char :=
  trim (removeFence "```".toList 0 false (removeFence "```json".toList 0 false content))

/-- A JavaScript number: a finite value (every binary64 value is a rational), `NaN`,
`Infinity` or `-Infinity`. The sign of zero is not tracked. -/
inductive JsNumber where
  | finite (x : ℚ)
  | nan
  | posInf
  | negInf
  deriving DecidableEq, Repr

/-- The position of the leading bit of `n`, computed with `fuel` halvings at most. -/
def log2Fuel : Nat → Nat → Nat
  | 0, _ => 0
  | fuel + 1, n => if n < 2 then 0 else log2Fuel fuel (n / 2) + 1

/-- The greatest `k` with `2 ^ k ≤ n`, and `0` for `n = 0`. -/
def natLog2 (n : Nat) : Nat := log2Fuel n n

/-- The greatest `k` with `2 ^ k ≤ p / q`, for positive `p` and `q`. -/
def floorLog2 (p q : Nat) : Int :=
  let d : Int := (natLog2 p : Int) - (natLog2 q : Int)
  if (if 0 ≤ d then q * 2 ^ d.toNat ≤ p else q ≤ p * 2 ^ (-d).toNat) then d else d - 1

/-- The binary64 value nearest to the rational `x`, ties to the even significand: 53
significant bits, least exponent `-1022` (below it the spacing stays `2 ^ (-1074)`), overflow
to an infinity. -/
def roundToBinary64 (x : ℚ) : JsNumber :=
  if x = 0 then JsNumber.finite 0
  else
    let p := x.num.natAbs
    let q := x.den
    let e := max (floorLog2 p q) (-1022)
    let n := if e ≤ 52 then p * 2 ^ (52 - e).toNat else p
    let d := if e ≤ 52 then q else q * 2 ^ (e - 52).toNat
    let m := n / d
    let r := n % d
    let m1 := if 2 * r < d then m else if d < 2 * r then m + 1 else if m % 2 = 0 then m else m + 1
    let v : ℚ := (m1 : ℚ) * (2 : ℚ) ^ (e - 52)
    if (2 : ℚ) ^ (1024 : ℕ) ≤ v then (if 0 < x then JsNumber.posInf else JsNumber.negInf)
    else JsNumber.finite (if 0 < x then v else -v)

/-- The value of a decimal literal of the source text, such as `0.7`. -/
def numericLiteral (x : ℚ) : JsNumber := roundToBinary64 x

/-- The operator `*` on numbers. -/
def jsMul : JsNumber → JsNumber → JsNumber
  | JsNumber.finite x, JsNumber.finite y => roundToBinary64 (x * y)
  | JsNumber.nan, _ => JsNumber.nan
  | _, JsNumber.nan => JsNumber.nan
  | JsNumber.finite x, JsNumber.posInf =>
    if x = 0 then JsNumber.nan else if 0 < x then JsNumber.posInf else JsNumber.negInf
  | JsNumber.finite x, JsNumber.negInf =>
    if x = 0 then JsNumber.nan else if 0 < x then JsNumber.negInf else JsNumber.posInf
  | JsNumber.posInf, JsNumber.finite y =>
    if y = 0 then JsNumber.nan else if 0 < y then JsNumber.posInf else JsNumber.negInf
  | JsNumber.negInf, JsNumber.finite y =>
    if y = 0 then JsNumber.nan else if 0 < y then JsNumber.negInf else JsNumber.posInf
  | JsNumber.posInf, JsNumber.posInf => JsNumber.posInf
  | JsNumber.negInf, JsNumber.negInf => JsNumber.posInf
  | JsNumber.posInf, JsNumber.negInf => JsNumber.negInf
  | JsNumber.negInf, JsNumber.posInf => JsNumber.negInf

/-- The function `Math.round` on a number: the nearest integer, halves upwards; `NaN` and the
infinities are returned unchanged. -/
def mathRound : JsNumber → JsNumber
  | JsNumber.finite x => JsNumber.finite (⌊x + 1 / 2⌋ : ℤ)
  | v => v

/-! ## JavaScript values and the remote estimator -/

/-- A value produced by `JSON.parse` or `response.json()`. The value `undefined` is the `none`
of `Option JsValue`. The keys of an object are taken to be distinct. -/
inductive JsValue where
  | null
  | bool (b : Bool)
  | number (x : JsNumber)
  | string (s : String)
  | array (items : List JsValue)
  | object (fields : List (String × JsValue))

/-- The built-ins of the JavaScript runtime that the handlers call and that are not modelled
here: `JSON.parse` (`none` when it throws a `SyntaxError`), the conversion `ToNumber` of a
string, an array or an object, and the conversion `ToString` of a number, an array or an
object (an error when a conversion throws a `TypeError`). -/
structure Runtime where
  jsonParse : String → Option JsValue
  toNumber : JsValue → Except String JsNumber
  toString : JsValue → Except String String

/-- The conversion `ToBoolean`. -/
def truthy : Option JsValue → Bool
  | none => false
  | some JsValue.null => false
  | some (JsValue.bool b) => b
  | some (JsValue.number (JsNumber.finite x)) => decide (x ≠ 0)
  | some (JsValue.number JsNumber.nan) => false
  | some (JsValue.number _) => true
  | some (JsValue.string s) => decide (s ≠ "")
  | some (JsValue.array _) => true
  | some (JsValue.object _) => true

/-- The expression `v || d`. -/
def orDefault (v : Option JsValue) (d : JsValue) : JsValue :=
  match v with
  | some x => if truthy (some x) then x else d
  | none => d

/-- The property read `v.key` on a value other than `null`, for a key that no prototype
defines (`choices`, `message`, `content`, `calories`, ...). -/
def getProp : JsValue → String → Option JsValue
  | JsValue.object fields, key => (fields.find? (fun kv => kv.1 == key)).map (fun kv => kv.2)
  | _, _ => none

/-- The element read `v[0]` on a value other than `null`. -/
def getIndex0 : JsValue → Option JsValue
  | JsValue.array items => items.head?
  | JsValue.object fields => getProp (JsValue.object fields) "0"
  | JsValue.string s => if s = "" then none else some (JsValue.string (String.mk (s.toList.take 1)))
  | _ => none

/-- One link `v?.` of an optional chain: `undefined` when `v` is `undefined` or `null`. -/
def optChain (v : Option JsValue) (read : JsValue → Option JsValue) : Option JsValue :=
  match v with
  | none => none
  | some JsValue.null => none
  | some x => read x

/-- The conversion `ToNumber` of a value. -/
def toNumber (rt : Runtime) : JsValue → Except String JsNumber
  | JsValue.null => Except.ok (JsNumber.finite 0)
  | JsValue.bool b => Except.ok (JsNumber.finite (if b then 1 else 0))
  | JsValue.number x => Except.ok x
  | v => rt.toNumber v

/-- The type `OpenAIEstimate`, with the values its fields hold at run time. -/
structure OpenAIEstimate where
  calories : JsNumber
  protein : JsNumber
  carbs : JsNumber
  fat : JsNumber
  fiber : JsNumber
  confidence : JsValue
  detectedIngredients : JsValue
  reasoning : JsValue

/-- The string of a confidence level. -/
def Confidence.toJs : Confidence → JsValue
  | Confidence.alta => JsValue.string "alta"
  | Confidence.media => JsValue.string "media"
  | Confidence.baja => JsValue.string "baja"

/-- The object `{ ...estimate, reasoning }` built from a rule-based estimate. -/
def withReasoning (estimate : Estimate) (reasoning : String) : OpenAIEstimate :=
  { calories := JsNumber.finite estimate.calories
    protein := JsNumber.finite estimate.protein
    carbs := JsNumber.finite estimate.carbs
    fat := JsNumber.finite estimate.fat
    fiber := JsNumber.finite estimate.fiber
    confidence := estimate.confidence.toJs
    detectedIngredients := JsValue.array (estimate.detectedIngredients.map JsValue.string)
    reasoning := JsValue.string reasoning }

/-- What `await fetch(...)` and `await response.json()` can do: the request rejects, or a
response arrives with a status and a body that is JSON (`some`) or not (`none`). -/
inductive RemoteOutcome where
  | networkError
  | response (status : Nat) (json : Option JsValue)

/-- The field `response.ok`. -/
def responseOk (status : Nat) : Bool := 200 ≤ status && status ≤ 299

/-- The expression `data.choices?.[0]?.message?.content || ''`; reading `choices` of `null`
throws. -/
def responseContent (data : JsValue) : Except String JsValue :=
  match data with
  | JsValue.null => Except.error "TypeError"
  | _ =>
    Except.ok (orDefault
      (optChain (optChain (optChain (getProp data "choices") getIndex0)
        (fun v => getProp v "message")) (fun v => getProp v "content"))
      (JsValue.string ""))

/-- The expression `Math.round(parsed.key || 0)`. -/
def roundedField (rt : Runtime) (parsed : JsValue) (key : String) : Except String JsNumber :=
  (toNumber rt (orDefault (getProp parsed key) (JsValue.number (JsNumber.finite 0)))).map
    mathRound

/-- The object literal returned on the successful path, for a parsed value other than `null`. -/
def estimateOfParsed (rt : Runtime) (parsed : JsValue) : Except String OpenAIEstimate := do
  let calories ← roundedField rt parsed "calories"
  let protein ← roundedField rt parsed "protein"
  let carbs ← roundedField rt parsed "carbs"
  let fat ← roundedField rt parsed "fat"
  let fiber ← roundedField rt parsed "fiber"
  pure
    { calories := calories
      protein := protein
      carbs := carbs
      fat := fat
      fiber := fiber
      confidence := orDefault (getProp parsed "confidence") (JsValue.string "media")
      detectedIngredients := orDefault (getProp parsed "detectedIngredients") (JsValue.array [])
      reasoning := orDefault (getProp parsed "reasoning") (JsValue.string "") }

/-- The statements from the cleaning of `content` to the `return` of the `try` block. A
`content` that is not a string has no method `replace`; `JSON.parse` may throw; reading a
property of `null` throws. -/
def parseContent (rt : Runtime) (content : JsValue) : Except String OpenAIEstimate :=
  match content with
  | JsValue.string s =>
    match rt.jsonParse (String.mk (cleanContent s.toList)) with
    | none => Except.error "SyntaxError"
    | some JsValue.null => Except.error "TypeError"
    | some parsed => estimateOfParsed rt parsed
  | _ => Except.error "TypeError"

/-- The `try` block of `estimateCaloriesWithOpenAI`, given what the remote call did. -/
def tryRemoteEstimate (rt : Runtime) (outcome : RemoteOutcome) : Except String OpenAIEstimate :=
  match outcome with
  | RemoteOutcome.networkError => Except.error "TypeError: Failed to fetch"
  | RemoteOutcome.response status json =>
    if responseOk status then
      match json with
      | none => Except.error "SyntaxError"
      | some data => (responseContent data).bind (parseContent rt)
    else Except.error "Error de API"

/-- The function `estimateCaloriesWithOpenAI`: the `catch` block turns every error of the
`try` block into the rule-based estimate. The request (prompt, headers, model) is not
modelled; `outcome` is what it led to. -/
def estimateCaloriesWithOpenAI (rt : Runtime) (description : String) (outcome : RemoteOutcome) :
    Except String OpenAIEstimate :=
  match tryRemoteEstimate rt outcome with
  | Except.ok estimate => Except.ok estimate
  | Except.error _ =>
    Except.ok (withReasoning (estimateCaloriesFromDescription description)
      "Estimación de respaldo (error en API)")

/-! ## The coordinator and the meal entry -/

/-- The component state that the two handlers read and write. `openaiApiKey` is `none` when
the key is absent; `portion` is set by the portion buttons to 1, 2 or 3 and is any integer
here; `remoteCalls` counts the calls of `estimateCaloriesWithOpenAI` made so far (bookkeeping
of the model, not a variable of the source). -/
structure AiState where
  aiDescription : String
  aiEstimate : Option OpenAIEstimate
  isLoadingAi : Bool
  portion : Int
  openaiApiKey : Option String
  remoteCalls : Nat

/-- The truth value of `state.openaiApiKey`, and the key handed to the remote estimator. -/
def apiKeyOf (key : Option String) : Option String :=
  match key with
  | some k => if k = "" then none else some k
  | none => none

/-- The function `handleAiEstimate`. `remote description key` is what the remote call does
when it is made. -/
def handleAiEstimate (rt : Runtime) (remote : String → String → RemoteOutcome) (st : AiState)
    (description : String) : Except String AiState :=
  let st := { st with aiDescription := description }
  if utf16Length (trim description.toList) < 3 then
    Except.ok { st with aiEstimate := none }
  else
    match apiKeyOf st.openaiApiKey with
    | some key =>
      let st := { st with isLoadingAi := true, remoteCalls := st.remoteCalls + 1 }
      match estimateCaloriesWithOpenAI rt description (remote description key) with
      | Except.ok estimate =>
        Except.ok { st with aiEstimate := some estimate, isLoadingAi := false }
      | Except.error _ =>
        Except.ok
          { st with
            aiEstimate := some (withReasoning (estimateCaloriesFromDescription description)
              "Estimación de respaldo")
            isLoadingAi := false }
    | none =>
      Except.ok
        { st with
          aiEstimate := some (withReasoning (estimateCaloriesFromDescription description)
            "Sin API key - usando reglas básicas") }

/-- The constant `portionScale`. -/
def portionScale : List JsNumber :=
  [numericLiteral (7 / 10), numericLiteral 1, numericLiteral (13 / 10)]

/-- The expression `portionScale[portion - 1] ?? 1`. -/
def scaleOfPortion (portion : Int) : JsNumber :=
  match (if 1 ≤ portion then portionScale.get? (portion - 1).toNat else none) with
  | some scale => scale
  | none => numericLiteral 1

/-- The fields of a `MealEntry` that `handleAddMealFromAi` computes (`id` is random and
`mealType`, `time` and `date` are copied from the state). -/
structure MealEntry where
  name : String
  portion : Int
  calories : JsNumber
  protein : JsNumber
  carbs : JsNumber
  fat : JsNumber
  fiber : JsNumber
  note : String

/-- The conversion `ToString` of a value inside a template literal or a concatenation. -/
def toStr (rt : Runtime) : JsValue → Except String String
  | JsValue.null => Except.ok "null"
  | JsValue.bool b => Except.ok (if b then "true" else "false")
  | JsValue.string s => Except.ok s
  | v => rt.toString v

/-- The strings of the elements of an array inside `join`: `null` gives the empty string. -/
def joinParts (rt : Runtime) : List JsValue → Except String (List String)
  | [] => Except.ok []
  | item :: rest =>
    match (match item with
      | JsValue.null => Except.ok ""
      | v => toStr rt v) with
    | Except.error msg => Except.error msg
    | Except.ok part =>
      match joinParts rt rest with
      | Except.error msg => Except.error msg
      | Except.ok parts => Except.ok (part :: parts)

/-- The method call `value.join(', ')`: only an array has the method. -/
def joinComma (rt : Runtime) : JsValue → Except String String
  | JsValue.array items => (joinParts rt items).map (fun parts => ", ".intercalate parts)
  | _ => Except.error "TypeError"

/-- The template literal of the field `note`. -/
def noteOf (rt : Runtime) (estimate : OpenAIEstimate) : Except String String := do
  let confidence ← toStr rt estimate.confidence
  let ingredients ← joinComma rt estimate.detectedIngredients
  let reasoning ←
    if truthy (some estimate.reasoning) then
      (toStr rt estimate.reasoning).map (fun r => " - " ++ r)
    else Except.ok ""
  pure ("IA (" ++ confidence ++ "): " ++ ingredients ++ reasoning)

/-- The entry built by `handleAddMealFromAi` and prepended to `state.meals`; `none` when the
handler returns at its guard. -/
def handleAddMealFromAi (rt : Runtime) (st : AiState) : Except String (Option MealEntry) :=
  match st.aiEstimate with
  | none => Except.ok none
  | some aiEstimate =>
    if trim st.aiDescription.toList = [] then Except.ok none
    else do
      let scale := scaleOfPortion st.portion
      let note ← noteOf rt aiEstimate
      pure (some
        { name := String.mk (trim st.aiDescription.toList)
          portion := st.portion
          calories := mathRound (jsMul aiEstimate.calories scale)
          protein := mathRound (jsMul aiEstimate.protein scale)
          carbs := mathRound (jsMul aiEstimate.carbs scale)
          fat := mathRound (jsMul aiEstimate.fat scale)
          fiber := mathRound (jsMul aiEstimate.fiber scale)
          note := note })

/-! ## Vocabulary for the remote estimator and the coordinator -/

/-- The remote call fails: the request rejects, the status is not a success, the body is not
JSON, the content is empty (and `JSON.parse('')` throws), or the cleaned content does not
parse. -/
inductive RemoteFails (rt : Runtime) : RemoteOutcome → Prop where
  | network : RemoteFails rt RemoteOutcome.networkError
  | status (status : Nat) (json : Option JsValue) (h : responseOk status = false) :
      RemoteFails rt (RemoteOutcome.response status json)
  | body (status : Nat) : RemoteFails rt (RemoteOutcome.response status none)
  | empty (status : Nat) (data : JsValue)
      (hcontent : responseContent data = Except.ok (JsValue.string ""))
      (hparse : rt.jsonParse "" = none) :
      RemoteFails rt (RemoteOutcome.response status (some data))
  | unparsable (status : Nat) (data : JsValue) (content : String)
      (hcontent : responseContent data = Except.ok (JsValue.string content))
      (hparse : rt.jsonParse (String.mk (cleanContent content.toList)) = none) :
      RemoteFails rt (RemoteOutcome.response status (some data))

/-- The rule-based estimate of `description` tagged with `reasoning`. -/
def ruleBased (description : String) (reasoning : String) : OpenAIEstimate :=
  withReasoning (estimateCaloriesFromDescription description) reasoning

/-- A numeric result `r` is what `Math.round(field || 0)` gives for a field that is missing
or a finite number: `0` when missing, the number rounded to an integer otherwise. -/
def RoundedOrZero (field : Option JsValue) (r : JsNumber) : Prop :=
  (field = none → r = JsNumber.finite 0) ∧
  (∀ x : ℚ, field = some (JsValue.number (JsNumber.finite x)) →
    r = JsNumber.finite (⌊x + 1 / 2⌋ : ℤ))

/-- The field is missing or a finite number. -/
def MissingOrFinite (field : Option JsValue) : Prop :=
  field = none ∨ ∃ x : ℚ, field = some (JsValue.number (JsNumber.finite x))

/-- A result `r` is the parsed field, or `d` when the field is missing (the rule as the
specification words it). -/
def ParsedOrDefaultWhenMissing (field : Option JsValue) (d r : JsValue) : Prop :=
  (field = none → r = d) ∧ (∀ v, field = some v → r = v)

/-- A result `r` is the parsed field when it is present and truthy, and `d` when the field is
missing or falsy (`null`, `false`, `0`, `NaN`, the empty string). -/
def ParsedOrDefaultWhenFalsy (field : Option JsValue) (d r : JsValue) : Prop :=
  (field = none → r = d) ∧
  (∀ v, field = some v → truthy (some v) = true → r = v) ∧
  (∀ v, field = some v → truthy (some v) = false → r = d)

/-- A number is a non-negative integer. -/
def IsNonnegInteger (r : JsNumber) : Prop := ∃ n : ℕ, r = JsNumber.finite (n : ℚ)

/-- A value is one of the strings `'alta'`, `'media'`, `'baja'`. -/
def IsConfidence (v : JsValue) : Prop :=
  v = JsValue.string "alta" ∨ v = JsValue.string "media" ∨ v = JsValue.string "baja"

/-- The invariants of a `NutritionalEstimate` on an estimate of the remote path. -/
def SatisfiesInvariants (e : OpenAIEstimate) : Prop :=
  IsNonnegInteger e.calories ∧ IsNonnegInteger e.protein ∧ IsNonnegInteger e.carbs ∧
  IsNonnegInteger e.fat ∧ IsNonnegInteger e.fiber ∧ IsConfidence e.confidence

/-- A runtime for the examples: its `JSON.parse` knows three texts, `{}`,
`{"confidence": ""}` and `{"calories": -5, "confidence": "quizas"}`, and rejects every other. -/
def sampleRuntime : Runtime where
  jsonParse := fun text =>
    if text = "\x7b\x7d" then some (JsValue.object [])
    else if text = "\x7b\"confidence\": \"\"\x7d" then
      some (JsValue.object [("confidence", JsValue.string "")])
    else if text = "\x7b\"calories\": -5, \"confidence\": \"quizas\"\x7d" then
      some (JsValue.object [("calories", JsValue.number (JsNumber.finite (-5))),
        ("confidence", JsValue.string "quizas")])
    else none
  toNumber := fun _ => Except.ok JsNumber.nan
  toString := fun _ => Except.ok ""

/-- A response body `{choices: [{message: {content}}]}`. -/
def chatBody (content : String) : JsValue :=
  JsValue.object [("choices", JsValue.array [JsValue.object [("message",
    JsValue.object [("content", JsValue.string content)])]])]

/-- A component state for the examples. -/
def sampleState (key : Option String) : AiState :=
  { aiDescription := ""
    aiEstimate := none
    isLoadingAi := false
    portion := 2
    openaiApiKey := key
    remoteCalls := 0 }

/-- A number is an integer. -/
def IsInteger (r : JsNumber) : Prop := ∃ n : ℤ, r = JsNumber.finite (n : ℚ)

/-- The keys of the five numeric fields of the response schema. -/
def numericKeys : List String := ["calories", "protein", "carbs", "fat", "fiber"]

/-- The field is missing or a finite number that is not negative. -/
def MissingOrNonneg (field : Option JsValue) : Prop :=
  field = none ∨ ∃ x : ℚ, 0 ≤ x ∧ field = some (JsValue.number (JsNumber.finite x))

/-- A number is an integer of magnitude below `2 ^ 53`. -/
def IsSafeInteger (r : JsNumber) : Prop :=
  ∃ n : ℤ, |n| < 2 ^ 53 ∧ r = JsNumber.finite (n : ℚ)

/-- A number is a binary64 value: rounding it to binary64 leaves it unchanged. Every number
that exists at run time is one. -/
def IsBinary64 : JsNumber → Prop
  | JsNumber.finite x => roundToBinary64 x = JsNumber.finite x
  | _ => True

/-- A number is a possible result of `Math.round`: a binary64 value that `Math.round` leaves
unchanged (an integer, `NaN` or an infinity). -/
def IsRoundResult (r : JsNumber) : Prop := IsBinary64 r ∧ mathRound r = r

/-! ## The food database and `buildMealEntry` -/

/-- The type `FoodItem`. -/
structure FoodItem where
  id : String
  name : String
  category : String
  calories : JsNumber
  protein : JsNumber
  carbs : JsNumber
  fat : JsNumber
  fiber : JsNumber
  deriving DecidableEq, Repr

/-- An element of `baseFoods`; its five numbers are written as decimal literals. -/
def baseFood (id name category : String) (calories protein carbs fat fiber : ℚ) : FoodItem :=
  { id := id
    name := name
    category := category
    calories := JsNumber.finite calories
    protein := JsNumber.finite protein
    carbs := JsNumber.finite carbs
    fat := JsNumber.finite fat
    fiber := JsNumber.finite fiber }

/-- The table `baseFoods`. -/
def baseFoods : List FoodItem := [
  baseFood "f-1" "Manzana" "Frutas" 95 0 25 0 4,
  baseFood "f-2" "Banana" "Frutas" 105 1 27 0 3,
  baseFood "f-3" "Naranja" "Frutas" 62 1 15 0 3,
  baseFood "f-4" "Frutilla" "Frutas" 50 1 12 0 3,
  baseFood "f-5" "Ensalada de frutas" "Frutas" 120 1 30 0 4,
  baseFood "f-6" "Licuado de frutas" "Frutas" 180 4 35 2 3,
  baseFood "f-7" "Fruta enlatada light" "Frutas" 70 0 18 0 2,
  baseFood "f-8" "Pasas de uva" "Frutas" 130 1 34 0 2,
  baseFood "f-9" "Orejones (fruta deshidratada)" "Frutas" 95 1 25 0 3,
  baseFood "v-1" "Tomate" "Verduras" 22 1 5 0 1,
  baseFood "v-2" "Papa" "Verduras" 160 4 37 0 4,
  baseFood "v-3" "Batata" "Verduras" 115 2 27 0 4,
  baseFood "v-4" "Choclo" "Verduras" 125 4 27 2 3,
  baseFood "v-5" "Calabaza" "Verduras" 50 2 12 0 3,
  baseFood "v-6" "Zapallitos" "Verduras" 20 1 4 0 1,
  baseFood "v-7" "Berenjena" "Verduras" 35 1 9 0 3,
  baseFood "v-8" "Brócoli" "Verduras" 55 4 11 0 5,
  baseFood "v-9" "Repollo" "Verduras" 25 1 6 0 2,
  baseFood "v-10" "Zanahoria" "Verduras" 50 1 12 0 3,
  baseFood "v-11" "Lechuga" "Verduras" 10 1 2 0 1,
  baseFood "v-12" "Champiñones" "Verduras" 22 3 3 0 1,
  baseFood "v-13" "Espinaca" "Verduras" 23 3 4 0 2,
  baseFood "v-14" "Cebolla" "Verduras" 44 1 10 0 2,
  baseFood "v-15" "Pimiento" "Verduras" 30 1 6 0 2,
  baseFood "v-16" "Jardinera (mezcla de verduras)" "Verduras" 65 3 13 0 4,
  baseFood "p-1" "Pechuga de pollo" "Proteínas" 165 31 0 4 0,
  baseFood "p-2" "Muslo de pollo" "Proteínas" 210 26 0 11 0,
  baseFood "p-3" "Pollo a la plancha" "Proteínas" 185 35 0 4 0,
  baseFood "p-4" "Bife magro" "Proteínas" 220 26 0 12 0,
  baseFood "p-5" "Cuadril" "Proteínas" 200 28 0 9 0,
  baseFood "p-6" "Nalga" "Proteínas" 180 29 0 6 0,
  baseFood "p-7" "Bola de lomo" "Proteínas" 175 28 0 6 0,
  baseFood "p-8" "Lomo" "Proteínas" 190 30 0 7 0,
  baseFood "p-9" "Peceto" "Proteínas" 165 29 0 5 0,
  baseFood "p-10" "Hamburguesa casera" "Proteínas" 250 20 2 18 0,
  baseFood "p-11" "Huevo" "Proteínas" 78 6 1 5 0,
  baseFood "p-12" "Huevo revuelto" "Proteínas" 150 10 2 11 0,
  baseFood "p-13" "Huevo duro" "Proteínas" 78 6 1 5 0,
  baseFood "p-14" "Filete de pescado" "Proteínas" 150 28 0 3 0,
  baseFood "p-15" "Atún al natural (lata)" "Proteínas" 120 26 0 1 0,
  baseFood "p-16" "Salmón" "Proteínas" 230 25 0 14 0,
  baseFood "p-17" "Merluza" "Proteínas" 90 19 0 1 0,
  baseFood "c-1" "Arroz blanco" "Granos" 205 4 45 0 1,
  baseFood "c-2" "Arroz integral" "Granos" 220 5 46 2 4,
  baseFood "c-3" "Quinoa" "Granos" 220 8 39 4 5,
  baseFood "c-4" "Avena" "Granos" 150 5 27 3 4,
  baseFood "c-5" "Lentejas" "Granos" 230 18 40 1 16,
  baseFood "c-6" "Garbanzos" "Granos" 270 15 45 4 12,
  baseFood "c-7" "Porotos" "Granos" 225 15 41 1 15,
  baseFood "c-8" "Arvejas" "Granos" 120 8 21 0 8,
  baseFood "c-9" "Fideos" "Granos" 220 8 43 1 2,
  baseFood "c-10" "Fideos integrales" "Granos" 200 8 40 1 6,
  baseFood "c-11" "Polenta" "Granos" 180 4 38 1 2,
  baseFood "c-12" "Granola" "Granos" 200 5 32 7 3,
  baseFood "c-13" "Ravioles de verdura" "Granos" 280 10 42 8 3,
  baseFood "c-14" "Ravioles de ricota" "Granos" 300 12 40 10 2,
  baseFood "c-15" "Milanesa de soja" "Granos" 180 15 15 8 4,
  baseFood "c-16" "Soja texturizada" "Granos" 170 25 15 1 8,
  baseFood "pa-1" "Pan lactal integral" "Granos" 80 3 15 1 2,
  baseFood "pa-2" "Tostadas de gluten" "Granos" 45 4 6 1 1,
  baseFood "pa-3" "Discos de arroz" "Granos" 35 1 8 0 0,
  baseFood "pa-4" "Rapiditas light integrales" "Granos" 90 3 18 1 3,
  baseFood "pa-5" "Pan integral" "Granos" 70 3 13 1 2,
  baseFood "l-1" "Leche descremada" "Lácteos" 90 9 13 0 0,
  baseFood "l-2" "Leche en polvo descremada" "Lácteos" 100 10 14 0 0,
  baseFood "l-3" "Yogur descremado" "Lácteos" 100 10 12 0 0,
  baseFood "l-4" "Yogur natural sin azúcar" "Lácteos" 60 6 5 2 0,
  baseFood "l-5" "Yogur griego" "Lácteos" 130 12 8 5 0,
  baseFood "l-6" "Queso fresco mantecoso" "Lácteos" 280 20 2 22 0,
  baseFood "l-7" "Queso cuartirolo" "Lácteos" 260 18 2 20 0,
  baseFood "l-8" "Queso de máquina (fetas)" "Lácteos" 50 4 1 4 0,
  baseFood "l-9" "Queso untable" "Lácteos" 80 5 2 6 0,
  baseFood "l-10" "Queso untable light" "Lácteos" 45 6 2 2 0,
  baseFood "l-11" "Ricota" "Lácteos" 170 14 4 11 0,
  baseFood "g-1" "Aceite de oliva" "Grasas saludables" 120 0 0 14 0,
  baseFood "g-2" "Aceite vegetal" "Grasas saludables" 120 0 0 14 0,
  baseFood "g-3" "Rocío vegetal" "Grasas saludables" 10 0 0 1 0,
  baseFood "g-4" "Pasta de maní" "Grasas saludables" 190 8 6 16 2,
  baseFood "g-5" "Palta" "Grasas saludables" 160 2 9 15 7,
  baseFood "fs-1" "Almendras" "Grasas saludables" 165 6 6 14 3,
  baseFood "fs-2" "Nueces" "Grasas saludables" 185 4 4 18 2,
  baseFood "fs-3" "Castañas" "Grasas saludables" 70 1 15 1 2,
  baseFood "fs-4" "Maní tostado sin sal" "Grasas saludables" 170 7 5 14 2,
  baseFood "fs-5" "Pistachos" "Grasas saludables" 160 6 8 13 3,
  baseFood "fs-6" "Avellanas" "Grasas saludables" 180 4 5 17 3,
  baseFood "fs-7" "Semillas de chía" "Grasas saludables" 140 5 12 9 10,
  baseFood "fs-8" "Semillas de lino" "Grasas saludables" 150 5 8 12 8,
  baseFood "b-1" "Agua" "Bebidas" 0 0 0 0 0,
  baseFood "b-2" "Soda" "Bebidas" 0 0 0 0 0,
  baseFood "b-3" "Gaseosa light" "Bebidas" 0 0 0 0 0,
  baseFood "b-4" "Agua saborizada light" "Bebidas" 5 0 1 0 0,
  baseFood "b-5" "Jugo light" "Bebidas" 10 0 2 0 0,
  baseFood "b-6" "Té" "Bebidas" 2 0 0 0 0,
  baseFood "b-7" "Café" "Bebidas" 5 0 0 0 0,
  baseFood "b-8" "Mate cocido" "Bebidas" 5 0 1 0 0,
  baseFood "b-9" "Mate cebado" "Bebidas" 10 0 2 0 0,
  baseFood "b-10" "Café con leche" "Bebidas" 60 4 6 2 0,
  baseFood "b-11" "Smoothie verde" "Bebidas" 180 4 35 3 6,
  baseFood "pr-1" "Avena con frutos rojos" "Granos" 280 10 45 6 7,
  baseFood "pr-2" "Yogur con granola" "Lácteos" 250 12 38 6 4,
  baseFood "pr-3" "Panqueques de avena" "Granos" 220 10 30 6 4,
  baseFood "pr-4" "Tostadas integrales con huevo" "Proteínas" 250 15 25 10 4,
  baseFood "pr-5" "Tostadas con palta" "Grasas saludables" 280 6 25 18 8,
  baseFood "pr-6" "Tostadas con queso untable" "Lácteos" 150 8 18 5 2,
  baseFood "pp-1" "Ensalada César" "Verduras" 350 20 15 25 4,
  baseFood "pp-2" "Ensalada de quinoa y palta" "Verduras" 380 12 40 18 8,
  baseFood "pp-3" "Ensalada de lentejas con huevo" "Granos" 350 22 35 12 12,
  baseFood "pp-4" "Pollo al champiñón" "Proteínas" 280 35 8 12 2,
  baseFood "pp-5" "Pollo a la parrilla con ensalada" "Proteínas" 320 38 10 14 4,
  baseFood "pp-6" "Tortilla de papa al horno" "Proteínas" 280 14 25 14 3,
  baseFood "pp-7" "Cuadril con calabazas asadas" "Proteínas" 350 32 18 16 4,
  baseFood "pp-8" "Hamburguesa de legumbres con vegetales" "Granos" 320 18 35 12 10,
  baseFood "pp-9" "Milanesa de berenjena a la napolitana" "Verduras" 350 18 28 18 6,
  baseFood "pp-10" "Pastel de calabaza con pollo" "Proteínas" 380 28 30 16 5,
  baseFood "pp-11" "Bifes a la mostaza con vegetales" "Proteínas" 340 30 12 18 4,
  baseFood "pp-12" "Tarta de zapallitos" "Verduras" 280 12 25 15 4,
  baseFood "pp-13" "Tarta de verdura" "Verduras" 300 12 28 16 5,
  baseFood "pp-14" "Pescado con brócoli gratinado" "Proteínas" 320 35 12 14 5,
  baseFood "pp-15" "Salmón con vegetales" "Proteínas" 400 32 15 24 5,
  baseFood "pp-16" "Fajitas integrales caseras" "Proteínas" 380 25 35 15 6,
  baseFood "pp-17" "Omelette caprese" "Proteínas" 280 18 6 20 1,
  baseFood "pp-18" "Arroz con pollo" "Proteínas" 420 30 45 12 2,
  baseFood "pp-19" "Fideos con salsa de tomate" "Granos" 350 12 55 8 4,
  baseFood "pp-20" "Milanesa de pollo con ensalada" "Proteínas" 450 35 25 24 3,
  baseFood "pp-21" "Wok de vegetales con pollo" "Proteínas" 320 28 20 14 6,
  baseFood "pp-22" "Guiso de lentejas" "Granos" 350 20 45 8 14,
  baseFood "pp-23" "Polenta con salsa" "Granos" 280 8 45 6 3,
  baseFood "pp-24" "Revuelto gramajo" "Proteínas" 420 18 35 24 3,
  baseFood "ce-1" "Lomito con papas" "Otros" 650 30 55 35 4,
  baseFood "ce-2" "Pizza (porción)" "Otros" 280 12 35 10 2,
  baseFood "ce-3" "Helado (bocha)" "Otros" 140 2 18 7 0,
  baseFood "ce-4" "Facturas" "Otros" 250 4 30 12 1,
  baseFood "ce-5" "Empanada de carne" "Otros" 280 10 25 15 1,
  baseFood "ce-6" "Empanada de pollo" "Otros" 250 12 24 12 1,
  baseFood "ce-7" "Empanada de verdura" "Otros" 220 8 26 10 2,
  baseFood "ce-8" "Asado" "Proteínas" 450 35 0 34 0,
  baseFood "ce-9" "Choripán" "Otros" 480 18 35 30 2,
  baseFood "to-1" "Tostada con palta y huevo" "Proteínas" 320 14 25 20 8,
  baseFood "to-2" "Tostada con ricota y frutos rojos" "Lácteos" 220 12 22 10 3,
  baseFood "to-3" "Tostada con queso untable y tomate" "Lácteos" 160 8 18 6 2,
  baseFood "to-4" "Tostada con mantequilla de maní y banana" "Grasas saludables" 310 10 35 16 4,
  baseFood "to-5" "Tostada con hummus y vegetales" "Granos" 230 9 28 10 6,
  baseFood "to-6" "Tostada caprese" "Lácteos" 240 12 20 13 2,
  baseFood "to-7" "Tostada con queso untable y salmón" "Proteínas" 280 18 16 16 2,
  baseFood "sb-1" "Smoothie bowl de frutas" "Frutas" 320 8 55 8 7,
  baseFood "sb-2" "Smoothie bowl proteico" "Lácteos" 350 20 40 12 6,
  baseFood "wr-1" "Wrap de pollo y vegetales" "Proteínas" 340 28 30 12 4,
  baseFood "wr-2" "Wrap de atún y palta" "Proteínas" 380 24 28 20 6,
  baseFood "wr-3" "Crepe de espinaca y ricota" "Lácteos" 280 16 22 14 3,
  baseFood "wr-4" "Sandwich integral de pavo" "Proteínas" 300 22 30 10 4,
  baseFood "wr-5" "Wrap mediterráneo" "Verduras" 290 10 32 14 5,
  baseFood "wr-6" "Crepe de pollo y champiñones" "Proteínas" 310 24 25 13 2,
  baseFood "pn-1" "Pollo al horno con ensalada mixta" "Proteínas" 350 35 12 18 4,
  baseFood "pn-2" "Tortilla de vegetales con ensalada" "Proteínas" 300 16 20 18 5,
  baseFood "pn-3" "Milanesa de pollo al horno con ensalada" "Proteínas" 400 32 22 20 4,
  baseFood "pn-4" "Yogur griego con frutas" "Lácteos" 200 14 25 6 2,
  baseFood "pn-5" "Hummus" "Granos" 180 8 20 8 5,
  baseFood "en-1" "Ensalada griega" "Verduras" 250 8 12 18 3,
  baseFood "en-2" "Ensalada caprese" "Verduras" 280 14 8 20 2,
  baseFood "en-3" "Ensalada de mango y roquefort" "Verduras" 320 10 28 20 4,
  baseFood "en-4" "Ensalada de pera y nueces" "Verduras" 300 8 25 20 5,
  baseFood "en-5" "Ensalada cuatro colores" "Verduras" 200 6 18 12 5,
  baseFood "en-6" "Ensalada violeta" "Verduras" 220 7 20 13 6,
  baseFood "en-7" "Ensalada con queso de cabra" "Verduras" 310 14 12 24 3,
  baseFood "en-8" "Ensalada verde de quinoa" "Verduras" 280 10 32 12 6,
  baseFood "en-9" "Ensalada de rabanito" "Verduras" 180 5 14 12 4,
  baseFood "en-10" "Ensalada caprese con pasta" "Granos" 380 16 42 16 3,
  baseFood "en-11" "Ensalada festival" "Verduras" 260 8 22 16 5,
  baseFood "en-12" "Ensalada arcoíris" "Verduras" 220 7 20 13 6,
  baseFood "en-13" "Ensalada frutal" "Verduras" 190 4 28 8 5,
  baseFood "en-14" "Ensalada con tofu" "Proteínas" 250 16 14 16 4,
  baseFood "en-15" "Ensalada suprema" "Proteínas" 280 22 12 16 4,
  baseFood "en-16" "Ensalada rústica" "Verduras" 260 10 22 15 5,
  baseFood "en-17" "Ensalada mexicana" "Verduras" 290 12 28 14 7,
  baseFood "en-18" "Ensalada César simple" "Verduras" 280 14 16 18 3,
  baseFood "en-19" "Ensalada con atún" "Proteínas" 300 26 12 16 4,
  baseFood "en-20" "Ensalada de porotos negros" "Granos" 270 14 36 8 10,
  baseFood "en-21" "Ensalada de mar" "Proteínas" 240 20 14 12 3,
  baseFood "en-22" "Ensalada campestre" "Verduras" 250 8 20 16 5,
  baseFood "en-23" "Ensalada gourmet" "Verduras" 310 12 18 22 4,
  baseFood "en-24" "Ensalada de tofu y quinoa" "Proteínas" 280 16 28 12 6,
  baseFood "en-25" "Ensalada con arroz negro y heura" "Proteínas" 320 20 34 12 5,
  baseFood "en-26" "Ensalada radical" "Verduras" 230 6 22 14 6]

/-- The function `findFood`: the first food of `[...customFoods, ...baseFoods]` whose
lower-cased name is the lower-cased `name`. -/
def findFood (name : String) (customFoods : List FoodItem) : Option FoodItem :=
  (customFoods ++ baseFoods).find?
    (fun food => toLowerCase food.name.toList == toLowerCase name.toList)

/-- The expression `food?.field ?? fallback` for a numeric field. -/
def fieldOr (food : Option FoodItem) (field : FoodItem → JsNumber) (fallback : JsNumber) :
    JsNumber :=
  match food with
  | some item => field item
  | none => fallback

/-- The function `buildMealEntry`, on the fields of `MealEntry` kept by the model. -/
def buildMealEntry (name : String) (portion : Int) (customFoods : List FoodItem)
    (note : String) : MealEntry :=
  let food := findFood name customFoods
  let scale := scaleOfPortion portion
  { name := name
    portion := portion
    calories := mathRound (jsMul (fieldOr food (fun item => item.calories) (JsNumber.finite 280))
      scale)
    protein := mathRound (jsMul (fieldOr food (fun item => item.protein) (JsNumber.finite 12))
      scale)
    carbs := mathRound (jsMul (fieldOr food (fun item => item.carbs) (JsNumber.finite 36)) scale)
    fat := mathRound (jsMul (fieldOr food (fun item => item.fat) (JsNumber.finite 9)) scale)
    fiber := mathRound (jsMul (fieldOr food (fun item => item.fiber) (JsNumber.finite 5)) scale)
    note := note }

/-! ## Vocabulary for the tables -/

/-- All trigger phrases of `foodKeywords`, in table order. -/
def foodPhrases : List String := foodKeywords.flatMap (fun food => food.keywords)

/-- A phrase equals its own normalization (lower-cased, decomposed, marks removed). -/
abbrev IsOwnNormalization (phrase : String) : Prop :=
  normalizeDescription phrase = phrase.toList

/-- The table `portionModifiers` without its three accented phrases. -/
def unaccentedPortionModifiers : List PortionModifier := [
  ⟨["grande", "mucho", "abundante", "plato lleno", "doble"], 15⟩,
  ⟨["chico", "poco", "mitad"], 6⟩,
  ⟨["normal", "regular"], 10⟩]

/-- The order `baja < media < alta`. -/
def Confidence.rank : Confidence → Nat
  | Confidence.baja => 0
  | Confidence.media => 1
  | Confidence.alta => 2

/-- The normalized form of `phrase` contains the normalized form of a phrase that stands
before it in `keywords`. -/
def shadowedIn (keywords : List String) (phrase : String) : Bool :=
  (keywords.takeWhile (fun k => k != phrase)).any
    (fun k => includes (stripAccents phrase.toList) (stripAccents k.toList))

/-- The phrases of `foodKeywords` shadowed by an earlier phrase of their own entry. -/
def shadowedPhrases : List String :=
  foodKeywords.flatMap (fun food => food.keywords.filter (shadowedIn food.keywords))

/-- The entries of `foodKeywords` named in the claims on shared phrases and substrings. -/
def carneEntry : FoodKeyword := ⟨["carne", "bife", "lomo", "cuadril", "asado"], 200, 28, 0, 10, 0⟩

/-- The `queso` food entry. -/
def quesoEntry : FoodKeyword := ⟨["queso"], 100, 7, 1, 8, 0⟩

/-- The `aceite` food entry. -/
def aceiteEntry : FoodKeyword := ⟨["aceite"], 120, 0, 0, 14, 0⟩

/-- The `palta` food entry. -/
def paltaEntry : FoodKeyword := ⟨["palta", "aguacate"], 160, 2, 9, 15, 7⟩

/-- The `tomate` food entry. -/
def tomateEntry : FoodKeyword := ⟨["tomate"], 22, 1, 5, 0, 1⟩

/-- The `mate` food entry. -/
def mateEntry : FoodKeyword := ⟨["mate"], 10, 0, 2, 0, 0⟩

/-- The `té` food entry. -/
def teEntry : FoodKeyword := ⟨["té", "te"], 2, 0, 0, 0, 0⟩

/-- The `pan` food entry. -/
def panEntry : FoodKeyword := ⟨["pan", "tostada", "tostadas"], 80, 3, 15, 1, 2⟩

/-- The `empanada` food entry. -/
def empanadaEntry : FoodKeyword := ⟨["empanada"], 250, 10, 25, 13, 1⟩

/-- The preparation entry of `asado`. -/
def planchaEntry : PreparationModifier := ⟨["a la plancha", "grillado", "asado"], 10, 1⟩

/-- The preparation entry of `con queso`. -/
def gratinadoEntry : PreparationModifier := ⟨["gratinado", "con queso"], 80, 8⟩

/-- The preparation entry of `con aceite`. -/
def conAceiteEntry : PreparationModifier := ⟨["con aceite"], 60, 7⟩

/-- The preparation entry of `con palta`. -/
def conPaltaEntry : PreparationModifier := ⟨["con palta", "con aguacate"], 80, 8⟩

/-! ## Vocabulary for the cleaning of the response -/

/-- The character U+0060. -/
def backtick : Char := Char.ofNat 96

/-- The fence of three backticks. -/
def tripleBacktick : List Char := [backtick, backtick, backtick]

/-- The fence of three backticks followed by `json`. -/
def jsonFence : List Char := [backtick, backtick, backtick, 'j', 's', 'o', 'n']

/-- A text has no leading and no trailing white space. -/
def NoOuterWhiteSpace (t : List Char) : Prop :=
  (∀ c, t.head? = some c → isWhiteSpace c = false) ∧
  (∀ c, t.getLast? = some c → isWhiteSpace c = false)

/-- The parsed confidence is missing, falsy, or one of the strings `'alta'`, `'media'`,
`'baja'`. -/
def MissingFalsyOrConfidence (field : Option JsValue) : Prop :=
  field = none ∨ ∃ v, field = some v ∧ (truthy (some v) = false ∨ IsConfidence v)

/-- A second runtime for the examples: its `JSON.parse` knows two texts,
`{"calories": 250.5, "protein": -3, "confidence": "alta"}` and
`{"calories": 120, "confidence": "quizas"}`, and rejects every other. -/
def mixedRuntime : Runtime where
  jsonParse := fun text =>
    if text = "\x7b\"calories\": 250.5, \"protein\": -3, \"confidence\": \"alta\"\x7d" then
      some (JsValue.object [("calories", JsValue.number (JsNumber.finite (501 / 2))),
        ("protein", JsValue.number (JsNumber.finite (-3))),
        ("confidence", JsValue.string "alta")])
    else if text = "\x7b\"calories\": 120, \"confidence\": \"quizas\"\x7d" then
      some (JsValue.object [("calories", JsValue.number (JsNumber.finite 120)),
        ("confidence", JsValue.string "quizas")])
    else none
  toNumber := fun _ => Except.ok JsNumber.nan
  toString := fun _ => Except.ok ""

/-! ## Lemmas on the loops -/

theorem roundScaled_eq_roundHalfUp (total : Int) (tenths : Nat) :
    roundScaled total tenths = roundHalfUp tenths total := by
  unfold roundScaled roundHalfUp
  have h : (tenths : ℚ) / 10 * (total : ℚ) + 1 / 2
      = ((2 * total * tenths + 10 : ℤ) : ℚ) / ((20 : ℕ) : ℚ) := by
    push_cast
    ring
  rw [h, Rat.floor_intCast_div_natCast]
  rfl

theorem roundScaled_ten (total : Int) : roundScaled total 10 = total := by
  unfold roundScaled
  omega

theorem foodStep_of_matches (nd : List Char) (acc : Totals) (food : FoodKeyword)
    (h : foodMatches nd food = true) :
    ∃ keyword, food.keywords.find? (matchesStripped nd) = some keyword ∧
      foodStep nd acc food =
        { totalCalories := acc.totalCalories + food.caloriesBase
          totalProtein := acc.totalProtein + food.proteinBase
          totalCarbs := acc.totalCarbs + food.carbsBase
          totalFat := acc.totalFat + food.fatBase
          totalFiber := acc.totalFiber + food.fiberBase
          detectedIngredients := acc.detectedIngredients ++ [keyword]
          matchCount := acc.matchCount + 1 } := by
  unfold foodMatches at h
  rw [List.any_eq_true] at h
  have hs : (food.keywords.find? (matchesStripped nd)).isSome := by
    rw [List.find?_isSome]
    exact h
  obtain ⟨keyword, hk⟩ := Option.isSome_iff_exists.mp hs
  exact ⟨keyword, hk, by simp [foodStep, hk]⟩

theorem foodStep_of_not_matches (nd : List Char) (acc : Totals) (food : FoodKeyword)
    (h : foodMatches nd food = false) : foodStep nd acc food = acc := by
  unfold foodMatches at h
  have hn : food.keywords.find? (matchesStripped nd) = none := by
    rw [List.find?_eq_none]
    intro x hx hp
    have : food.keywords.any (matchesStripped nd) = true := List.any_eq_true.mpr ⟨x, hx, hp⟩
    rw [h] at this
    exact Bool.noConfusion this
  simp [foodStep, hn]

/-- The food loop over any table: every field is the start value plus the contribution of
the matching entries. -/
theorem foldl_foodStep (nd : List Char) (fs : List FoodKeyword) (acc : Totals) :
    (fs.foldl (foodStep nd) acc).totalCalories
        = acc.totalCalories + ((fs.filter (foodMatches nd)).map (·.caloriesBase)).sum ∧
    (fs.foldl (foodStep nd) acc).totalProtein
        = acc.totalProtein + ((fs.filter (foodMatches nd)).map (·.proteinBase)).sum ∧
    (fs.foldl (foodStep nd) acc).totalCarbs
        = acc.totalCarbs + ((fs.filter (foodMatches nd)).map (·.carbsBase)).sum ∧
    (fs.foldl (foodStep nd) acc).totalFat
        = acc.totalFat + ((fs.filter (foodMatches nd)).map (·.fatBase)).sum ∧
    (fs.foldl (foodStep nd) acc).totalFiber
        = acc.totalFiber + ((fs.filter (foodMatches nd)).map (·.fiberBase)).sum ∧
    (fs.foldl (foodStep nd) acc).matchCount
        = acc.matchCount + (fs.filter (foodMatches nd)).length ∧
    (fs.foldl (foodStep nd) acc).detectedIngredients
        = acc.detectedIngredients
          ++ fs.filterMap (fun food => food.keywords.find? (matchesStripped nd)) := by
  induction fs generalizing acc with
  | nil => simp
  | cons food rest ih =>
    rw [List.foldl_cons]
    cases hm : foodMatches nd food with
    | true =>
      obtain ⟨keyword, hk, hstep⟩ := foodStep_of_matches nd acc food hm
      have := ih (foodStep nd acc food)
      rw [hstep] at this ⊢
      simp only [List.filter_cons, hm, if_true, List.map_cons, List.sum_cons, List.length_cons,
        List.filterMap_cons, hk]
      obtain ⟨h1, h2, h3, h4, h5, h6, h7⟩ := this
      refine ⟨?_, ?_, ?_, ?_, ?_, ?_, ?_⟩
      · rw [h1]; ring
      · rw [h2]; ring
      · rw [h3]; ring
      · rw [h4]; ring
      · rw [h5]; ring
      · rw [h6]; ring
      · rw [h7]; simp
    | false =>
      have hstep := foodStep_of_not_matches nd acc food hm
      have hn : food.keywords.find? (matchesStripped nd) = none := by
        unfold foodMatches at hm
        rw [List.find?_eq_none]
        intro x hx hp
        have : food.keywords.any (matchesStripped nd) = true :=
          List.any_eq_true.mpr ⟨x, hx, hp⟩
        rw [hm] at this
        exact Bool.noConfusion this
      rw [hstep]
      simpa [List.filter_cons, hm, List.filterMap_cons, hn] using ih acc

theorem find?_isSome_eq_any {α : Type} (p : α → Bool) (l : List α) :
    (l.find? p).isSome = l.any p := by
  induction l with
  | nil => rfl
  | cons a rest ih =>
    cases h : p a <;> simp [List.find?_cons, h, ih]

theorem preparationStep_eq (nd : List Char) (acc : Totals) (mod : PreparationModifier) :
    preparationStep nd acc mod =
      if preparationMatches nd mod = true then
        { acc with
          totalCalories := acc.totalCalories + mod.caloriesAdd
          totalFat := acc.totalFat + mod.fatAdd }
      else acc := by
  have h := find?_isSome_eq_any (matchesStripped nd) mod.keywords
  unfold preparationStep preparationMatches
  cases hf : mod.keywords.find? (matchesStripped nd) with
  | none =>
    rw [hf] at h
    simp [← h]
  | some kw =>
    rw [hf] at h
    simp [← h]

/-- The preparation loop over any table: calories and fat receive the deltas of the matching
entries, every other local is left as it was. -/
theorem foldl_preparationStep (nd : List Char) (ms : List PreparationModifier) (acc : Totals) :
    (ms.foldl (preparationStep nd) acc).totalCalories
        = acc.totalCalories + ((ms.filter (preparationMatches nd)).map (·.caloriesAdd)).sum ∧
    (ms.foldl (preparationStep nd) acc).totalFat
        = acc.totalFat + ((ms.filter (preparationMatches nd)).map (·.fatAdd)).sum ∧
    (ms.foldl (preparationStep nd) acc).totalProtein = acc.totalProtein ∧
    (ms.foldl (preparationStep nd) acc).totalCarbs = acc.totalCarbs ∧
    (ms.foldl (preparationStep nd) acc).totalFiber = acc.totalFiber ∧
    (ms.foldl (preparationStep nd) acc).matchCount = acc.matchCount ∧
    (ms.foldl (preparationStep nd) acc).detectedIngredients = acc.detectedIngredients := by
  induction ms generalizing acc with
  | nil => simp
  | cons mod rest ih =>
    rw [List.foldl_cons]
    obtain ⟨h1, h2, h3, h4, h5, h6, h7⟩ := ih (preparationStep nd acc mod)
    rw [h1, h2, h3, h4, h5, h6, h7, preparationStep_eq]
    cases hm : preparationMatches nd mod with
    | true =>
      simp only [if_true, List.filter_cons, hm, List.map_cons, List.sum_cons, and_true]
      exact ⟨by ring, by ring⟩
    | false =>
      simp [List.filter_cons, hm]

theorem portionStep_eq (nd : List Char) (p : Nat) (mod : PortionModifier) :
    portionStep nd p mod = if portionMatches nd mod = true then mod.multiplier else p := by
  have h := find?_isSome_eq_any (matchesRaw nd) mod.keywords
  unfold portionStep portionMatches
  cases hf : mod.keywords.find? (matchesRaw nd) with
  | none =>
    rw [hf] at h
    simp [← h]
  | some kw =>
    rw [hf] at h
    simp [← h]

/-- The portion loop over any table: the multiplier of the last matching entry, the start
value if no entry matches. -/
theorem foldl_portionStep (nd : List Char) (ms : List PortionModifier) (p : Nat) :
    ms.foldl (portionStep nd) p =
      match (ms.filter (portionMatches nd)).getLast? with
      | some mod => mod.multiplier
      | none => p := by
  induction ms using List.reverseRecOn with
  | nil => rfl
  | append_singleton rest mod ih =>
    rw [List.foldl_append, List.foldl_cons, List.foldl_nil, portionStep_eq, List.filter_append]
    cases hm : portionMatches nd mod with
    | true => simp [List.filter_cons, hm]
    | false => simpa [List.filter_cons, hm] using ih

theorem scanPortion_eq_last (nd : List Char) : scanPortion nd = lastMatchingMultiplier nd :=
  foldl_portionStep nd portionModifiers 10

/-- The locals after the food loop, in the specification's vocabulary. -/
theorem scanFoods_eq (nd : List Char) :
    (scanFoods nd).totalCalories = ((matchedFoods nd).map (·.caloriesBase)).sum ∧
    (scanFoods nd).totalProtein = ((matchedFoods nd).map (·.proteinBase)).sum ∧
    (scanFoods nd).totalCarbs = ((matchedFoods nd).map (·.carbsBase)).sum ∧
    (scanFoods nd).totalFat = ((matchedFoods nd).map (·.fatBase)).sum ∧
    (scanFoods nd).totalFiber = ((matchedFoods nd).map (·.fiberBase)).sum ∧
    (scanFoods nd).matchCount = (matchedFoods nd).length ∧
    (scanFoods nd).detectedIngredients
        = foodKeywords.filterMap (fun food => food.keywords.find? (matchesStripped nd)) := by
  have h := foldl_foodStep nd foodKeywords initialTotals
  simpa [scanFoods, matchedFoods, initialTotals] using h

/-- The locals after the preparation loop, in the specification's vocabulary. -/
theorem scanPreparation_scanFoods (nd : List Char) :
    (scanPreparation nd (scanFoods nd)).totalCalories
        = ((matchedFoods nd).map (·.caloriesBase)).sum
          + ((matchedPreparations nd).map (·.caloriesAdd)).sum ∧
    (scanPreparation nd (scanFoods nd)).totalFat
        = ((matchedFoods nd).map (·.fatBase)).sum
          + ((matchedPreparations nd).map (·.fatAdd)).sum ∧
    (scanPreparation nd (scanFoods nd)).totalProtein
        = ((matchedFoods nd).map (·.proteinBase)).sum ∧
    (scanPreparation nd (scanFoods nd)).totalCarbs
        = ((matchedFoods nd).map (·.carbsBase)).sum ∧
    (scanPreparation nd (scanFoods nd)).totalFiber
        = ((matchedFoods nd).map (·.fiberBase)).sum ∧
    (scanPreparation nd (scanFoods nd)).matchCount = (matchedFoods nd).length ∧
    (scanPreparation nd (scanFoods nd)).detectedIngredients
        = (scanFoods nd).detectedIngredients := by
  obtain ⟨f1, f2, f3, f4, f5, f6, _⟩ := scanFoods_eq nd
  obtain ⟨h1, h2, h3, h4, h5, h6, h7⟩ :=
    foldl_preparationStep nd preparationModifiers (scanFoods nd)
  unfold scanPreparation matchedPreparations
  rw [h1, h2, h3, h4, h5, h6, h7, f1, f2, f3, f4, f5, f6]
  exact ⟨rfl, rfl, rfl, rfl, rfl, rfl, rfl⟩

/-- The estimate when at least one food entry matched. -/
theorem estimateNormalized_of_match (nd : List Char) (h : matchedFoods nd ≠ []) :
    estimateNormalized nd =
      { calories := max (roundScaled (scanPreparation nd (scanFoods nd)).totalCalories
          (scanPortion nd)) 50
        protein := max (roundScaled (scanPreparation nd (scanFoods nd)).totalProtein
          (scanPortion nd)) 0
        carbs := max (roundScaled (scanPreparation nd (scanFoods nd)).totalCarbs
          (scanPortion nd)) 0
        fat := max (roundScaled (scanPreparation nd (scanFoods nd)).totalFat
          (scanPortion nd)) 0
        fiber := max (roundScaled (scanPreparation nd (scanFoods nd)).totalFiber
          (scanPortion nd)) 0
        confidence := confidenceOf (matchedFoods nd).length
        detectedIngredients := (scanFoods nd).detectedIngredients } := by
  obtain ⟨_, _, _, _, _, h6, h7⟩ := scanPreparation_scanFoods nd
  have hlen : (matchedFoods nd).length ≠ 0 := by
    intro h0
    exact h (List.length_eq_zero.mp h0)
  unfold estimateNormalized
  simp only [h6, h7, hlen, if_false]

/-- The estimate when no food entry matched. -/
theorem estimateNormalized_of_no_match (nd : List Char) (h : matchedFoods nd = []) :
    estimateNormalized nd = genericEstimate := by
  obtain ⟨_, _, _, _, _, h6, _⟩ := scanPreparation_scanFoods nd
  unfold estimateNormalized
  simp [h6, h]

theorem matchedFoods_nodup (nd : List Char) : (matchedFoods nd).Nodup :=
  List.Nodup.filter _ (by decide)

theorem matchedPreparations_nodup (nd : List Char) : (matchedPreparations nd).Nodup :=
  List.Nodup.filter _ (by decide)

theorem matchedFoods_eq_nil_of_noFoodPhrase (nd : List Char) (h : NoFoodPhrase nd) :
    matchedFoods nd = [] := by
  unfold matchedFoods
  rw [List.filter_eq_nil_iff]
  intro food hfood hm
  unfold foodMatches at hm
  obtain ⟨kw, hkw, hp⟩ := List.any_eq_true.mp hm
  rw [h food hfood kw hkw] at hp
  exact Bool.noConfusion hp

/-! ## The estimate as a function of the matched entries -/

/-- C1: for every description with at least one food match, calories is
`max 50 (round (m * (Σ caloriesBase of matched foods + Σ caloriesAdd of matched preparations)))`
and fat is `max 0 (round (m * (Σ fatBase + Σ fatAdd)))`, where `m` is the portion multiplier,
the sums range over the duplicate-free lists of matched entries (each entry counted once, all
matched preparation entries stacked), the deltas are added before the multiplication and the
scaled sum is rounded once, halves upwards. -/
theorem estimate_calories_fat_formula (description : String)
    (h : matchedFoods (normalizeDescription description) ≠ []) :
    (estimateCaloriesFromDescription description).calories
        = max 50 (roundHalfUp (scanPortion (normalizeDescription description))
            (((matchedFoods (normalizeDescription description)).map (·.caloriesBase)).sum
              + ((matchedPreparations (normalizeDescription description)).map
                  (·.caloriesAdd)).sum)) ∧
    (estimateCaloriesFromDescription description).fat
        = max 0 (roundHalfUp (scanPortion (normalizeDescription description))
            (((matchedFoods (normalizeDescription description)).map (·.fatBase)).sum
              + ((matchedPreparations (normalizeDescription description)).map
                  (·.fatAdd)).sum)) ∧
    (matchedFoods (normalizeDescription description)).Nodup ∧
    (matchedPreparations (normalizeDescription description)).Nodup := by
  obtain ⟨h1, h2, _, _, _, _, _⟩ := scanPreparation_scanFoods (normalizeDescription description)
  unfold estimateCaloriesFromDescription
  rw [estimateNormalized_of_match _ h]
  simp only [h1, h2, roundScaled_eq_roundHalfUp]
  exact ⟨max_comm _ _, max_comm _ _, matchedFoods_nodup _, matchedPreparations_nodup _⟩

/-- Witness of C1 at a description with two foods (`'milanesa'`, `'queso'`), one preparation
(the entry of `'gratinado'`, matched by `'con queso'`) and a portion phrase. -/
theorem estimate_calories_fat_formula_witness :
    matchedFoods (normalizeDescription "milanesa frita con queso grande") ≠ [] ∧
    (estimateCaloriesFromDescription "milanesa frita con queso grande").calories
        = max 50 (roundHalfUp (scanPortion (normalizeDescription "milanesa frita con queso grande"))
            (((matchedFoods (normalizeDescription "milanesa frita con queso grande")).map
                (·.caloriesBase)).sum
              + ((matchedPreparations
                  (normalizeDescription "milanesa frita con queso grande")).map
                  (·.caloriesAdd)).sum)) :=
  ⟨by decide,
    (estimate_calories_fat_formula "milanesa frita con queso grande" (by decide)).1⟩

/-- C2: for every description whose normalized text contains no food-keyword phrase the
result is exactly the generic estimate `{300, 15, 30, 12, 3, 'baja', []}`, whatever portion
or preparation phrases it contains. -/
theorem estimate_no_food_match (description : String)
    (h : NoFoodPhrase (normalizeDescription description)) :
    estimateCaloriesFromDescription description
      = ⟨300, 15, 30, 12, 3, Confidence.baja, []⟩ := by
  unfold estimateCaloriesFromDescription
  rw [estimateNormalized_of_no_match _ (matchedFoods_eq_nil_of_noFoodPhrase _ h)]
  rfl

/-- Witness of C2 at `'xyz frito grande'`, which carries a preparation and a portion
phrase but no food phrase, and at `'xyz'`. -/
theorem estimate_no_food_match_witness :
    NoFoodPhrase (normalizeDescription "xyz frito grande") ∧
    matchedPreparations (normalizeDescription "xyz frito grande") ≠ [] ∧
    scanPortion (normalizeDescription "xyz frito grande") = 15 ∧
    estimateCaloriesFromDescription "xyz frito grande"
      = ⟨300, 15, 30, 12, 3, Confidence.baja, []⟩ ∧
    estimateCaloriesFromDescription "xyz" = ⟨300, 15, 30, 12, 3, Confidence.baja, []⟩ :=
  ⟨by decide, by decide, by decide, estimate_no_food_match "xyz frito grande" (by decide),
    estimate_no_food_match "xyz" (by decide)⟩

/-- C3: for every description the confidence is a function of the number `n` of matched
food entries alone: `'alta'` iff `n ≥ 3`, `'media'` iff `n = 2`, `'baja'` iff `n ≤ 1`. -/
theorem confidence_by_match_count (description : String) :
    ((estimateCaloriesFromDescription description).confidence = Confidence.alta
        ↔ 3 ≤ (matchedFoods (normalizeDescription description)).length) ∧
    ((estimateCaloriesFromDescription description).confidence = Confidence.media
        ↔ (matchedFoods (normalizeDescription description)).length = 2) ∧
    ((estimateCaloriesFromDescription description).confidence = Confidence.baja
        ↔ (matchedFoods (normalizeDescription description)).length ≤ 1) := by
  unfold estimateCaloriesFromDescription
  by_cases h : matchedFoods (normalizeDescription description) = []
  · rw [estimateNormalized_of_no_match _ h, h]
    simp [genericEstimate]
  · rw [estimateNormalized_of_match _ h]
    have hpos : (matchedFoods (normalizeDescription description)).length ≠ 0 := by
      intro h0
      exact h (List.length_eq_zero.mp h0)
    generalize (matchedFoods (normalizeDescription description)).length = n at hpos ⊢
    simp only [confidenceOf]
    by_cases h3 : n ≥ 3
    · simp only [h3, if_true]
      refine ⟨by simp, ?_, ?_⟩ <;> simp <;> omega
    · by_cases h2 : n ≥ 2
      · simp only [h3, h2, if_true, if_false]
        refine ⟨?_, ?_, ?_⟩ <;> simp <;> omega
      · simp only [h3, h2, if_false]
        refine ⟨?_, ?_, ?_⟩ <;> simp <;> omega

/-! ## Portion multiplier -/

theorem any_eq_false_of_forall {α : Type} (p : α → Bool) (l : List α)
    (h : ∀ x ∈ l, p x = false) : l.any p = false := by
  cases hany : l.any p with
  | false => rfl
  | true =>
    obtain ⟨x, hx, hp⟩ := List.any_eq_true.mp hany
    rw [h x hx] at hp
    exact Bool.noConfusion hp

theorem estimateNormalized_scaledBy (nd : List Char) (h : matchedFoods nd ≠ []) :
    ScaledBy (scanPortion nd) (preScaleTotals nd) (estimateNormalized nd) := by
  rw [estimateNormalized_of_match nd h]
  simp only [ScaledBy, preScaleTotals, roundScaled_eq_roundHalfUp]
  exact ⟨max_comm _ _, max_comm _ _, max_comm _ _, max_comm _ _, max_comm _ _⟩

theorem scanPortion_unfold (nd : List Char) :
    scanPortion nd =
      if portionMatches nd ⟨["normal", "regular", "porción"], 10⟩ = true then 10
      else if portionMatches nd ⟨["chico", "pequeño", "poco", "media porción", "mitad"], 6⟩
          = true then 6
      else if portionMatches nd ⟨["grande", "mucho", "abundante", "plato lleno", "doble"], 15⟩
          = true then 15
      else 10 := by
  simp only [scanPortion, portionModifiers, List.foldl_cons, List.foldl_nil, portionStep_eq]

theorem portionMatches_of_mem (nd : List Char) (mod : PortionModifier) (kw : String)
    (hkw : kw ∈ mod.keywords) (h : matchesRaw nd kw = true) : portionMatches nd mod = true :=
  List.any_eq_true.mpr ⟨kw, hkw, h⟩

/-- C4 fails as stated: `'pollo grande chico'` has a food match and contains both `'grande'`
and `'chico'`, the first matching portion entry has multiplier 1.5, yet the code uses 0.6 and
returns calories 99 (`165 * 0.6`), not 248 (`165 * 1.5 = 247.5` rounded). -/
theorem portion_first_match_counterexample :
    matchedFoods (normalizeDescription "pollo grande chico") ≠ [] ∧
    matchesRaw (normalizeDescription "pollo grande chico") "grande" = true ∧
    matchesRaw (normalizeDescription "pollo grande chico") "chico" = true ∧
    firstMatchingMultiplier (normalizeDescription "pollo grande chico") = 15 ∧
    scanPortion (normalizeDescription "pollo grande chico") = 6 ∧
    estimateCaloriesFromDescription "pollo grande chico"
      = ⟨99, 19, 0, 2, 0, Confidence.baja, ["pollo"]⟩ ∧
    roundScaled 165 15 = 248 := by
  decide

/-- C4 as amended: the multiplier used is that of the last matching portion entry in table
order (`1.0` if none matches); for a description with a food match that contains both
`'grande'` and `'chico'`, the totals are scaled by 0.6 when no phrase of the third entry
occurs and by 1.0 when one does, never by 1.5. -/
theorem portion_last_match (description : String) :
    scanPortion (normalizeDescription description)
        = lastMatchingMultiplier (normalizeDescription description) ∧
    (matchedFoods (normalizeDescription description) ≠ [] →
      matchesRaw (normalizeDescription description) "grande" = true →
      matchesRaw (normalizeDescription description) "chico" = true →
      ((∀ kw ∈ ["normal", "regular", "porción"],
            matchesRaw (normalizeDescription description) kw = false) →
          ScaledBy 6 (preScaleTotals (normalizeDescription description))
            (estimateCaloriesFromDescription description)) ∧
      ((∃ kw ∈ ["normal", "regular", "porción"],
            matchesRaw (normalizeDescription description) kw = true) →
          ScaledBy 10 (preScaleTotals (normalizeDescription description))
            (estimateCaloriesFromDescription description))) := by
  refine ⟨scanPortion_eq_last _, ?_⟩
  intro h _ hc
  have hs := estimateNormalized_scaledBy _ h
  have hchico : portionMatches (normalizeDescription description)
      ⟨["chico", "pequeño", "poco", "media porción", "mitad"], 6⟩ = true :=
    portionMatches_of_mem _ _ "chico" (by decide) hc
  rw [scanPortion_unfold] at hs
  unfold estimateCaloriesFromDescription
  constructor
  · intro hn
    have hnormal : portionMatches (normalizeDescription description)
        ⟨["normal", "regular", "porción"], 10⟩ = false :=
      any_eq_false_of_forall _ _ hn
    simpa [hnormal, hchico] using hs
  · intro hn
    obtain ⟨kw, hkw, hm⟩ := hn
    have hnormal : portionMatches (normalizeDescription description)
        ⟨["normal", "regular", "porción"], 10⟩ = true :=
      portionMatches_of_mem _ _ kw hkw hm
    simpa [hnormal] using hs

/-- Witness of the amended C4 at `'pollo grande chico'`. -/
theorem portion_last_match_witness :
    matchedFoods (normalizeDescription "pollo grande chico") ≠ [] ∧
    matchesRaw (normalizeDescription "pollo grande chico") "grande" = true ∧
    matchesRaw (normalizeDescription "pollo grande chico") "chico" = true ∧
    (∀ kw ∈ ["normal", "regular", "porción"],
      matchesRaw (normalizeDescription "pollo grande chico") kw = false) ∧
    ScaledBy 6 (preScaleTotals (normalizeDescription "pollo grande chico"))
      (estimateCaloriesFromDescription "pollo grande chico") :=
  ⟨by decide, by decide, by decide, by decide,
    ((portion_last_match "pollo grande chico").2 (by decide) (by decide) (by decide)).1
      (by decide)⟩

/-- C5: for every description with at least one food match, each of the five numeric fields
is the pre-scale total times 1.5, rounded on its own and then floored, when the normalized text
contains `'grande'` and no phrase of another portion entry; times 0.6 when it contains `'chico'`
and no phrase of another portion entry; times 1.0 when it contains no portion phrase. -/
theorem portion_scaling (description : String)
    (h : matchedFoods (normalizeDescription description) ≠ []) :
    (matchesRaw (normalizeDescription description) "grande" = true →
      (∀ mod ∈ portionModifiers, "grande" ∉ mod.keywords →
        ∀ kw ∈ mod.keywords, matchesRaw (normalizeDescription description) kw = false) →
      ScaledBy 15 (preScaleTotals (normalizeDescription description))
        (estimateCaloriesFromDescription description)) ∧
    (matchesRaw (normalizeDescription description) "chico" = true →
      (∀ mod ∈ portionModifiers, "chico" ∉ mod.keywords →
        ∀ kw ∈ mod.keywords, matchesRaw (normalizeDescription description) kw = false) →
      ScaledBy 6 (preScaleTotals (normalizeDescription description))
        (estimateCaloriesFromDescription description)) ∧
    (NoPortionPhrase (normalizeDescription description) →
      ScaledBy 10 (preScaleTotals (normalizeDescription description))
        (estimateCaloriesFromDescription description)) := by
  have hs := estimateNormalized_scaledBy _ h
  rw [scanPortion_unfold] at hs
  unfold estimateCaloriesFromDescription
  refine ⟨?_, ?_, ?_⟩
  · intro hg hothers
    have h1 : portionMatches (normalizeDescription description)
        ⟨["grande", "mucho", "abundante", "plato lleno", "doble"], 15⟩ = true :=
      portionMatches_of_mem _ _ "grande" (by decide) hg
    have h2 : portionMatches (normalizeDescription description)
        ⟨["chico", "pequeño", "poco", "media porción", "mitad"], 6⟩ = false :=
      any_eq_false_of_forall _ _ (hothers _ (by decide) (by decide))
    have h3 : portionMatches (normalizeDescription description)
        ⟨["normal", "regular", "porción"], 10⟩ = false :=
      any_eq_false_of_forall _ _ (hothers _ (by decide) (by decide))
    simpa [h1, h2, h3] using hs
  · intro hc hothers
    have h2 : portionMatches (normalizeDescription description)
        ⟨["chico", "pequeño", "poco", "media porción", "mitad"], 6⟩ = true :=
      portionMatches_of_mem _ _ "chico" (by decide) hc
    have h3 : portionMatches (normalizeDescription description)
        ⟨["normal", "regular", "porción"], 10⟩ = false :=
      any_eq_false_of_forall _ _ (hothers _ (by decide) (by decide))
    simpa [h2, h3] using hs
  · intro hnone
    have h1 : portionMatches (normalizeDescription description)
        ⟨["grande", "mucho", "abundante", "plato lleno", "doble"], 15⟩ = false :=
      any_eq_false_of_forall _ _ (hnone _ (by decide))
    have h2 : portionMatches (normalizeDescription description)
        ⟨["chico", "pequeño", "poco", "media porción", "mitad"], 6⟩ = false :=
      any_eq_false_of_forall _ _ (hnone _ (by decide))
    have h3 : portionMatches (normalizeDescription description)
        ⟨["normal", "regular", "porción"], 10⟩ = false :=
      any_eq_false_of_forall _ _ (hnone _ (by decide))
    simpa [h1, h2, h3] using hs

/-- Witness of C5 at `'arroz grande'`, `'arroz chico'` and `'arroz'`. -/
theorem portion_scaling_witness :
    ScaledBy 15 (preScaleTotals (normalizeDescription "arroz grande"))
      (estimateCaloriesFromDescription "arroz grande") ∧
    ScaledBy 6 (preScaleTotals (normalizeDescription "arroz chico"))
      (estimateCaloriesFromDescription "arroz chico") ∧
    ScaledBy 10 (preScaleTotals (normalizeDescription "arroz"))
      (estimateCaloriesFromDescription "arroz") :=
  ⟨(portion_scaling "arroz grande" (by decide)).1 (by decide) (by decide),
    (portion_scaling "arroz chico" (by decide)).2.1 (by decide) (by decide),
    (portion_scaling "arroz" (by decide)).2.2 (by decide)⟩

/-! ## Single match, floors and frame -/

theorem foodKeywords_nonneg :
    ∀ food ∈ foodKeywords, 0 ≤ food.caloriesBase ∧ 0 ≤ food.proteinBase ∧ 0 ≤ food.carbsBase ∧
      0 ≤ food.fatBase ∧ 0 ≤ food.fiberBase := by
  decide

theorem matchedPreparations_eq_nil (nd : List Char) (h : NoPreparationPhrase nd) :
    matchedPreparations nd = [] := by
  unfold matchedPreparations
  rw [List.filter_eq_nil_iff]
  intro mod hmod hm
  have := any_eq_false_of_forall (matchesStripped nd) mod.keywords (h mod hmod)
  unfold preparationMatches at hm
  rw [this] at hm
  exact Bool.noConfusion hm

theorem scanPortion_of_noPortionPhrase (nd : List Char) (h : NoPortionPhrase nd) :
    scanPortion nd = 10 := by
  have h1 : portionMatches nd
      ⟨["grande", "mucho", "abundante", "plato lleno", "doble"], 15⟩ = false :=
    any_eq_false_of_forall _ _ (h _ (by decide))
  have h2 : portionMatches nd
      ⟨["chico", "pequeño", "poco", "media porción", "mitad"], 6⟩ = false :=
    any_eq_false_of_forall _ _ (h _ (by decide))
  have h3 : portionMatches nd ⟨["normal", "regular", "porción"], 10⟩ = false :=
    any_eq_false_of_forall _ _ (h _ (by decide))
  rw [scanPortion_unfold]
  simp [h1, h2, h3]

/-- C6 fails as stated: `'cafe'` matches exactly the one food entry `café` (30 kcal) and no
portion or preparation phrase, yet the returned calories are 50, not the entry's 30. -/
theorem single_match_counterexample :
    matchedFoods (normalizeDescription "cafe")
      = [⟨["café", "cafe", "cortado"], 30, 2, 3, 1, 0⟩] ∧
    NoPortionPhrase (normalizeDescription "cafe") ∧
    NoPreparationPhrase (normalizeDescription "cafe") ∧
    (estimateCaloriesFromDescription "cafe").calories = 50 ∧
    (estimateCaloriesFromDescription "cafe").calories
      ≠ (FoodKeyword.mk ["café", "cafe", "cortado"] 30 2 3 1 0).caloriesBase := by
  decide

/-- C6 as amended: for every description whose normalized text matches exactly one food entry
and no portion or preparation phrase, protein, carbs, fat and fiber equal that entry's base
values, calories equals `max 50 caloriesBase`, and confidence is `'baja'`. -/
theorem single_match_profile (description : String) (food : FoodKeyword)
    (h : matchedFoods (normalizeDescription description) = [food])
    (hportion : NoPortionPhrase (normalizeDescription description))
    (hprep : NoPreparationPhrase (normalizeDescription description)) :
    (estimateCaloriesFromDescription description).calories = max 50 food.caloriesBase ∧
    (estimateCaloriesFromDescription description).protein = food.proteinBase ∧
    (estimateCaloriesFromDescription description).carbs = food.carbsBase ∧
    (estimateCaloriesFromDescription description).fat = food.fatBase ∧
    (estimateCaloriesFromDescription description).fiber = food.fiberBase ∧
    (estimateCaloriesFromDescription description).confidence = Confidence.baja := by
  have hne : matchedFoods (normalizeDescription description) ≠ [] := by
    rw [h]
    exact List.cons_ne_nil _ _
  have hmem : food ∈ foodKeywords := by
    have : food ∈ matchedFoods (normalizeDescription description) := by
      rw [h]
      exact List.mem_singleton.mpr rfl
    exact (List.mem_filter.mp this).1
  obtain ⟨_, n2, n3, n4, n5⟩ := foodKeywords_nonneg food hmem
  obtain ⟨h1, h2, h3, h4, h5, _, _⟩ := scanPreparation_scanFoods (normalizeDescription description)
  unfold estimateCaloriesFromDescription
  rw [estimateNormalized_of_match _ hne]
  simp only [h1, h2, h3, h4, h5, h, matchedPreparations_eq_nil _ hprep,
    scanPortion_of_noPortionPhrase _ hportion, roundScaled_ten, List.map_cons, List.map_nil,
    List.sum_cons, List.sum_nil, add_zero, List.length_singleton]
  refine ⟨max_comm _ _, max_eq_left n2, max_eq_left n3, max_eq_left n4, max_eq_left n5, ?_⟩
  decide

/-- Witness of the amended C6 at `'arroz'`. -/
theorem single_match_profile_witness :
    matchedFoods (normalizeDescription "arroz") = [⟨["arroz"], 205, 4, 45, 0, 1⟩] ∧
    NoPortionPhrase (normalizeDescription "arroz") ∧
    NoPreparationPhrase (normalizeDescription "arroz") ∧
    (estimateCaloriesFromDescription "arroz").calories = max 50 205 ∧
    (estimateCaloriesFromDescription "arroz").protein = 4 ∧
    (estimateCaloriesFromDescription "arroz").carbs = 45 ∧
    (estimateCaloriesFromDescription "arroz").fat = 0 ∧
    (estimateCaloriesFromDescription "arroz").fiber = 1 ∧
    (estimateCaloriesFromDescription "arroz").confidence = Confidence.baja :=
  ⟨by decide, by decide, by decide,
    single_match_profile "arroz" ⟨["arroz"], 205, 4, 45, 0, 1⟩ (by decide) (by decide)
      (by decide)⟩

/-- C7: for every description the five numeric fields are integers with calories at least 50
and protein, carbs, fat and fiber at least 0; for `'te light'` the running calories and fat
are negative (-28 and -3) before the floors and the result is `{50, 0, 0, 0, 0}`. -/
theorem estimate_floors :
    (∀ description : String,
      50 ≤ (estimateCaloriesFromDescription description).calories ∧
      0 ≤ (estimateCaloriesFromDescription description).protein ∧
      0 ≤ (estimateCaloriesFromDescription description).carbs ∧
      0 ≤ (estimateCaloriesFromDescription description).fat ∧
      0 ≤ (estimateCaloriesFromDescription description).fiber) ∧
    (preScaleTotals (normalizeDescription "te light")).totalCalories = -28 ∧
    (preScaleTotals (normalizeDescription "te light")).totalFat = -3 ∧
    estimateCaloriesFromDescription "te light" = ⟨50, 0, 0, 0, 0, Confidence.baja, ["té"]⟩ := by
  refine ⟨?_, by decide, by decide, by decide⟩
  intro description
  unfold estimateCaloriesFromDescription
  by_cases h : matchedFoods (normalizeDescription description) = []
  · rw [estimateNormalized_of_no_match _ h]
    decide
  · rw [estimateNormalized_of_match _ h]
    exact ⟨le_max_right _ _, le_max_right _ _, le_max_right _ _, le_max_right _ _,
      le_max_right _ _⟩

/-- C8: a food entry contributes its base profile to the totals of the food loop iff one of
its trigger phrases, accent-stripped, is a substring of the normalized description; the totals
are the sums over the duplicate-free list of such entries, so an entry contributes once however
many of its phrases match or recur (as for `'pollo pechuga pollo'`), and the match counter is
the number of such entries. -/
theorem food_scan_contributions :
    (∀ description : String,
      (∀ food, food ∈ matchedFoods (normalizeDescription description) ↔
        food ∈ foodKeywords ∧ ∃ kw ∈ food.keywords,
          includes (normalizeDescription description) (stripAccents kw.toList) = true) ∧
      (matchedFoods (normalizeDescription description)).Nodup ∧
      (scanFoods (normalizeDescription description)).totalCalories
        = ((matchedFoods (normalizeDescription description)).map (·.caloriesBase)).sum ∧
      (scanFoods (normalizeDescription description)).totalProtein
        = ((matchedFoods (normalizeDescription description)).map (·.proteinBase)).sum ∧
      (scanFoods (normalizeDescription description)).totalCarbs
        = ((matchedFoods (normalizeDescription description)).map (·.carbsBase)).sum ∧
      (scanFoods (normalizeDescription description)).totalFat
        = ((matchedFoods (normalizeDescription description)).map (·.fatBase)).sum ∧
      (scanFoods (normalizeDescription description)).totalFiber
        = ((matchedFoods (normalizeDescription description)).map (·.fiberBase)).sum ∧
      (scanFoods (normalizeDescription description)).matchCount
        = (matchedFoods (normalizeDescription description)).length) ∧
    scanFoods (normalizeDescription "pollo pechuga pollo") = ⟨165, 31, 0, 4, 0, ["pollo"], 1⟩ := by
  refine ⟨?_, by decide⟩
  intro description
  obtain ⟨h1, h2, h3, h4, h5, h6, _⟩ := scanFoods_eq (normalizeDescription description)
  refine ⟨?_, matchedFoods_nodup _, h1, h2, h3, h4, h5, h6⟩
  intro food
  unfold matchedFoods foodMatches matchesStripped
  rw [List.mem_filter, List.any_eq_true]

/-- C9: for every description with at least one food match, protein, carbs and fiber are
`max 0 (round (m * Σ base))` over the matched food entries alone, with `m` the portion
multiplier: the preparation table contributes nothing to these three fields. -/
theorem estimate_protein_carbs_fiber_formula (description : String)
    (h : matchedFoods (normalizeDescription description) ≠ []) :
    (estimateCaloriesFromDescription description).protein
        = max 0 (roundHalfUp (scanPortion (normalizeDescription description))
            ((matchedFoods (normalizeDescription description)).map (·.proteinBase)).sum) ∧
    (estimateCaloriesFromDescription description).carbs
        = max 0 (roundHalfUp (scanPortion (normalizeDescription description))
            ((matchedFoods (normalizeDescription description)).map (·.carbsBase)).sum) ∧
    (estimateCaloriesFromDescription description).fiber
        = max 0 (roundHalfUp (scanPortion (normalizeDescription description))
            ((matchedFoods (normalizeDescription description)).map (·.fiberBase)).sum) := by
  obtain ⟨_, _, h3, h4, h5, _, _⟩ := scanPreparation_scanFoods (normalizeDescription description)
  unfold estimateCaloriesFromDescription
  rw [estimateNormalized_of_match _ h]
  simp only [h3, h4, h5, roundScaled_eq_roundHalfUp]
  exact ⟨max_comm _ _, max_comm _ _, max_comm _ _⟩

/-- Witness of C9 at a description with a food, two preparations and a portion phrase. -/
theorem estimate_protein_carbs_fiber_formula_witness :
    matchedFoods (normalizeDescription "papas fritas con queso chico") ≠ [] ∧
    matchedPreparations (normalizeDescription "papas fritas con queso chico") ≠ [] ∧
    (estimateCaloriesFromDescription "papas fritas con queso chico").protein
        = max 0 (roundHalfUp (scanPortion (normalizeDescription "papas fritas con queso chico"))
            ((matchedFoods (normalizeDescription "papas fritas con queso chico")).map
              (·.proteinBase)).sum) :=
  ⟨by decide, by decide,
    (estimate_protein_carbs_fiber_formula "papas fritas con queso chico" (by decide)).1⟩

/-- C10: `estimateCaloriesFromDescription('pollo a la plancha grande')` returns calories 263,
protein 47, carbs 0, fat 8, fiber 0 with confidence `'baja'`: only the `pollo` food entry
matches, only the `a la plancha` preparation entry matches (+10 calories, +1 fat), the totals
before scaling are `{175, 31, 0, 5, 0}` and the multiplier is 1.5. -/
theorem scenario_pollo_a_la_plancha_grande :
    estimateCaloriesFromDescription "pollo a la plancha grande"
      = ⟨263, 47, 0, 8, 0, Confidence.baja, ["pollo"]⟩ ∧
    matchedFoods (normalizeDescription "pollo a la plancha grande")
      = [⟨["pollo", "pechuga"], 165, 31, 0, 4, 0⟩] ∧
    matchedPreparations (normalizeDescription "pollo a la plancha grande")
      = [⟨["a la plancha", "grillado", "asado"], 10, 1⟩] ∧
    preScaleTotals (normalizeDescription "pollo a la plancha grande")
      = ⟨175, 31, 0, 5, 0, ["pollo"], 1⟩ ∧
    scanPortion (normalizeDescription "pollo a la plancha grande") = 15 ∧
    roundScaled 175 15 = 263 := by
  decide

/-! ## Scenario B, normalization and detected ingredients -/

theorem length_filterMap_find? (nd : List Char) (fs : List FoodKeyword) :
    (fs.filterMap (fun food => food.keywords.find? (matchesStripped nd))).length
      = (fs.filter (foodMatches nd)).length := by
  induction fs with
  | nil => rfl
  | cons food rest ih =>
    have h := find?_isSome_eq_any (matchesStripped nd) food.keywords
    cases hf : food.keywords.find? (matchesStripped nd) with
    | none =>
      rw [hf] at h
      have hm : foodMatches nd food = false := h.symm
      simp [List.filterMap_cons, hf, List.filter_cons, hm, ih]
    | some kw =>
      rw [hf] at h
      have hm : foodMatches nd food = true := h.symm
      simp [List.filterMap_cons, hf, List.filter_cons, hm, ih]

/-- The list `detectedIngredients` of the estimate, for every normalized text. -/
theorem estimateNormalized_detected (nd : List Char) :
    (estimateNormalized nd).detectedIngredients
      = foodKeywords.filterMap (fun food => food.keywords.find? (matchesStripped nd)) := by
  obtain ⟨_, _, _, _, _, _, h7⟩ := scanFoods_eq nd
  by_cases h : matchedFoods nd = []
  · rw [estimateNormalized_of_no_match nd h]
    have hlen := length_filterMap_find? nd foodKeywords
    unfold matchedFoods at h
    rw [h] at hlen
    rw [List.length_eq_zero.mp hlen]
    rfl
  · rw [estimateNormalized_of_match nd h]
    exact h7

/-- C11: `estimateCaloriesFromDescription('ensalada de pollo con arroz')` matches exactly the
three food entries `pollo`, `arroz` and `ensalada` and no portion or preparation phrase, and
returns calories 420, protein 37, carbs 53, fat 5, fiber 4 with confidence `'alta'`. -/
theorem scenario_ensalada_de_pollo_con_arroz :
    matchedFoods (normalizeDescription "ensalada de pollo con arroz")
      = [⟨["pollo", "pechuga"], 165, 31, 0, 4, 0⟩, ⟨["arroz"], 205, 4, 45, 0, 1⟩,
          ⟨["ensalada"], 50, 2, 8, 1, 3⟩] ∧
    NoPortionPhrase (normalizeDescription "ensalada de pollo con arroz") ∧
    NoPreparationPhrase (normalizeDescription "ensalada de pollo con arroz") ∧
    estimateCaloriesFromDescription "ensalada de pollo con arroz"
      = ⟨420, 37, 53, 5, 4, Confidence.alta, ["pollo", "arroz", "ensalada"]⟩ := by
  decide

/-- C12: the rule-based estimate depends on the description only through its normalized form
(lower-cased, decomposed, combining marks removed): two descriptions with the same normalized
form get the same result in every field. -/
theorem estimate_depends_on_normalized_form (d₁ d₂ : String)
    (h : normalizeDescription d₁ = normalizeDescription d₂) :
    estimateCaloriesFromDescription d₁ = estimateCaloriesFromDescription d₂ := by
  unfold estimateCaloriesFromDescription
  rw [h]

/-- Witness of C12: `'Salmón'` and `'salmon'` have the same normalized form and the same
estimate, with the same numbers, confidence and detected ingredients. -/
theorem estimate_depends_on_normalized_form_witness :
    normalizeDescription "Salmón" = normalizeDescription "salmon" ∧
    normalizeDescription "salmon" = "salmon".toList ∧
    estimateCaloriesFromDescription "Salmón" = estimateCaloriesFromDescription "salmon" ∧
    estimateCaloriesFromDescription "salmon" = ⟨230, 25, 0, 14, 0, Confidence.baja, ["salmón"]⟩ :=
  ⟨by decide, by decide,
    estimate_depends_on_normalized_form "Salmón" "salmon" (by decide), by decide⟩

/-- C19: `detectedIngredients` holds, for each food entry in table order, the first phrase of
that entry's keyword list that matches, and nothing for an entry without a matching phrase;
its length is the match count; `'arroz con pollo'` and `'pollo con arroz'` both give
`['pollo', 'arroz']`. -/
theorem detected_ingredients_table_order :
    (∀ description : String,
      (estimateCaloriesFromDescription description).detectedIngredients
        = foodKeywords.filterMap
            (fun food => food.keywords.find? (matchesStripped (normalizeDescription description))) ∧
      (estimateCaloriesFromDescription description).detectedIngredients.length
        = (matchedFoods (normalizeDescription description)).length ∧
      (estimateCaloriesFromDescription description).detectedIngredients.length
        = (scanFoods (normalizeDescription description)).matchCount) ∧
    (estimateCaloriesFromDescription "arroz con pollo").detectedIngredients = ["pollo", "arroz"] ∧
    (estimateCaloriesFromDescription "pollo con arroz").detectedIngredients
      = ["pollo", "arroz"] := by
  refine ⟨?_, by decide, by decide⟩
  intro description
  obtain ⟨_, _, _, _, _, h6, _⟩ := scanFoods_eq (normalizeDescription description)
  have hd := estimateNormalized_detected (normalizeDescription description)
  unfold estimateCaloriesFromDescription
  rw [hd, h6]
  exact ⟨rfl, length_filterMap_find? _ _, length_filterMap_find? _ _⟩

/-! ## The remote estimator and the coordinator -/

theorem cleanContent_nil : cleanContent [] = [] := rfl

theorem estimateCaloriesWithOpenAI_of_error (rt : Runtime) (description : String)
    (outcome : RemoteOutcome) (msg : String) (h : tryRemoteEstimate rt outcome = Except.error msg) :
    estimateCaloriesWithOpenAI rt description outcome
      = Except.ok (ruleBased description "Estimación de respaldo (error en API)") := by
  unfold estimateCaloriesWithOpenAI
  rw [h]
  rfl

theorem estimateCaloriesWithOpenAI_of_ok (rt : Runtime) (description : String)
    (outcome : RemoteOutcome) (e : OpenAIEstimate) (h : tryRemoteEstimate rt outcome = Except.ok e) :
    estimateCaloriesWithOpenAI rt description outcome = Except.ok e := by
  unfold estimateCaloriesWithOpenAI
  rw [h]

theorem estimateCaloriesWithOpenAI_total (rt : Runtime) (description : String)
    (outcome : RemoteOutcome) :
    ∃ e, estimateCaloriesWithOpenAI rt description outcome = Except.ok e := by
  cases h : tryRemoteEstimate rt outcome with
  | error msg => exact ⟨_, estimateCaloriesWithOpenAI_of_error rt description outcome msg h⟩
  | ok e => exact ⟨e, estimateCaloriesWithOpenAI_of_ok rt description outcome e h⟩

theorem parseContent_of_unparsable (rt : Runtime) (content : String)
    (h : rt.jsonParse (String.mk (cleanContent content.toList)) = none) :
    parseContent rt (JsValue.string content) = Except.error "SyntaxError" := by
  unfold parseContent
  simp only [h]

theorem tryRemoteEstimate_of_content (rt : Runtime) (status : Nat) (data : JsValue)
    (content : JsValue) (hs : responseOk status = true)
    (hcontent : responseContent data = Except.ok content) :
    tryRemoteEstimate rt (RemoteOutcome.response status (some data)) = parseContent rt content := by
  unfold tryRemoteEstimate
  simp only [hs, if_true, hcontent]
  rfl

theorem tryRemoteEstimate_of_fails (rt : Runtime) (outcome : RemoteOutcome)
    (h : RemoteFails rt outcome) : ∃ msg, tryRemoteEstimate rt outcome = Except.error msg := by
  cases h with
  | network => exact ⟨_, rfl⟩
  | status status json hs =>
    refine ⟨"Error de API", ?_⟩
    simp [tryRemoteEstimate, hs]
  | body status =>
    cases hs : responseOk status with
    | true => exact ⟨"SyntaxError", by simp [tryRemoteEstimate, hs]⟩
    | false => exact ⟨"Error de API", by simp [tryRemoteEstimate, hs]⟩
  | empty status data hcontent hparse =>
    cases hs : responseOk status with
    | true =>
      refine ⟨"SyntaxError", ?_⟩
      rw [tryRemoteEstimate_of_content rt status data _ hs hcontent]
      exact parseContent_of_unparsable rt "" hparse
    | false => exact ⟨"Error de API", by simp [tryRemoteEstimate, hs]⟩
  | unparsable status data content hcontent hparse =>
    cases hs : responseOk status with
    | true =>
      refine ⟨"SyntaxError", ?_⟩
      rw [tryRemoteEstimate_of_content rt status data _ hs hcontent]
      exact parseContent_of_unparsable rt content hparse
    | false => exact ⟨"Error de API", by simp [tryRemoteEstimate, hs]⟩

/-- C13: whenever the remote call fails (network error, non-OK status such as 500, body that
is not JSON, empty or unparsable content), `estimateCaloriesWithOpenAI` does not fail: it
resolves to the rule-based estimate of the same description, every field equal to that of
`estimateCaloriesFromDescription(description)`, with the reasoning
`'Estimación de respaldo (error en API)'`. -/
theorem remote_failure_falls_back (rt : Runtime) (description : String)
    (outcome : RemoteOutcome) (h : RemoteFails rt outcome) :
    ∃ e, estimateCaloriesWithOpenAI rt description outcome = Except.ok e ∧
      e.calories = JsNumber.finite (estimateCaloriesFromDescription description).calories ∧
      e.protein = JsNumber.finite (estimateCaloriesFromDescription description).protein ∧
      e.carbs = JsNumber.finite (estimateCaloriesFromDescription description).carbs ∧
      e.fat = JsNumber.finite (estimateCaloriesFromDescription description).fat ∧
      e.fiber = JsNumber.finite (estimateCaloriesFromDescription description).fiber ∧
      e.confidence = (estimateCaloriesFromDescription description).confidence.toJs ∧
      e.detectedIngredients = JsValue.array
        ((estimateCaloriesFromDescription description).detectedIngredients.map JsValue.string) ∧
      e.reasoning = JsValue.string "Estimación de respaldo (error en API)" := by
  obtain ⟨msg, hmsg⟩ := tryRemoteEstimate_of_fails rt outcome h
  exact ⟨_, estimateCaloriesWithOpenAI_of_error rt description outcome msg hmsg,
    rfl, rfl, rfl, rfl, rfl, rfl, rfl, rfl⟩

/-- Witness of C13 at an HTTP 500 answer for `'pollo'`. -/
theorem remote_failure_falls_back_witness :
    RemoteFails sampleRuntime (RemoteOutcome.response 500 none) ∧
    ∃ e, estimateCaloriesWithOpenAI sampleRuntime "pollo" (RemoteOutcome.response 500 none)
        = Except.ok e ∧
      e.calories = JsNumber.finite (estimateCaloriesFromDescription "pollo").calories ∧
      e.reasoning = JsValue.string "Estimación de respaldo (error en API)" :=
  ⟨RemoteFails.status 500 none rfl,
    (remote_failure_falls_back sampleRuntime "pollo" (RemoteOutcome.response 500 none)
      (RemoteFails.status 500 none rfl)).elim
      (fun e h => ⟨e, h.1, h.2.1, h.2.2.2.2.2.2.2.2⟩)⟩

theorem handleAiEstimate_short (rt : Runtime) (remote : String → String → RemoteOutcome)
    (st : AiState) (description : String) (h : utf16Length (trim description.toList) < 3) :
    handleAiEstimate rt remote st description
      = Except.ok { st with aiDescription := description, aiEstimate := none } := by
  unfold handleAiEstimate
  simp only [h, if_true]

theorem handleAiEstimate_no_key (rt : Runtime) (remote : String → String → RemoteOutcome)
    (st : AiState) (description : String) (h : 3 ≤ utf16Length (trim description.toList))
    (hkey : apiKeyOf st.openaiApiKey = none) :
    handleAiEstimate rt remote st description
      = Except.ok
          { st with
            aiDescription := description
            aiEstimate := some (ruleBased description "Sin API key - usando reglas básicas") } := by
  have h3 : ¬ utf16Length (trim description.toList) < 3 := Nat.not_lt.mpr h
  unfold handleAiEstimate
  simp only [h3, if_false, hkey]
  rfl

theorem handleAiEstimate_with_key (rt : Runtime) (remote : String → String → RemoteOutcome)
    (st : AiState) (description : String) (key : String) (e : OpenAIEstimate)
    (h : 3 ≤ utf16Length (trim description.toList))
    (hkey : apiKeyOf st.openaiApiKey = some key)
    (he : estimateCaloriesWithOpenAI rt description (remote description key) = Except.ok e) :
    handleAiEstimate rt remote st description
      = Except.ok
          { st with
            aiDescription := description
            aiEstimate := some e
            isLoadingAi := false
            remoteCalls := st.remoteCalls + 1 } := by
  have h3 : ¬ utf16Length (trim description.toList) < 3 := Nat.not_lt.mpr h
  unfold handleAiEstimate
  simp only [h3, if_false, hkey, he]

/-- C14: for every description, credential and outcome of the remote service,
`handleAiEstimate` raises no exception and ends with no estimate (exactly in the too-short
case) or with an estimate; when the remote call is made and answers HTTP 500, the estimate
stored is the rule-based one with the reasoning `'Estimación de respaldo (error en API)'`. -/
theorem handleAiEstimate_never_throws (rt : Runtime) (remote : String → String → RemoteOutcome)
    (st : AiState) (description : String) :
    ∃ st', handleAiEstimate rt remote st description = Except.ok st' ∧
      ((utf16Length (trim description.toList) < 3 ∧ st'.aiEstimate = none) ∨
        (3 ≤ utf16Length (trim description.toList) ∧ ∃ e, st'.aiEstimate = some e)) ∧
      (∀ key json, 3 ≤ utf16Length (trim description.toList) →
        apiKeyOf st.openaiApiKey = some key →
        remote description key = RemoteOutcome.response 500 json →
        st'.aiEstimate
          = some (ruleBased description "Estimación de respaldo (error en API)")) := by
  by_cases h : utf16Length (trim description.toList) < 3
  · refine ⟨_, handleAiEstimate_short rt remote st description h, Or.inl ⟨h, rfl⟩, ?_⟩
    intro key json h3
    omega
  · have h3 : 3 ≤ utf16Length (trim description.toList) := Nat.not_lt.mp h
    cases hkey : apiKeyOf st.openaiApiKey with
    | none =>
      refine ⟨_, handleAiEstimate_no_key rt remote st description h3 hkey,
        Or.inr ⟨h3, _, rfl⟩, ?_⟩
      intro key json _ hk
      exact Option.noConfusion hk
    | some key =>
      obtain ⟨e, he⟩ := estimateCaloriesWithOpenAI_total rt description (remote description key)
      refine ⟨_, handleAiEstimate_with_key rt remote st description key e h3 hkey he,
        Or.inr ⟨h3, e, rfl⟩, ?_⟩
      intro key' json _ hk hremote
      have hkk : key = key' := Option.some.inj hk
      subst hkk
      have hfail : RemoteFails rt (remote description key) := by
        rw [hremote]
        exact RemoteFails.status 500 json rfl
      obtain ⟨msg, hmsg⟩ := tryRemoteEstimate_of_fails rt _ hfail
      have he' := estimateCaloriesWithOpenAI_of_error rt description _ msg hmsg
      rw [he'] at he
      have : e = ruleBased description "Estimación de respaldo (error en API)" :=
        (Except.ok.inj he).symm
      rw [this]

/-- C15 fails as stated: the normalized form of `'  a  '` has 5 characters, yet
`handleAiEstimate` stores no estimate for it, because the guard measures the trimmed
description, which has length 1. -/
theorem too_short_counterexample :
    3 ≤ (normalizeDescription "  a  ").length ∧
    utf16Length (trim "  a  ".toList) = 1 ∧
    ∃ st', handleAiEstimate sampleRuntime (fun _ _ => RemoteOutcome.networkError)
        (sampleState none) "  a  " = Except.ok st' ∧ st'.aiEstimate = none :=
  ⟨by decide, by decide,
    _, handleAiEstimate_short sampleRuntime _ (sampleState none) "  a  " (by decide), rfl⟩

/-- C15 as amended: `handleAiEstimate` yields no estimate if and only if the description with
its leading and trailing white space removed has fewer than 3 UTF-16 code units (no
lower-casing, no accent stripping); so `'yo'` and `'  a  '` yield no estimate and every
description whose trimmed form has 3 or more code units yields one. -/
theorem too_short_iff_trimmed_length :
    (∀ (rt : Runtime) (remote : String → String → RemoteOutcome) (st : AiState)
        (description : String),
      ∃ st', handleAiEstimate rt remote st description = Except.ok st' ∧
        (st'.aiEstimate = none ↔ utf16Length (trim description.toList) < 3)) ∧
    utf16Length (trim "yo".toList) < 3 ∧
    utf16Length (trim "  a  ".toList) < 3 := by
  refine ⟨?_, by decide, by decide⟩
  intro rt remote st description
  by_cases h : utf16Length (trim description.toList) < 3
  · exact ⟨_, handleAiEstimate_short rt remote st description h, fun _ => h, fun _ => rfl⟩
  · have h3 : 3 ≤ utf16Length (trim description.toList) := Nat.not_lt.mp h
    cases hkey : apiKeyOf st.openaiApiKey with
    | none =>
      refine ⟨_, handleAiEstimate_no_key rt remote st description h3 hkey, ?_, ?_⟩
      · intro hnone
        exact Option.noConfusion hnone
      · intro hlt
        exact absurd hlt h
    | some key =>
      obtain ⟨e, he⟩ := estimateCaloriesWithOpenAI_total rt description (remote description key)
      refine ⟨_, handleAiEstimate_with_key rt remote st description key e h3 hkey he, ?_, ?_⟩
      · intro hnone
        exact Option.noConfusion hnone
      · intro hlt
        exact absurd hlt h

/-- C16: when the credential is absent or the empty string and the description is long
enough, `handleAiEstimate` makes no remote call (the call counter is unchanged and the result
is the same whatever the remote service would do) and stores exactly the fields of
`estimateCaloriesFromDescription(description)` with the reasoning
`'Sin API key - usando reglas básicas'`. -/
theorem no_credential_rule_based (rt : Runtime) (remote : String → String → RemoteOutcome)
    (st : AiState) (description : String)
    (hkey : st.openaiApiKey = none ∨ st.openaiApiKey = some "")
    (hlen : 3 ≤ utf16Length (trim description.toList)) :
    ∃ st', handleAiEstimate rt remote st description = Except.ok st' ∧
      st'.aiEstimate
        = some (withReasoning (estimateCaloriesFromDescription description)
            "Sin API key - usando reglas básicas") ∧
      st'.remoteCalls = st.remoteCalls ∧
      ∀ remote', handleAiEstimate rt remote' st description = Except.ok st' := by
  have hk : apiKeyOf st.openaiApiKey = none := by
    cases hkey with
    | inl h => rw [h]; rfl
    | inr h => rw [h]; rfl
  exact ⟨_, handleAiEstimate_no_key rt remote st description hlen hk, rfl, rfl,
    fun remote' => handleAiEstimate_no_key rt remote' st description hlen hk⟩

/-- Witness of C16 at `'pollo'` with an empty key. -/
theorem no_credential_rule_based_witness :
    (sampleState (some "")).openaiApiKey = some "" ∧
    3 ≤ utf16Length (trim "pollo".toList) ∧
    ∃ st', handleAiEstimate sampleRuntime (fun _ _ => RemoteOutcome.networkError)
        (sampleState (some "")) "pollo" = Except.ok st' ∧
      st'.aiEstimate
        = some (withReasoning (estimateCaloriesFromDescription "pollo")
            "Sin API key - usando reglas básicas") :=
  ⟨rfl, by decide,
    (no_credential_rule_based sampleRuntime (fun _ _ => RemoteOutcome.networkError)
      (sampleState (some "")) "pollo" (Or.inr rfl) (by decide)).elim
      (fun st' h => ⟨st', h.1, h.2.1⟩)⟩

/-! ## The successful path of the remote estimator -/

theorem floor_zero_add_half : (⌊(0 : ℚ) + 1 / 2⌋ : ℤ) = 0 := by
  rw [Int.floor_eq_iff]
  norm_num

theorem orDefault_spec (field : Option JsValue) (d : JsValue) :
    ParsedOrDefaultWhenFalsy field d (orDefault field d) := by
  refine ⟨?_, ?_, ?_⟩
  · intro h
    rw [h]
    rfl
  · intro v h ht
    rw [h]
    simp [orDefault, ht]
  · intro v h hf
    rw [h]
    simp [orDefault, hf]

theorem roundedField_of_missing (rt : Runtime) (parsed : JsValue) (key : String)
    (h : getProp parsed key = none) :
    roundedField rt parsed key = Except.ok (JsNumber.finite 0) := by
  unfold roundedField
  rw [h]
  simp only [orDefault, toNumber, Except.map, mathRound, floor_zero_add_half]
  rfl

theorem roundedField_of_finite (rt : Runtime) (parsed : JsValue) (key : String) (x : ℚ)
    (h : getProp parsed key = some (JsValue.number (JsNumber.finite x))) :
    roundedField rt parsed key = Except.ok (JsNumber.finite (⌊x + 1 / 2⌋ : ℤ)) := by
  unfold roundedField
  rw [h]
  by_cases hx : x = 0
  · subst hx
    simp [orDefault, truthy, toNumber, Except.map, mathRound]
  · simp [orDefault, truthy, hx, toNumber, Except.map, mathRound]

theorem roundedField_of_missingOrFinite (rt : Runtime) (parsed : JsValue) (key : String)
    (h : MissingOrFinite (getProp parsed key)) :
    ∃ r, roundedField rt parsed key = Except.ok r ∧ RoundedOrZero (getProp parsed key) r ∧
      IsInteger r := by
  cases h with
  | inl hnone =>
    refine ⟨_, roundedField_of_missing rt parsed key hnone, ⟨fun _ => rfl, ?_⟩, ⟨0, ?_⟩⟩
    · intro x hx
      rw [hnone] at hx
      exact Option.noConfusion hx
    · simp
  | inr hsome =>
    obtain ⟨x, hx⟩ := hsome
    refine ⟨_, roundedField_of_finite rt parsed key x hx, ⟨?_, ?_⟩, ⟨_, rfl⟩⟩
    · intro hnone
      rw [hnone] at hx
      exact Option.noConfusion hx
    · intro y hy
      rw [hx] at hy
      have : x = y := by
        injection hy with h1
        injection h1 with h2
        injection h2
      rw [this]

theorem estimateOfParsed_of_fields (rt : Runtime) (parsed : JsValue)
    (calories protein carbs fat fiber : JsNumber)
    (h1 : roundedField rt parsed "calories" = Except.ok calories)
    (h2 : roundedField rt parsed "protein" = Except.ok protein)
    (h3 : roundedField rt parsed "carbs" = Except.ok carbs)
    (h4 : roundedField rt parsed "fat" = Except.ok fat)
    (h5 : roundedField rt parsed "fiber" = Except.ok fiber) :
    estimateOfParsed rt parsed = Except.ok
      { calories := calories
        protein := protein
        carbs := carbs
        fat := fat
        fiber := fiber
        confidence := orDefault (getProp parsed "confidence") (JsValue.string "media")
        detectedIngredients := orDefault (getProp parsed "detectedIngredients") (JsValue.array [])
        reasoning := orDefault (getProp parsed "reasoning") (JsValue.string "") } := by
  unfold estimateOfParsed
  rw [h1, h2, h3, h4, h5]
  rfl

theorem estimateCaloriesWithOpenAI_of_object (rt : Runtime) (description : String)
    (status : Nat) (data : JsValue) (content : String) (fields : List (String × JsValue))
    (e : OpenAIEstimate)
    (hs : responseOk status = true)
    (hcontent : responseContent data = Except.ok (JsValue.string content))
    (hparse : rt.jsonParse (String.mk (cleanContent content.toList))
      = some (JsValue.object fields))
    (he : estimateOfParsed rt (JsValue.object fields) = Except.ok e) :
    estimateCaloriesWithOpenAI rt description (RemoteOutcome.response status (some data))
      = Except.ok e := by
  apply estimateCaloriesWithOpenAI_of_ok
  rw [tryRemoteEstimate_of_content rt status data _ hs hcontent]
  unfold parseContent
  simp only [hparse]
  exact he

theorem responseContent_chatBody (content : String) (h : content ≠ "") :
    responseContent (chatBody content) = Except.ok (JsValue.string content) := by
  simp [responseContent, chatBody, getProp, optChain, getIndex0, orDefault, truthy, h]

/-- C17 fails as stated: the response `{"confidence": ""}` parses to a JSON object whose
field `confidence` is present with the value `''`, yet the estimate returned has confidence
`'media'`, not the parsed value. -/
theorem parsed_defaults_counterexample :
    sampleRuntime.jsonParse (String.mk (cleanContent "\x7b\"confidence\": \"\"\x7d".toList))
      = some (JsValue.object [("confidence", JsValue.string "")]) ∧
    getProp (JsValue.object [("confidence", JsValue.string "")]) "confidence"
      = some (JsValue.string "") ∧
    ∃ e, estimateCaloriesWithOpenAI sampleRuntime "pollo"
        (RemoteOutcome.response 200 (some (chatBody "\x7b\"confidence\": \"\"\x7d")))
          = Except.ok e ∧
      e.confidence = JsValue.string "media" ∧
      ¬ ParsedOrDefaultWhenMissing (some (JsValue.string "")) (JsValue.string "media")
          e.confidence := by
  refine ⟨rfl, rfl, _, estimateCaloriesWithOpenAI_of_object sampleRuntime "pollo" 200 _
    "\x7b\"confidence\": \"\"\x7d" [("confidence", JsValue.string "")] _ rfl
    (responseContent_chatBody _ (by decide)) rfl
    (estimateOfParsed_of_fields sampleRuntime _ _ _ _ _ _
      (roundedField_of_missing _ _ _ rfl) (roundedField_of_missing _ _ _ rfl)
      (roundedField_of_missing _ _ _ rfl) (roundedField_of_missing _ _ _ rfl)
      (roundedField_of_missing _ _ _ rfl)), rfl, ?_⟩
  intro h
  have h2 := h.2 (JsValue.string "") rfl
  have h3 : JsValue.string "media" = JsValue.string "" := h2
  injection h3 with h4
  exact absurd h4 (by decide)

/-- C17 as amended: when the cleaned content of a successful response parses to a JSON object
whose five numeric fields are each missing or a finite number, `estimateCaloriesWithOpenAI`
returns each of them rounded to an integer (0 when missing), and confidence,
detectedIngredients and reasoning equal to the parsed value when it is present and truthy and
to `'media'`, `[]` and `''` when it is missing or falsy. -/
theorem parsed_object_estimate (rt : Runtime) (description : String) (status : Nat)
    (data : JsValue) (content : String) (fields : List (String × JsValue))
    (hs : responseOk status = true)
    (hcontent : responseContent data = Except.ok (JsValue.string content))
    (hparse : rt.jsonParse (String.mk (cleanContent content.toList))
      = some (JsValue.object fields))
    (hnum : ∀ key ∈ numericKeys, MissingOrFinite (getProp (JsValue.object fields) key)) :
    ∃ e, estimateCaloriesWithOpenAI rt description (RemoteOutcome.response status (some data))
        = Except.ok e ∧
      RoundedOrZero (getProp (JsValue.object fields) "calories") e.calories ∧
      RoundedOrZero (getProp (JsValue.object fields) "protein") e.protein ∧
      RoundedOrZero (getProp (JsValue.object fields) "carbs") e.carbs ∧
      RoundedOrZero (getProp (JsValue.object fields) "fat") e.fat ∧
      RoundedOrZero (getProp (JsValue.object fields) "fiber") e.fiber ∧
      IsInteger e.calories ∧ IsInteger e.protein ∧ IsInteger e.carbs ∧ IsInteger e.fat ∧
      IsInteger e.fiber ∧
      ParsedOrDefaultWhenFalsy (getProp (JsValue.object fields) "confidence")
        (JsValue.string "media") e.confidence ∧
      ParsedOrDefaultWhenFalsy (getProp (JsValue.object fields) "detectedIngredients")
        (JsValue.array []) e.detectedIngredients ∧
      ParsedOrDefaultWhenFalsy (getProp (JsValue.object fields) "reasoning")
        (JsValue.string "") e.reasoning := by
  obtain ⟨r1, h1, s1, i1⟩ := roundedField_of_missingOrFinite rt (JsValue.object fields) "calories"
    (hnum _ (by decide))
  obtain ⟨r2, h2, s2, i2⟩ := roundedField_of_missingOrFinite rt (JsValue.object fields) "protein"
    (hnum _ (by decide))
  obtain ⟨r3, h3, s3, i3⟩ := roundedField_of_missingOrFinite rt (JsValue.object fields) "carbs"
    (hnum _ (by decide))
  obtain ⟨r4, h4, s4, i4⟩ := roundedField_of_missingOrFinite rt (JsValue.object fields) "fat"
    (hnum _ (by decide))
  obtain ⟨r5, h5, s5, i5⟩ := roundedField_of_missingOrFinite rt (JsValue.object fields) "fiber"
    (hnum _ (by decide))
  exact ⟨_, estimateCaloriesWithOpenAI_of_object rt description status data content fields _ hs
    hcontent hparse (estimateOfParsed_of_fields rt _ r1 r2 r3 r4 r5 h1 h2 h3 h4 h5),
    s1, s2, s3, s4, s5, i1, i2, i3, i4, i5, orDefault_spec _ _, orDefault_spec _ _,
    orDefault_spec _ _⟩

/-- Witness of the amended C17 at the response `{}`: the result is
`{0, 0, 0, 0, 0, 'media', [], ''}`. -/
theorem parsed_object_estimate_witness :
    ∃ e, estimateCaloriesWithOpenAI sampleRuntime "pollo"
        (RemoteOutcome.response 200 (some (chatBody "\x7b\x7d"))) = Except.ok e ∧
      e.calories = JsNumber.finite 0 ∧ e.protein = JsNumber.finite 0 ∧
      e.carbs = JsNumber.finite 0 ∧ e.fat = JsNumber.finite 0 ∧ e.fiber = JsNumber.finite 0 ∧
      e.confidence = JsValue.string "media" ∧ e.detectedIngredients = JsValue.array [] ∧
      e.reasoning = JsValue.string "" :=
  (parsed_object_estimate sampleRuntime "pollo" 200 (chatBody "\x7b\x7d") "\x7b\x7d" [] rfl
    (responseContent_chatBody _ (by decide)) rfl (fun _ _ => Or.inl rfl)).elim
    (fun e h => ⟨e, h.1, h.2.1.1 rfl, h.2.2.1.1 rfl, h.2.2.2.1.1 rfl, h.2.2.2.2.1.1 rfl,
      h.2.2.2.2.2.1.1 rfl, h.2.2.2.2.2.2.2.2.2.2.2.1.1 rfl,
      h.2.2.2.2.2.2.2.2.2.2.2.2.1.1 rfl, h.2.2.2.2.2.2.2.2.2.2.2.2.2.1 rfl⟩)

theorem floor_neg_five_add_half : (⌊(-5 : ℚ) + 1 / 2⌋ : ℤ) = -5 := by
  rw [Int.floor_eq_iff]
  norm_num

theorem roundedField_nonneg (rt : Runtime) (parsed : JsValue) (key : String)
    (h : MissingOrNonneg (getProp parsed key)) :
    ∃ r, roundedField rt parsed key = Except.ok r ∧ IsNonnegInteger r := by
  cases h with
  | inl hnone => exact ⟨_, roundedField_of_missing rt parsed key hnone, 0, by simp⟩
  | inr hsome =>
    obtain ⟨x, hx, hfield⟩ := hsome
    refine ⟨_, roundedField_of_finite rt parsed key x hfield, (⌊x + 1 / 2⌋).toNat, ?_⟩
    have hfloor : 0 ≤ ⌊x + 1 / 2⌋ := by
      apply Int.floor_nonneg.mpr
      linarith
    have hcast : ((⌊x + 1 / 2⌋.toNat : ℤ)) = ⌊x + 1 / 2⌋ := Int.toNat_of_nonneg hfloor
    have hq : (((⌊x + 1 / 2⌋).toNat : ℕ) : ℚ) = ((⌊x + 1 / 2⌋ : ℤ) : ℚ) := by
      exact_mod_cast hcast
    rw [hq]

/-- C20 fails as stated: the response `{"calories": -5, "confidence": "quizas"}` parses to a
JSON object, and the estimate returned has calories -5 and confidence `'quizas'`, which breaks
both invariants. -/
theorem remote_invariants_counterexample :
    sampleRuntime.jsonParse (String.mk (cleanContent
        "\x7b\"calories\": -5, \"confidence\": \"quizas\"\x7d".toList))
      = some (JsValue.object [("calories", JsValue.number (JsNumber.finite (-5))),
          ("confidence", JsValue.string "quizas")]) ∧
    ∃ e, estimateCaloriesWithOpenAI sampleRuntime "pollo"
        (RemoteOutcome.response 200
          (some (chatBody "\x7b\"calories\": -5, \"confidence\": \"quizas\"\x7d")))
          = Except.ok e ∧
      e.calories = JsNumber.finite (-5) ∧
      e.confidence = JsValue.string "quizas" ∧
      ¬ IsNonnegInteger e.calories ∧ ¬ IsConfidence e.confidence ∧
      ¬ SatisfiesInvariants e := by
  have hcal : roundedField sampleRuntime
      (JsValue.object [("calories", JsValue.number (JsNumber.finite (-5))),
        ("confidence", JsValue.string "quizas")]) "calories"
      = Except.ok (JsNumber.finite (-5)) := by
    have h := roundedField_of_finite sampleRuntime
      (JsValue.object [("calories", JsValue.number (JsNumber.finite (-5))),
        ("confidence", JsValue.string "quizas")]) "calories" (-5) rfl
    rw [floor_neg_five_add_half] at h
    simpa using h
  have hneg : ¬ IsNonnegInteger (JsNumber.finite (-5)) := by
    rintro ⟨n, hn⟩
    injection hn with h1
    have h2 : (0 : ℚ) ≤ (n : ℚ) := Nat.cast_nonneg n
    rw [← h1] at h2
    norm_num at h2
  have hconf : ¬ IsConfidence (JsValue.string "quizas") := by
    rintro (h | h | h) <;> injection h with h1 <;> exact absurd h1 (by decide)
  refine ⟨rfl, _, estimateCaloriesWithOpenAI_of_object sampleRuntime "pollo" 200 _
    "\x7b\"calories\": -5, \"confidence\": \"quizas\"\x7d"
    [("calories", JsValue.number (JsNumber.finite (-5))),
      ("confidence", JsValue.string "quizas")] _ rfl
    (responseContent_chatBody _ (by decide)) rfl
    (estimateOfParsed_of_fields sampleRuntime _ _ _ _ _ _ hcal
      (roundedField_of_missing _ _ _ rfl) (roundedField_of_missing _ _ _ rfl)
      (roundedField_of_missing _ _ _ rfl) (roundedField_of_missing _ _ _ rfl)),
    rfl, rfl, hneg, hconf, fun h => hneg h.1⟩

theorem roundedField_checked (rt : Runtime) (parsed : JsValue) (key : String)
    (h : MissingOrFinite (getProp parsed key)) :
    ∃ r, roundedField rt parsed key = Except.ok r ∧ IsInteger r ∧
      (MissingOrNonneg (getProp parsed key) → IsNonnegInteger r) := by
  obtain ⟨r, hr, _, hi⟩ := roundedField_of_missingOrFinite rt parsed key h
  refine ⟨r, hr, hi, fun hn => ?_⟩
  obtain ⟨r2, hr2, hn2⟩ := roundedField_nonneg rt parsed key hn
  rw [hr] at hr2
  injection hr2 with heq
  rw [heq]
  exact hn2

theorem isConfidence_orDefault (field : Option JsValue) :
    IsConfidence (orDefault field (JsValue.string "media")) ↔
      MissingFalsyOrConfidence field := by
  obtain ⟨hmissing, htruthy, hfalsy⟩ := orDefault_spec field (JsValue.string "media")
  constructor
  · intro h
    cases hfield : field with
    | none => exact Or.inl rfl
    | some v =>
      refine Or.inr ⟨v, rfl, ?_⟩
      cases ht : truthy (some v) with
      | false => exact Or.inl rfl
      | true =>
        rw [htruthy v hfield ht] at h
        exact Or.inr h
  · intro h
    cases h with
    | inl hnone =>
      rw [hmissing hnone]
      exact Or.inr (Or.inl rfl)
    | inr hsome =>
      obtain ⟨v, hv, hcase⟩ := hsome
      cases ht : truthy (some v) with
      | false =>
        rw [hfalsy v hv ht]
        exact Or.inr (Or.inl rfl)
      | true =>
        rw [htruthy v hv ht]
        cases hcase with
        | inl hf =>
          rw [ht] at hf
          exact Bool.noConfusion hf
        | inr hc => exact hc

/-- C20 as amended: when the cleaned content of a successful response parses to a JSON object
whose five numeric fields are each missing or a finite number, `estimateCaloriesWithOpenAI`
returns an estimate whose five numbers are integers; each of the five is a non-negative
integer when its own parsed field is missing or not negative, whatever the other fields and
the confidence are; its confidence is one of `'alta'`, `'media'`, `'baja'` exactly when the
parsed confidence is missing, falsy or one of these three strings, whatever the numbers are;
so all the invariants hold when no parsed number is negative and the parsed confidence is
missing, falsy or one of the three strings. -/
theorem remote_invariants_when_valid (rt : Runtime) (description : String) (status : Nat)
    (data : JsValue) (content : String) (fields : List (String × JsValue))
    (hs : responseOk status = true)
    (hcontent : responseContent data = Except.ok (JsValue.string content))
    (hparse : rt.jsonParse (String.mk (cleanContent content.toList))
      = some (JsValue.object fields))
    (hnum : ∀ key ∈ numericKeys, MissingOrFinite (getProp (JsValue.object fields) key)) :
    ∃ e, estimateCaloriesWithOpenAI rt description (RemoteOutcome.response status (some data))
        = Except.ok e ∧
      (IsInteger e.calories ∧ IsInteger e.protein ∧ IsInteger e.carbs ∧ IsInteger e.fat ∧
        IsInteger e.fiber) ∧
      (MissingOrNonneg (getProp (JsValue.object fields) "calories") →
        IsNonnegInteger e.calories) ∧
      (MissingOrNonneg (getProp (JsValue.object fields) "protein") →
        IsNonnegInteger e.protein) ∧
      (MissingOrNonneg (getProp (JsValue.object fields) "carbs") → IsNonnegInteger e.carbs) ∧
      (MissingOrNonneg (getProp (JsValue.object fields) "fat") → IsNonnegInteger e.fat) ∧
      (MissingOrNonneg (getProp (JsValue.object fields) "fiber") → IsNonnegInteger e.fiber) ∧
      (IsConfidence e.confidence ↔
        MissingFalsyOrConfidence (getProp (JsValue.object fields) "confidence")) ∧
      ((∀ key ∈ numericKeys, MissingOrNonneg (getProp (JsValue.object fields) key)) →
        MissingFalsyOrConfidence (getProp (JsValue.object fields) "confidence") →
        SatisfiesInvariants e) := by
  obtain ⟨r1, h1, i1, n1⟩ := roundedField_checked rt (JsValue.object fields) "calories"
    (hnum _ (by decide))
  obtain ⟨r2, h2, i2, n2⟩ := roundedField_checked rt (JsValue.object fields) "protein"
    (hnum _ (by decide))
  obtain ⟨r3, h3, i3, n3⟩ := roundedField_checked rt (JsValue.object fields) "carbs"
    (hnum _ (by decide))
  obtain ⟨r4, h4, i4, n4⟩ := roundedField_checked rt (JsValue.object fields) "fat"
    (hnum _ (by decide))
  obtain ⟨r5, h5, i5, n5⟩ := roundedField_checked rt (JsValue.object fields) "fiber"
    (hnum _ (by decide))
  have hc := isConfidence_orDefault (getProp (JsValue.object fields) "confidence")
  exact ⟨_, estimateCaloriesWithOpenAI_of_object rt description status data content fields _ hs
    hcontent hparse (estimateOfParsed_of_fields rt _ r1 r2 r3 r4 r5 h1 h2 h3 h4 h5),
    ⟨i1, i2, i3, i4, i5⟩, n1, n2, n3, n4, n5, hc,
    fun hall hconf => ⟨n1 (hall _ (by decide)), n2 (hall _ (by decide)),
      n3 (hall _ (by decide)), n4 (hall _ (by decide)), n5 (hall _ (by decide)),
      hc.mpr hconf⟩⟩

/-- Witness of the amended C20 at two responses. For
`{"calories": 250.5, "protein": -3, "confidence": "alta"}` the five numbers are integers,
calories and the missing carbs are non-negative although protein is negative, and the
confidence is valid. For `{"calories": 120, "confidence": "quizas"}` the five numbers are
non-negative integers although the confidence is not one of the three strings. -/
theorem remote_invariants_when_valid_witness :
    (∃ e, estimateCaloriesWithOpenAI mixedRuntime "pollo"
        (RemoteOutcome.response 200 (some (chatBody
          "\x7b\"calories\": 250.5, \"protein\": -3, \"confidence\": \"alta\"\x7d")))
          = Except.ok e ∧
      (IsInteger e.calories ∧ IsInteger e.protein ∧ IsInteger e.carbs ∧ IsInteger e.fat ∧
        IsInteger e.fiber) ∧
      IsNonnegInteger e.calories ∧ IsNonnegInteger e.carbs ∧ IsConfidence e.confidence) ∧
    (∃ e, estimateCaloriesWithOpenAI mixedRuntime "pollo"
        (RemoteOutcome.response 200 (some (chatBody
          "\x7b\"calories\": 120, \"confidence\": \"quizas\"\x7d"))) = Except.ok e ∧
      IsNonnegInteger e.calories ∧ IsNonnegInteger e.protein ∧ IsNonnegInteger e.carbs ∧
      IsNonnegInteger e.fat ∧ IsNonnegInteger e.fiber ∧ ¬ IsConfidence e.confidence) :=
  ⟨(remote_invariants_when_valid mixedRuntime "pollo" 200
      (chatBody "\x7b\"calories\": 250.5, \"protein\": -3, \"confidence\": \"alta\"\x7d")
      "\x7b\"calories\": 250.5, \"protein\": -3, \"confidence\": \"alta\"\x7d"
      [("calories", JsValue.number (JsNumber.finite (501 / 2))),
        ("protein", JsValue.number (JsNumber.finite (-3))),
        ("confidence", JsValue.string "alta")] rfl
      (responseContent_chatBody _ (by decide)) rfl
      (by
        intro key hk
        simp only [numericKeys, List.mem_cons, List.mem_singleton, List.mem_nil_iff,
          or_false] at hk
        rcases hk with rfl | rfl | rfl | rfl | rfl
        · exact Or.inr ⟨_, rfl⟩
        · exact Or.inr ⟨_, rfl⟩
        · exact Or.inl rfl
        · exact Or.inl rfl
        · exact Or.inl rfl)).elim
      (fun e h => ⟨e, h.1, h.2.1, h.2.2.1 (Or.inr ⟨501 / 2, by norm_num, rfl⟩),
        h.2.2.2.2.1 (Or.inl rfl),
        h.2.2.2.2.2.2.2.1.mpr (Or.inr ⟨JsValue.string "alta", rfl, Or.inr (Or.inl rfl)⟩)⟩),
    (remote_invariants_when_valid mixedRuntime "pollo" 200
      (chatBody "\x7b\"calories\": 120, \"confidence\": \"quizas\"\x7d")
      "\x7b\"calories\": 120, \"confidence\": \"quizas\"\x7d"
      [("calories", JsValue.number (JsNumber.finite 120)),
        ("confidence", JsValue.string "quizas")] rfl
      (responseContent_chatBody _ (by decide)) rfl
      (by
        intro key hk
        simp only [numericKeys, List.mem_cons, List.mem_singleton, List.mem_nil_iff,
          or_false] at hk
        rcases hk with rfl | rfl | rfl | rfl | rfl
        · exact Or.inr ⟨_, rfl⟩
        · exact Or.inl rfl
        · exact Or.inl rfl
        · exact Or.inl rfl
        · exact Or.inl rfl)).elim
      (fun e h => ⟨e, h.1, h.2.2.1 (Or.inr ⟨120, by norm_num, rfl⟩),
        h.2.2.2.1 (Or.inl rfl), h.2.2.2.2.1 (Or.inl rfl), h.2.2.2.2.2.1 (Or.inl rfl),
        h.2.2.2.2.2.2.1 (Or.inl rfl),
        fun hc => by
          rcases h.2.2.2.2.2.2.2.1.mp hc with hnone | ⟨v, hv, hcase⟩
          · exact Option.noConfusion hnone
          · have hv2 : JsValue.string "quizas" = v := Option.some.inj hv
            subst hv2
            rcases hcase with hf | ha | hm | hb
            · exact absurd hf (by decide)
            · injection ha with h1
              exact absurd h1 (by decide)
            · injection hm with h1
              exact absurd h1 (by decide)
            · injection hb with h1
              exact absurd h1 (by decide)⟩)⟩

/-! ## Binary64 arithmetic on integers -/

theorem log2_one : Nat.log2 1 = 0 := by
  rw [Nat.log2]
  simp

theorem log2Fuel_eq (fuel n : Nat) (h : n ≤ fuel) : log2Fuel fuel n = Nat.log2 n := by
  induction fuel generalizing n with
  | zero =>
    have : n = 0 := by omega
    subst this
    rw [Nat.log2_zero]
    rfl
  | succ fuel ih =>
    rw [log2Fuel, Nat.log2]
    by_cases h2 : n < 2
    · have : ¬ n ≥ 2 := by omega
      simp [h2, this]
    · have : n ≥ 2 := by omega
      simp only [h2, if_false, this, if_true]
      rw [ih (n / 2) (by omega)]

theorem natLog2_eq (n : Nat) : natLog2 n = Nat.log2 n := log2Fuel_eq n n (Nat.le_refl n)

theorem floorLog2_one (n : Nat) (h : n ≠ 0) : floorLog2 n 1 = (Nat.log2 n : Int) := by
  unfold floorLog2
  simp only [natLog2_eq, log2_one, Nat.cast_zero, sub_zero, Int.natCast_nonneg, if_true,
    Int.toNat_ofNat, one_mul]
  rw [if_pos (Nat.log2_self_le h)]

/-- The significand step of `roundToBinary64` is exact on a positive integer below `2 ^ 53`. -/
theorem binary64_significand (n : Nat) (h0 : n ≠ 0) (h : n < 2 ^ 53) :
    max (floorLog2 n 1) (-1022) = (Nat.log2 n : Int) ∧ (Nat.log2 n : Int) ≤ 52 ∧
    (52 - (Nat.log2 n : Int)).toNat = 52 - Nat.log2 n ∧
    ((n * 2 ^ (52 - Nat.log2 n) : ℕ) : ℚ) * (2 : ℚ) ^ ((Nat.log2 n : Int) - 52) = (n : ℚ) ∧
    ¬ ((2 : ℚ) ^ (1024 : ℕ) ≤ (n : ℚ)) := by
  have hlog : Nat.log2 n < 53 := (Nat.log2_lt h0).mpr h
  refine ⟨?_, by omega, by omega, ?_, ?_⟩
  · rw [floorLog2_one n h0]
    omega
  · have h2 : ((2 : ℚ) ^ (52 - Nat.log2 n)) * (2 : ℚ) ^ ((Nat.log2 n : Int) - 52) = 1 := by
      rw [← zpow_natCast, ← zpow_add₀ (by norm_num : (2 : ℚ) ≠ 0)]
      have : ((52 - Nat.log2 n : ℕ) : ℤ) + ((Nat.log2 n : Int) - 52) = 0 := by omega
      rw [this, zpow_zero]
    push_cast
    rw [mul_assoc, h2, mul_one]
  · have : (n : ℚ) < 2 ^ 53 := by exact_mod_cast h
    have h3 : (2 : ℚ) ^ 53 ≤ (2 : ℚ) ^ (1024 : ℕ) := by
      apply pow_le_pow_right₀ <;> norm_num
    linarith

theorem roundToBinary64_natCast (n : Nat) (h : n < 2 ^ 53) :
    roundToBinary64 (n : ℚ) = JsNumber.finite (n : ℚ) := by
  by_cases h0 : n = 0
  · subst h0
    simp [roundToBinary64]
  · have hx : (n : ℚ) ≠ 0 := Nat.cast_ne_zero.mpr h0
    have hpos : (0 : ℚ) < (n : ℚ) := by positivity
    obtain ⟨he, he52, htoNat, hv, hlt⟩ := binary64_significand n h0 h
    unfold roundToBinary64
    simp only [hx, if_false, Rat.num_natCast, Int.natAbs_ofNat, Rat.den_natCast, he, he52,
      if_true, htoNat, Nat.div_one, Nat.mod_one, Nat.mul_zero, Nat.zero_lt_one, hpos, hv, hlt]

theorem roundToBinary64_neg_natCast (n : Nat) (h : n < 2 ^ 53) :
    roundToBinary64 (-(n : ℚ)) = JsNumber.finite (-(n : ℚ)) := by
  by_cases h0 : n = 0
  · subst h0
    simp [roundToBinary64]
  · have hx : (-(n : ℚ)) ≠ 0 := neg_ne_zero.mpr (Nat.cast_ne_zero.mpr h0)
    have hpos : (0 : ℚ) < (n : ℚ) := by positivity
    have hneg : ¬ (0 : ℚ) < -(n : ℚ) := by linarith
    have hcast : (-(n : ℚ)) = ((-(n : ℤ) : ℤ) : ℚ) := by push_cast; rfl
    have hnum : (-(n : ℚ)).num.natAbs = n := by
      rw [hcast, Rat.num_intCast, Int.natAbs_neg, Int.natAbs_ofNat]
    have hden : (-(n : ℚ)).den = 1 := by
      rw [hcast, Rat.den_intCast]
    obtain ⟨he, he52, htoNat, hv, hlt⟩ := binary64_significand n h0 h
    unfold roundToBinary64
    simp only [hx, if_false, hnum, hden, he, he52, if_true, htoNat, Nat.div_one, Nat.mod_one,
      Nat.mul_zero, Nat.zero_lt_one, hneg, hv, hlt]

theorem roundToBinary64_intCast (n : ℤ) (h : |n| < 2 ^ 53) :
    roundToBinary64 (n : ℚ) = JsNumber.finite (n : ℚ) := by
  obtain ⟨k, rfl | rfl⟩ := Int.eq_nat_or_neg n
  · have hlt : k < 2 ^ 53 := by
      rw [abs_of_nonneg (Int.natCast_nonneg k)] at h
      exact_mod_cast h
    exact_mod_cast roundToBinary64_natCast k hlt
  · have hlt : k < 2 ^ 53 := by
      rw [abs_neg, abs_of_nonneg (Int.natCast_nonneg k)] at h
      exact_mod_cast h
    have := roundToBinary64_neg_natCast k hlt
    push_cast
    exact this

theorem isRoundResult_of_safe (r : JsNumber) (h : IsSafeInteger r) : IsRoundResult r := by
  obtain ⟨n, hn, rfl⟩ := h
  refine ⟨roundToBinary64_intCast n hn, ?_⟩
  simp only [mathRound]
  have : (⌊(n : ℚ) + 1 / 2⌋ : ℤ) = n := by
    rw [Int.floor_eq_iff]
    constructor <;> norm_num
  rw [this]

/-- Multiplying a result of `Math.round` by the number `1` and rounding it again leave it
unchanged. -/
theorem mathRound_jsMul_one (r : JsNumber) (h : IsRoundResult r) :
    mathRound (jsMul r (JsNumber.finite 1)) = r := by
  obtain ⟨hb, hr⟩ := h
  cases r with
  | finite x =>
    have hx : roundToBinary64 x = JsNumber.finite x := hb
    simp only [jsMul, mul_one, hx]
    exact hr
  | nan => rfl
  | posInf => simp [jsMul, mathRound]
  | negInf => simp [jsMul, mathRound]

/-! ## Size of the rule-based estimate -/

theorem sum_map_filter_le {α : Type} (f : α → ℤ) (p : α → Bool) (l : List α) :
    ((l.filter p).map f).sum ≤ (l.map (fun a => max (f a) 0)).sum := by
  induction l with
  | nil => simp
  | cons a rest ih =>
    cases hp : p a with
    | true =>
      simp only [List.filter_cons, hp, if_true, List.map_cons, List.sum_cons]
      have := le_max_left (f a) 0
      omega
    | false =>
      simp only [List.filter_cons, hp, List.map_cons, List.sum_cons]
      have := le_max_right (f a) 0
      simp only [Bool.false_eq_true, if_false]
      omega

theorem scanPortion_values (nd : List Char) :
    scanPortion nd = 6 ∨ scanPortion nd = 10 ∨ scanPortion nd = 15 := by
  rw [scanPortion_unfold]
  split
  · exact Or.inr (Or.inl rfl)
  · split
    · exact Or.inl rfl
    · split
      · exact Or.inr (Or.inr rfl)
      · exact Or.inr (Or.inl rfl)

theorem roundScaled_le (t : ℤ) (m : ℕ) (ht : t ≤ 11000) (hm : m = 6 ∨ m = 10 ∨ m = 15) :
    roundScaled t m ≤ 20000 := by
  unfold roundScaled
  rcases hm with h | h | h <;> subst h <;> push_cast <;> omega

theorem preScaleTotals_le (nd : List Char) :
    (preScaleTotals nd).totalCalories ≤ 11000 ∧ (preScaleTotals nd).totalProtein ≤ 11000 ∧
    (preScaleTotals nd).totalCarbs ≤ 11000 ∧ (preScaleTotals nd).totalFat ≤ 11000 ∧
    (preScaleTotals nd).totalFiber ≤ 11000 := by
  obtain ⟨h1, h2, h3, h4, h5, _, _⟩ := scanPreparation_scanFoods nd
  unfold preScaleTotals
  rw [h1, h2, h3, h4, h5]
  have c1 := sum_map_filter_le (fun a : FoodKeyword => a.caloriesBase) (foodMatches nd)
    foodKeywords
  have c2 := sum_map_filter_le (fun a : FoodKeyword => a.proteinBase) (foodMatches nd)
    foodKeywords
  have c3 := sum_map_filter_le (fun a : FoodKeyword => a.carbsBase) (foodMatches nd)
    foodKeywords
  have c4 := sum_map_filter_le (fun a : FoodKeyword => a.fatBase) (foodMatches nd)
    foodKeywords
  have c5 := sum_map_filter_le (fun a : FoodKeyword => a.fiberBase) (foodMatches nd)
    foodKeywords
  have p1 := sum_map_filter_le (fun a : PreparationModifier => a.caloriesAdd)
    (preparationMatches nd) preparationModifiers
  have p2 := sum_map_filter_le (fun a : PreparationModifier => a.fatAdd)
    (preparationMatches nd) preparationModifiers
  have b1 : (foodKeywords.map (fun a => max a.caloriesBase 0)).sum ≤ 10000 := by decide
  have b2 : (foodKeywords.map (fun a => max a.proteinBase 0)).sum ≤ 10000 := by decide
  have b3 : (foodKeywords.map (fun a => max a.carbsBase 0)).sum ≤ 10000 := by decide
  have b4 : (foodKeywords.map (fun a => max a.fatBase 0)).sum ≤ 10000 := by decide
  have b5 : (foodKeywords.map (fun a => max a.fiberBase 0)).sum ≤ 10000 := by decide
  have q1 : (preparationModifiers.map (fun a => max a.caloriesAdd 0)).sum ≤ 1000 := by decide
  have q2 : (preparationModifiers.map (fun a => max a.fatAdd 0)).sum ≤ 1000 := by decide
  unfold matchedFoods matchedPreparations
  refine ⟨?_, ?_, ?_, ?_, ?_⟩ <;> omega

/-- Every number of a rule-based estimate lies between 0 and 20000. -/
theorem estimateNormalized_range (nd : List Char) :
    (0 ≤ (estimateNormalized nd).calories ∧ (estimateNormalized nd).calories ≤ 20000) ∧
    (0 ≤ (estimateNormalized nd).protein ∧ (estimateNormalized nd).protein ≤ 20000) ∧
    (0 ≤ (estimateNormalized nd).carbs ∧ (estimateNormalized nd).carbs ≤ 20000) ∧
    (0 ≤ (estimateNormalized nd).fat ∧ (estimateNormalized nd).fat ≤ 20000) ∧
    (0 ≤ (estimateNormalized nd).fiber ∧ (estimateNormalized nd).fiber ≤ 20000) := by
  by_cases h : matchedFoods nd = []
  · rw [estimateNormalized_of_no_match nd h]
    decide
  · rw [estimateNormalized_of_match nd h]
    obtain ⟨t1, t2, t3, t4, t5⟩ := preScaleTotals_le nd
    unfold preScaleTotals at t1 t2 t3 t4 t5
    have m := scanPortion_values nd
    have r1 := roundScaled_le _ _ t1 m
    have r2 := roundScaled_le _ _ t2 m
    have r3 := roundScaled_le _ _ t3 m
    have r4 := roundScaled_le _ _ t4 m
    have r5 := roundScaled_le _ _ t5 m
    simp only
    refine ⟨⟨?_, ?_⟩, ⟨?_, ?_⟩, ⟨?_, ?_⟩, ⟨?_, ?_⟩, ⟨?_, ?_⟩⟩ <;> omega

theorem isSafeInteger_of_range (n : ℤ) (h0 : 0 ≤ n) (h1 : n ≤ 20000) :
    IsSafeInteger (JsNumber.finite (n : ℚ)) := by
  refine ⟨n, ?_, rfl⟩
  rw [abs_of_nonneg h0]
  have : (20000 : ℤ) < 2 ^ 53 := by norm_num
  omega

/-- The five numbers of a rule-based estimate are safe integers. -/
theorem ruleBased_safe (description reasoning : String) :
    IsSafeInteger (ruleBased description reasoning).calories ∧
    IsSafeInteger (ruleBased description reasoning).protein ∧
    IsSafeInteger (ruleBased description reasoning).carbs ∧
    IsSafeInteger (ruleBased description reasoning).fat ∧
    IsSafeInteger (ruleBased description reasoning).fiber := by
  obtain ⟨⟨a1, a2⟩, ⟨b1, b2⟩, ⟨c1, c2⟩, ⟨d1, d2⟩, ⟨e1, e2⟩⟩ :=
    estimateNormalized_range (normalizeDescription description)
  exact ⟨isSafeInteger_of_range _ a1 a2, isSafeInteger_of_range _ b1 b2,
    isSafeInteger_of_range _ c1 c2, isSafeInteger_of_range _ d1 d2,
    isSafeInteger_of_range _ e1 e2⟩

/-! ## The meal entry built from an estimate -/

theorem joinParts_strings (rt : Runtime) (l : List String) :
    joinParts rt (l.map JsValue.string) = Except.ok l := by
  induction l with
  | nil => rfl
  | cons a rest ih =>
    simp only [List.map_cons, joinParts, toStr, ih]

/-- The note of a rule-based estimate is always built. -/
theorem noteOf_withReasoning (rt : Runtime) (estimate : Estimate) (reasoning : String) :
    ∃ note, noteOf rt (withReasoning estimate reasoning) = Except.ok note := by
  have hj := joinParts_strings rt estimate.detectedIngredients
  cases hr : truthy (some (JsValue.string reasoning)) <;> cases hc : estimate.confidence <;>
    simp only [noteOf, withReasoning, hc, Confidence.toJs, toStr, joinComma, hj, Except.map, hr,
      Bool.false_eq_true, if_false, if_true] <;>
    exact ⟨_, rfl⟩

theorem handleAddMealFromAi_of_note (rt : Runtime) (st : AiState) (e : OpenAIEstimate)
    (note : String) (he : st.aiEstimate = some e) (hd : trim st.aiDescription.toList ≠ [])
    (hnote : noteOf rt e = Except.ok note) :
    handleAddMealFromAi rt st = Except.ok (some
      { name := String.mk (trim st.aiDescription.toList)
        portion := st.portion
        calories := mathRound (jsMul e.calories (scaleOfPortion st.portion))
        protein := mathRound (jsMul e.protein (scaleOfPortion st.portion))
        carbs := mathRound (jsMul e.carbs (scaleOfPortion st.portion))
        fat := mathRound (jsMul e.fat (scaleOfPortion st.portion))
        fiber := mathRound (jsMul e.fiber (scaleOfPortion st.portion))
        note := note }) := by
  unfold handleAddMealFromAi
  simp only [he, hd, if_false, hnote]
  rfl

/-- Whenever `handleAddMealFromAi` builds an entry, its five numbers are the rounded products
of the estimate's numbers with the scale of the portion. -/
theorem handleAddMealFromAi_numbers (rt : Runtime) (st : AiState) (e : OpenAIEstimate)
    (entry : MealEntry) (he : st.aiEstimate = some e)
    (h : handleAddMealFromAi rt st = Except.ok (some entry)) :
    entry.calories = mathRound (jsMul e.calories (scaleOfPortion st.portion)) ∧
    entry.protein = mathRound (jsMul e.protein (scaleOfPortion st.portion)) ∧
    entry.carbs = mathRound (jsMul e.carbs (scaleOfPortion st.portion)) ∧
    entry.fat = mathRound (jsMul e.fat (scaleOfPortion st.portion)) ∧
    entry.fiber = mathRound (jsMul e.fiber (scaleOfPortion st.portion)) := by
  by_cases hd : trim st.aiDescription.toList = []
  · unfold handleAddMealFromAi at h
    simp only [he, hd, if_true] at h
    have h1 := Except.ok.inj h
    exact Option.noConfusion h1
  · cases hnote : noteOf rt e with
    | error msg =>
      unfold handleAddMealFromAi at h
      simp only [he, hd, if_false, hnote] at h
      exact Except.noConfusion h
    | ok note =>
      rw [handleAddMealFromAi_of_note rt st e note he hd hnote] at h
      have h1 := Option.some.inj (Except.ok.inj h)
      rw [← h1]
      exact ⟨rfl, rfl, rfl, rfl, rfl⟩

theorem scaleOfPortion_other (portion : Int) (h1 : portion ≠ 1) (h2 : portion ≠ 2)
    (h3 : portion ≠ 3) : scaleOfPortion portion = numericLiteral 1 := by
  unfold scaleOfPortion
  by_cases hp : 1 ≤ portion
  · have hlen : portionScale.length ≤ (portion - 1).toNat := by
      have : portionScale.length = 3 := rfl
      omega
    simp only [hp, if_true, List.get?_eq_none.mpr hlen]
  · simp only [hp, if_false]

theorem numericLiteral_one : numericLiteral 1 = JsNumber.finite 1 := by
  decide!

theorem handleAiEstimate_portion (rt : Runtime) (remote : String → String → RemoteOutcome)
    (st : AiState) (description : String) (portion : Int) :
    (handleAiEstimate rt remote { st with portion := portion } description).map
        (fun s => s.aiEstimate)
      = (handleAiEstimate rt remote st description).map (fun s => s.aiEstimate) := by
  by_cases h : utf16Length (trim description.toList) < 3
  · rw [handleAiEstimate_short rt remote _ description h,
      handleAiEstimate_short rt remote st description h]
    rfl
  · have h3 : 3 ≤ utf16Length (trim description.toList) := Nat.not_lt.mp h
    cases hkey : apiKeyOf st.openaiApiKey with
    | none =>
      rw [handleAiEstimate_no_key rt remote { st with portion := portion } description h3 hkey,
        handleAiEstimate_no_key rt remote st description h3 hkey]
      rfl
    | some key =>
      obtain ⟨e, he⟩ := estimateCaloriesWithOpenAI_total rt description (remote description key)
      rw [handleAiEstimate_with_key rt remote { st with portion := portion } description key e
          h3 hkey he,
        handleAiEstimate_with_key rt remote st description key e h3 hkey he]
      rfl

/-- C18: the estimate stored by `handleAiEstimate` does not depend on the selected portion;
whenever `handleAddMealFromAi` builds the entry (as it does for every rule-based estimate and
non-blank description), each of its five numbers is `Math.round(estimate field * s)` with `s`
the number `0.7`, `1` or `1.3` for portion 1, 2 or 3 and `1` for any other portion, the
product being the binary64 one (so 165 at portion 1 gives 115); with portion 2 the five
numbers equal the estimate's, for every estimate whose numbers are results of `Math.round`,
in particular for safe integers and for every rule-based estimate. -/
theorem meal_entry_scaling :
    (∀ (rt : Runtime) (remote : String → String → RemoteOutcome) (st : AiState)
        (description : String) (portion : Int),
      (handleAiEstimate rt remote { st with portion := portion } description).map
          (fun s => s.aiEstimate)
        = (handleAiEstimate rt remote st description).map (fun s => s.aiEstimate)) ∧
    (scaleOfPortion 1 = numericLiteral (7 / 10) ∧ scaleOfPortion 2 = JsNumber.finite 1 ∧
      scaleOfPortion 3 = numericLiteral (13 / 10) ∧
      ∀ portion : Int, portion ≠ 1 → portion ≠ 2 → portion ≠ 3 →
        scaleOfPortion portion = JsNumber.finite 1) ∧
    (∀ (rt : Runtime) (st : AiState) (e : OpenAIEstimate) (entry : MealEntry),
      st.aiEstimate = some e → handleAddMealFromAi rt st = Except.ok (some entry) →
      entry.calories = mathRound (jsMul e.calories (scaleOfPortion st.portion)) ∧
      entry.protein = mathRound (jsMul e.protein (scaleOfPortion st.portion)) ∧
      entry.carbs = mathRound (jsMul e.carbs (scaleOfPortion st.portion)) ∧
      entry.fat = mathRound (jsMul e.fat (scaleOfPortion st.portion)) ∧
      entry.fiber = mathRound (jsMul e.fiber (scaleOfPortion st.portion))) ∧
    (∀ (rt : Runtime) (st : AiState) (description reasoning : String),
      st.aiEstimate = some (ruleBased description reasoning) →
      trim st.aiDescription.toList ≠ [] →
      ∃ entry, handleAddMealFromAi rt st = Except.ok (some entry)) ∧
    (∀ (rt : Runtime) (st : AiState) (e : OpenAIEstimate) (entry : MealEntry),
      st.portion = 2 → st.aiEstimate = some e →
      handleAddMealFromAi rt st = Except.ok (some entry) →
      (IsRoundResult e.calories → entry.calories = e.calories) ∧
      (IsRoundResult e.protein → entry.protein = e.protein) ∧
      (IsRoundResult e.carbs → entry.carbs = e.carbs) ∧
      (IsRoundResult e.fat → entry.fat = e.fat) ∧
      (IsRoundResult e.fiber → entry.fiber = e.fiber)) ∧
    (∀ r : JsNumber, IsSafeInteger r → IsRoundResult r) ∧
    (∀ description reasoning : String,
      IsSafeInteger (ruleBased description reasoning).calories ∧
      IsSafeInteger (ruleBased description reasoning).protein ∧
      IsSafeInteger (ruleBased description reasoning).carbs ∧
      IsSafeInteger (ruleBased description reasoning).fat ∧
      IsSafeInteger (ruleBased description reasoning).fiber) ∧
    mathRound (jsMul (JsNumber.finite 165) (scaleOfPortion 1)) = JsNumber.finite 115 := by
  refine ⟨handleAiEstimate_portion, ⟨rfl, numericLiteral_one, rfl, ?_⟩,
    handleAddMealFromAi_numbers, ?_, ?_, isRoundResult_of_safe, ruleBased_safe, by decide!⟩
  · intro portion h1 h2 h3
    rw [scaleOfPortion_other portion h1 h2 h3, numericLiteral_one]
  · intro rt st description reasoning he hd
    obtain ⟨note, hnote⟩ :=
      noteOf_withReasoning rt (estimateCaloriesFromDescription description) reasoning
    exact ⟨_, handleAddMealFromAi_of_note rt st _ note he hd hnote⟩
  · intro rt st e entry hp he h
    obtain ⟨h1, h2, h3, h4, h5⟩ := handleAddMealFromAi_numbers rt st e entry he h
    have hs : scaleOfPortion st.portion = JsNumber.finite 1 := by
      rw [hp]
      exact numericLiteral_one
    rw [hs] at h1 h2 h3 h4 h5
    rw [h1, h2, h3, h4, h5]
    exact ⟨mathRound_jsMul_one _, mathRound_jsMul_one _, mathRound_jsMul_one _,
      mathRound_jsMul_one _, mathRound_jsMul_one _⟩

/-! ## Substring search as a contiguous occurrence -/

theorem includes_iff_contiguous (l p : List Char) : includes l p = true ↔ p <:+: l := by
  induction l with
  | nil =>
    rw [includes, List.infix_nil, List.isEmpty_iff]
  | cons c cs ih =>
    rw [includes, Bool.or_eq_true, List.infix_cons_iff, ih, List.isPrefixOf_iff_prefix]

theorem includes_trans (a b c : List Char) (hab : includes a b = true)
    (hbc : includes b c = true) : includes a c = true :=
  (includes_iff_contiguous a c).mpr
    (List.IsInfix.trans ((includes_iff_contiguous b c).mp hbc) ((includes_iff_contiguous a b).mp hab))

theorem matchesStripped_of_includes (nd : List Char) (phrase kw : String)
    (h : includes nd phrase.toList = true)
    (hkw : includes phrase.toList (stripAccents kw.toList) = true) :
    matchesStripped nd kw = true :=
  includes_trans nd phrase.toList _ h hkw

theorem foodMatches_of_mem (nd : List Char) (food : FoodKeyword) (kw : String)
    (hkw : kw ∈ food.keywords) (h : matchesStripped nd kw = true) : foodMatches nd food = true :=
  List.any_eq_true.mpr ⟨kw, hkw, h⟩

theorem preparationMatches_of_mem (nd : List Char) (mod : PreparationModifier) (kw : String)
    (hkw : kw ∈ mod.keywords) (h : matchesStripped nd kw = true) :
    preparationMatches nd mod = true :=
  List.any_eq_true.mpr ⟨kw, hkw, h⟩

/-! ## The tables and the normalized text -/

/-- C22 fails as stated: `'salmón'` is a trigger phrase of `foodKeywords` and differs from its
own normalization `'salmon'`. -/
theorem phrases_normalized_counterexample :
    "salmón" ∈ foodPhrases ∧ normalizeDescription "salmón" = "salmon".toList ∧
    ¬ IsOwnNormalization "salmón" := by
  decide

/-- C22 as amended: every trigger phrase of `foodKeywords` is lower-case; all are equal to
their own normalization except the eight accented phrases `'salmón'`, `'atún'`, `'puré'`,
`'brócoli'`, `'maní'`, `'sándwich'`, `'café'`, `'té'`, which the scan strips of their accent
when it compares them; the stripped form of every phrase is its own normalization. -/
theorem phrases_lower_case :
    (∀ phrase ∈ foodPhrases, toLowerCase phrase.toList = phrase.toList) ∧
    foodPhrases.filter (fun phrase => !decide (IsOwnNormalization phrase))
      = ["salmón", "atún", "puré", "brócoli", "maní", "sándwich", "café", "té"] ∧
    (∀ phrase ∈ foodPhrases,
      stripAccents (toLowerCase (stripAccents phrase.toList)) = stripAccents phrase.toList) := by
  decide

theorem nfdChar_no_accented (c d : Char) (h : d ∈ nfdChar c) :
    d.toNat ≠ 241 ∧ d.toNat ≠ 243 := by
  unfold nfdChar at h
  split at h <;>
    first
    | (simp only [List.mem_cons, List.mem_singleton, List.not_mem_nil, or_false] at h
       rcases h with h | h <;> subst h <;> decide)
    | (simp only [List.mem_singleton] at h
       subst h
       constructor <;> intro hc <;> simp_all)

/-- The normalized description holds neither `ñ` nor `ó`. -/
theorem normalizeDescription_no_accented (description : String) (c : Char)
    (h : c ∈ normalizeDescription description) : c.toNat ≠ 241 ∧ c.toNat ≠ 243 := by
  unfold normalizeDescription removeMarks normalizeNFD at h
  have h1 := (List.mem_filter.mp h).1
  obtain ⟨a, _, ha⟩ := List.mem_flatMap.mp h1
  exact nfdChar_no_accented a c ha

theorem matchesRaw_eq_false_of_mem (nd : List Char) (kw : String) (c : Char)
    (hc : c ∈ kw.toList) (hnd : c ∉ nd) : matchesRaw nd kw = false := by
  cases h : matchesRaw nd kw with
  | false => rfl
  | true =>
    have hocc := (includes_iff_contiguous nd kw.toList).mp h
    exact absurd (hocc.subset hc) hnd

theorem accented_phrases_unmatched (description : String) :
    matchesRaw (normalizeDescription description) "pequeño" = false ∧
    matchesRaw (normalizeDescription description) "media porción" = false ∧
    matchesRaw (normalizeDescription description) "porción" = false := by
  have hn : Char.ofNat 241 ∉ normalizeDescription description := by
    intro hmem
    exact (normalizeDescription_no_accented description _ hmem).1 (by decide)
  have ho : Char.ofNat 243 ∉ normalizeDescription description := by
    intro hmem
    exact (normalizeDescription_no_accented description _ hmem).2 (by decide)
  exact ⟨matchesRaw_eq_false_of_mem _ _ _ (by decide) hn,
    matchesRaw_eq_false_of_mem _ _ _ (by decide) ho,
    matchesRaw_eq_false_of_mem _ _ _ (by decide) ho⟩

theorem unaccented_unfold (nd : List Char) :
    unaccentedPortionModifiers.foldl (portionStep nd) 10 =
      if portionMatches nd ⟨["normal", "regular"], 10⟩ = true then 10
      else if portionMatches nd ⟨["chico", "poco", "mitad"], 6⟩ = true then 6
      else if portionMatches nd ⟨["grande", "mucho", "abundante", "plato lleno", "doble"], 15⟩
          = true then 15
      else 10 := by
  simp only [unaccentedPortionModifiers, List.foldl_cons, List.foldl_nil, portionStep_eq]

/-- C23: the portion phrases are compared as written in the table, so `'pequeño'`,
`'media porción'` and `'porción'` match no description; for every description the multiplier
is the one computed from the table without these three phrases; `'pollo pequeño'` is
estimated with multiplier 1.0 and calories 165, where 0.6 would give 99. -/
theorem accented_portion_phrases_never_match :
    (∀ description : String,
      matchesRaw (normalizeDescription description) "pequeño" = false ∧
      matchesRaw (normalizeDescription description) "media porción" = false ∧
      matchesRaw (normalizeDescription description) "porción" = false ∧
      scanPortion (normalizeDescription description)
        = unaccentedPortionModifiers.foldl (portionStep (normalizeDescription description)) 10) ∧
    scanPortion (normalizeDescription "pollo pequeño") = 10 ∧
    estimateCaloriesFromDescription "pollo pequeño"
      = ⟨165, 31, 0, 4, 0, Confidence.baja, ["pollo"]⟩ ∧
    roundScaled 165 6 = 99 := by
  refine ⟨?_, by decide, by decide, by decide⟩
  intro description
  obtain ⟨h1, h2, h3⟩ := accented_phrases_unmatched description
  refine ⟨h1, h2, h3, ?_⟩
  rw [scanPortion_unfold, unaccented_unfold]
  simp only [portionMatches, List.any_cons, List.any_nil, h1, h2, h3, Bool.or_false,
    Bool.false_or]

/-! ## Shared phrases, substrings and monotonicity -/

theorem mem_matchedFoods (nd : List Char) (food : FoodKeyword) (kw : String)
    (hfood : food ∈ foodKeywords) (hkw : kw ∈ food.keywords)
    (h : matchesStripped nd kw = true) : food ∈ matchedFoods nd :=
  List.mem_filter.mpr ⟨hfood, foodMatches_of_mem nd food kw hkw h⟩

theorem mem_matchedPreparations (nd : List Char) (mod : PreparationModifier) (kw : String)
    (hmod : mod ∈ preparationModifiers) (hkw : kw ∈ mod.keywords)
    (h : matchesStripped nd kw = true) : mod ∈ matchedPreparations nd :=
  List.mem_filter.mpr ⟨hmod, preparationMatches_of_mem nd mod kw hkw h⟩

/-- C24: a phrase shared by the food and the preparation table counts in both: a description
whose normalized text contains `'asado'` matches the carne food entry and the +10 / +1
preparation entry, and one that contains `'con queso'`, `'con aceite'` or `'con palta'`
matches the queso, aceite or palta food entry and the corresponding preparation entry;
`'asado'` alone gives calories 210, protein 28, carbs 0, fat 11, fiber 0. -/
theorem shared_phrases_count_twice :
    (∀ description : String,
      (includes (normalizeDescription description) "asado".toList = true →
        carneEntry ∈ matchedFoods (normalizeDescription description) ∧
        planchaEntry ∈ matchedPreparations (normalizeDescription description)) ∧
      (includes (normalizeDescription description) "con queso".toList = true →
        quesoEntry ∈ matchedFoods (normalizeDescription description) ∧
        gratinadoEntry ∈ matchedPreparations (normalizeDescription description)) ∧
      (includes (normalizeDescription description) "con aceite".toList = true →
        aceiteEntry ∈ matchedFoods (normalizeDescription description) ∧
        conAceiteEntry ∈ matchedPreparations (normalizeDescription description)) ∧
      (includes (normalizeDescription description) "con palta".toList = true →
        paltaEntry ∈ matchedFoods (normalizeDescription description) ∧
        conPaltaEntry ∈ matchedPreparations (normalizeDescription description))) ∧
    (carneEntry ∈ foodKeywords ∧ quesoEntry ∈ foodKeywords ∧ aceiteEntry ∈ foodKeywords ∧
      paltaEntry ∈ foodKeywords ∧ planchaEntry ∈ preparationModifiers ∧
      gratinadoEntry ∈ preparationModifiers ∧ conAceiteEntry ∈ preparationModifiers ∧
      conPaltaEntry ∈ preparationModifiers) ∧
    estimateCaloriesFromDescription "asado" = ⟨210, 28, 0, 11, 0, Confidence.baja, ["asado"]⟩ := by
  refine ⟨?_, by decide, by decide⟩
  intro description
  refine ⟨?_, ?_, ?_, ?_⟩
  · intro h
    exact ⟨mem_matchedFoods _ carneEntry "asado" (by decide) (by decide)
        (matchesStripped_of_includes _ "asado" "asado" h (by decide)),
      mem_matchedPreparations _ planchaEntry "asado" (by decide) (by decide)
        (matchesStripped_of_includes _ "asado" "asado" h (by decide))⟩
  · intro h
    exact ⟨mem_matchedFoods _ quesoEntry "queso" (by decide) (by decide)
        (matchesStripped_of_includes _ "con queso" "queso" h (by decide)),
      mem_matchedPreparations _ gratinadoEntry "con queso" (by decide) (by decide)
        (matchesStripped_of_includes _ "con queso" "con queso" h (by decide))⟩
  · intro h
    exact ⟨mem_matchedFoods _ aceiteEntry "aceite" (by decide) (by decide)
        (matchesStripped_of_includes _ "con aceite" "aceite" h (by decide)),
      mem_matchedPreparations _ conAceiteEntry "con aceite" (by decide) (by decide)
        (matchesStripped_of_includes _ "con aceite" "con aceite" h (by decide))⟩
  · intro h
    exact ⟨mem_matchedFoods _ paltaEntry "palta" (by decide) (by decide)
        (matchesStripped_of_includes _ "con palta" "palta" h (by decide)),
      mem_matchedPreparations _ conPaltaEntry "con palta" (by decide) (by decide)
        (matchesStripped_of_includes _ "con palta" "con palta" h (by decide))⟩

theorem estimateNormalized_confidence (nd : List Char) :
    (estimateNormalized nd).confidence = confidenceOf (matchedFoods nd).length := by
  by_cases h : matchedFoods nd = []
  · rw [estimateNormalized_of_no_match nd h, h]
    rfl
  · rw [estimateNormalized_of_match nd h]

theorem mem_detected (nd : List Char) (food : FoodKeyword) (kw : String)
    (hfood : food ∈ foodKeywords)
    (h : food.keywords.find? (matchesStripped nd) = some kw) :
    kw ∈ (estimateNormalized nd).detectedIngredients := by
  rw [estimateNormalized_detected]
  exact List.mem_filterMap.mpr ⟨food, hfood, h⟩

theorem find?_head (nd : List Char) (kw : String) (rest : List String)
    (h : matchesStripped nd kw = true) :
    (kw :: rest).find? (matchesStripped nd) = some kw := by
  simp [List.find?_cons, h]

theorem length_matchedFoods_of_sublist (nd : List Char) (entries : List FoodKeyword)
    (hsub : List.Sublist entries foodKeywords) (hall : ∀ food ∈ entries, foodMatches nd food = true) :
    entries.length ≤ (matchedFoods nd).length := by
  have h1 : List.Sublist (entries.filter (foodMatches nd)) (matchedFoods nd) := hsub.filter _
  have h2 : entries.filter (foodMatches nd) = entries := List.filter_eq_self.mpr hall
  rw [h2] at h1
  exact h1.length_le

/-- C25: matching is by substring, so every description whose normalized text contains
`'tomate'` matches the three food entries tomate, mate and té, has confidence `'alta'` and
lists `'tomate'`, `'mate'` and `'té'` among its detected ingredients; every description that
contains `'empanada'` matches the empanada entry and the pan entry. -/
theorem substring_matches :
    (∀ description : String,
      includes (normalizeDescription description) "tomate".toList = true →
      tomateEntry ∈ matchedFoods (normalizeDescription description) ∧
      mateEntry ∈ matchedFoods (normalizeDescription description) ∧
      teEntry ∈ matchedFoods (normalizeDescription description) ∧
      3 ≤ (matchedFoods (normalizeDescription description)).length ∧
      (estimateCaloriesFromDescription description).confidence = Confidence.alta ∧
      "tomate" ∈ (estimateCaloriesFromDescription description).detectedIngredients ∧
      "mate" ∈ (estimateCaloriesFromDescription description).detectedIngredients ∧
      "té" ∈ (estimateCaloriesFromDescription description).detectedIngredients) ∧
    (∀ description : String,
      includes (normalizeDescription description) "empanada".toList = true →
      empanadaEntry ∈ matchedFoods (normalizeDescription description) ∧
      panEntry ∈ matchedFoods (normalizeDescription description) ∧
      "pan" ∈ (estimateCaloriesFromDescription description).detectedIngredients) ∧
    (tomateEntry ∈ foodKeywords ∧ mateEntry ∈ foodKeywords ∧ teEntry ∈ foodKeywords ∧
      panEntry ∈ foodKeywords ∧ empanadaEntry ∈ foodKeywords) := by
  refine ⟨?_, ?_, by decide⟩
  · intro description h
    have t1 := matchesStripped_of_includes _ "tomate" "tomate" h (by decide)
    have t2 := matchesStripped_of_includes _ "tomate" "mate" h (by decide)
    have t3 := matchesStripped_of_includes _ "tomate" "té" h (by decide)
    have m1 := mem_matchedFoods _ tomateEntry "tomate" (by decide) (by decide) t1
    have m2 := mem_matchedFoods _ mateEntry "mate" (by decide) (by decide) t2
    have m3 := mem_matchedFoods _ teEntry "té" (by decide) (by decide) t3
    have hlen : 3 ≤ (matchedFoods (normalizeDescription description)).length := by
      have := length_matchedFoods_of_sublist (normalizeDescription description)
        [tomateEntry, mateEntry, teEntry] (by decide) (by
          intro food hfood
          simp only [List.mem_cons, List.mem_singleton, List.not_mem_nil, or_false] at hfood
          rcases hfood with hf | hf | hf <;> rw [hf]
          · exact (List.mem_filter.mp m1).2
          · exact (List.mem_filter.mp m2).2
          · exact (List.mem_filter.mp m3).2)
      simpa using this
    refine ⟨m1, m2, m3, hlen, ?_, ?_, ?_, ?_⟩
    · unfold estimateCaloriesFromDescription
      rw [estimateNormalized_confidence]
      unfold confidenceOf
      simp only [ge_iff_le, hlen, if_true]
    · exact mem_detected _ tomateEntry "tomate" (by decide) (find?_head _ _ _ t1)
    · exact mem_detected _ mateEntry "mate" (by decide) (find?_head _ _ _ t2)
    · exact mem_detected _ teEntry "té" (by decide) (find?_head _ _ _ t3)
  · intro description h
    have t1 := matchesStripped_of_includes _ "empanada" "empanada" h (by decide)
    have t2 := matchesStripped_of_includes _ "empanada" "pan" h (by decide)
    exact ⟨mem_matchedFoods _ empanadaEntry "empanada" (by decide) (by decide) t1,
      mem_matchedFoods _ panEntry "pan" (by decide) (by decide) t2,
      mem_detected _ panEntry "pan" (by decide) (find?_head _ _ _ t2)⟩

theorem length_filter_le_of_imp {α : Type} (p q : α → Bool) (l : List α)
    (h : ∀ a ∈ l, p a = true → q a = true) : (l.filter p).length ≤ (l.filter q).length := by
  induction l with
  | nil => simp
  | cons a rest ih =>
    have ih' := ih (fun b hb => h b (List.mem_cons_of_mem a hb))
    cases hp : p a with
    | false =>
      cases hq : q a with
      | false => simpa [List.filter_cons, hp, hq] using ih'
      | true =>
        simp only [List.filter_cons, hp, hq, if_true, List.length_cons, Bool.false_eq_true,
          if_false]
        omega
    | true =>
      have hq := h a (List.mem_cons_self a rest) hp
      simp only [List.filter_cons, hp, hq, if_true, List.length_cons]
      omega

theorem rank_confidenceOf_mono (m n : Nat) (h : m ≤ n) :
    (confidenceOf m).rank ≤ (confidenceOf n).rank := by
  unfold confidenceOf
  by_cases h3 : n ≥ 3
  · simp only [h3, if_true]
    split <;> [skip; split] <;> simp [Confidence.rank]
  · have hm3 : ¬ m ≥ 3 := by omega
    by_cases h2 : n ≥ 2
    · simp only [h3, h2, hm3, if_true, if_false]
      split <;> simp [Confidence.rank]
    · have hm2 : ¬ m ≥ 2 := by omega
      simp only [h3, h2, hm3, hm2, if_false]
      exact Nat.le_refl _

/-- C26: if the normalized form of `d₁` is a substring of the normalized form of `d₂`, every
food entry matched by `d₁` is matched by `d₂`, the match count of `d₂` is at least that of
`d₁`, and the confidence of `d₂` is at least that of `d₁` in the order
`baja < media < alta`. -/
theorem matches_monotone (d₁ d₂ : String)
    (h : includes (normalizeDescription d₂) (normalizeDescription d₁) = true) :
    (∀ food, food ∈ matchedFoods (normalizeDescription d₁) →
      food ∈ matchedFoods (normalizeDescription d₂)) ∧
    (scanFoods (normalizeDescription d₁)).matchCount
      ≤ (scanFoods (normalizeDescription d₂)).matchCount ∧
    (estimateCaloriesFromDescription d₁).confidence.rank
      ≤ (estimateCaloriesFromDescription d₂).confidence.rank := by
  have himp : ∀ food ∈ foodKeywords, foodMatches (normalizeDescription d₁) food = true →
      foodMatches (normalizeDescription d₂) food = true := by
    intro food _ hm
    obtain ⟨kw, hkw, hp⟩ := List.any_eq_true.mp hm
    exact foodMatches_of_mem _ food kw hkw (includes_trans _ _ _ h hp)
  have hlen : (matchedFoods (normalizeDescription d₁)).length
      ≤ (matchedFoods (normalizeDescription d₂)).length :=
    length_filter_le_of_imp _ _ foodKeywords himp
  obtain ⟨_, _, _, _, _, c1, _⟩ := scanFoods_eq (normalizeDescription d₁)
  obtain ⟨_, _, _, _, _, c2, _⟩ := scanFoods_eq (normalizeDescription d₂)
  refine ⟨?_, ?_, ?_⟩
  · intro food hfood
    obtain ⟨hmem, hm⟩ := List.mem_filter.mp hfood
    exact List.mem_filter.mpr ⟨hmem, himp food hmem hm⟩
  · rw [c1, c2]
    exact hlen
  · unfold estimateCaloriesFromDescription
    rw [estimateNormalized_confidence, estimateNormalized_confidence]
    exact rank_confidenceOf_mono _ _ hlen

/-- Witness of C26 at `'pollo'` inside `'arroz con pollo y ensalada'`. -/
theorem matches_monotone_witness :
    includes (normalizeDescription "arroz con pollo y ensalada") (normalizeDescription "pollo")
      = true ∧
    (scanFoods (normalizeDescription "pollo")).matchCount
      ≤ (scanFoods (normalizeDescription "arroz con pollo y ensalada")).matchCount ∧
    (estimateCaloriesFromDescription "pollo").confidence.rank
      ≤ (estimateCaloriesFromDescription "arroz con pollo y ensalada").confidence.rank :=
  ⟨by decide, (matches_monotone "pollo" "arroz con pollo y ensalada" (by decide)).2⟩

theorem mem_of_mem_takeWhile_append {α : Type} (q : α → Bool) (front back : List α) (x k : α)
    (hx : q x = false) (h : k ∈ (front ++ x :: back).takeWhile q) : k ∈ front := by
  induction front with
  | nil => simp [List.takeWhile_cons, hx] at h
  | cons a rest ih =>
    cases hq : q a with
    | false => simp [List.takeWhile_cons, hq] at h
    | true =>
      simp only [List.cons_append, List.takeWhile_cons, hq, if_true, List.mem_cons] at h
      rcases h with h | h
      · rw [h]
        exact List.mem_cons_self a rest
      · exact List.mem_cons_of_mem a (ih h)

/-- A shadowed phrase is never the first matching phrase of its keyword list. -/
theorem find?_ne_of_shadowed (nd : List Char) (keywords : List String) (phrase : String)
    (hs : shadowedIn keywords phrase = true) :
    keywords.find? (matchesStripped nd) ≠ some phrase := by
  intro hfind
  obtain ⟨hp, front, back, hsplit, hfront⟩ := List.find?_eq_some.mp hfind
  unfold shadowedIn at hs
  obtain ⟨k, hk, hinc⟩ := List.any_eq_true.mp hs
  rw [hsplit] at hk
  have hkfront : k ∈ front :=
    mem_of_mem_takeWhile_append (fun k => k != phrase) front back phrase k (by simp) hk
  have hnot := hfront k hkfront
  have hmatch : matchesStripped nd k = true := includes_trans _ _ _ hp hinc
  rw [hmatch] at hnot
  exact Bool.noConfusion hnot

/-- C27: `detectedIngredients` reports the table's spelling of the first matching phrase:
`'salmon'` gives `['salmón']` and `'te'` gives `['té']`; the phrases whose normalized form
contains the normalized form of an earlier phrase of their entry are `'salmon'`, `'atun'`,
`'huevos'`, `'papas'`, `'pure'`, `'tostadas'`, `'brocoli'`, `'yogurt'`, `'frutas'`, `'mani'`,
`'sándwich'`, `'cafe'`, `'te'`, and none of them is reported for any description. -/
theorem shadowed_phrases_never_reported :
    (estimateCaloriesFromDescription "salmon").detectedIngredients = ["salmón"] ∧
    (estimateCaloriesFromDescription "te").detectedIngredients = ["té"] ∧
    shadowedPhrases = ["salmon", "atun", "huevos", "papas", "pure", "tostadas", "brocoli",
      "yogurt", "frutas", "mani", "sándwich", "cafe", "te"] ∧
    (∀ description : String, ∀ phrase ∈ shadowedPhrases,
      phrase ∉ (estimateCaloriesFromDescription description).detectedIngredients) := by
  refine ⟨by decide, by decide, by decide, ?_⟩
  intro description phrase hphrase hmem
  have htable : ∀ phrase ∈ shadowedPhrases, ∀ food ∈ foodKeywords,
      phrase ∈ food.keywords → shadowedIn food.keywords phrase = true := by decide
  unfold estimateCaloriesFromDescription at hmem
  rw [estimateNormalized_detected] at hmem
  obtain ⟨food, hfood, hfind⟩ := List.mem_filterMap.mp hmem
  have hkw : phrase ∈ food.keywords := List.mem_of_find?_eq_some hfind
  exact find?_ne_of_shadowed _ food.keywords phrase (htable phrase hphrase food hfood hkw) hfind

/-! ## The entry built by `buildMealEntry` -/

theorem buildMealEntry_of_found (name : String) (portion : Int) (customFoods : List FoodItem)
    (note : String) (food : Option FoodItem) (h : findFood name customFoods = food) :
    buildMealEntry name portion customFoods note =
      { name := name
        portion := portion
        calories := mathRound (jsMul (fieldOr food (fun item => item.calories)
          (JsNumber.finite 280)) (scaleOfPortion portion))
        protein := mathRound (jsMul (fieldOr food (fun item => item.protein)
          (JsNumber.finite 12)) (scaleOfPortion portion))
        carbs := mathRound (jsMul (fieldOr food (fun item => item.carbs)
          (JsNumber.finite 36)) (scaleOfPortion portion))
        fat := mathRound (jsMul (fieldOr food (fun item => item.fat)
          (JsNumber.finite 9)) (scaleOfPortion portion))
        fiber := mathRound (jsMul (fieldOr food (fun item => item.fiber)
          (JsNumber.finite 5)) (scaleOfPortion portion))
        note := note } := by
  unfold buildMealEntry
  rw [h]

theorem findFood_custom (name : String) (customFoods : List FoodItem)
    (h : ∃ custom ∈ customFoods, toLowerCase custom.name.toList = toLowerCase name.toList) :
    ∃ custom ∈ customFoods, findFood name customFoods = some custom ∧
      toLowerCase custom.name.toList = toLowerCase name.toList := by
  obtain ⟨c, hc, hname⟩ := h
  have hsome : (customFoods.find?
      (fun food => toLowerCase food.name.toList == toLowerCase name.toList)).isSome := by
    rw [List.find?_isSome]
    exact ⟨c, hc, beq_iff_eq.mpr hname⟩
  obtain ⟨found, hfound⟩ := Option.isSome_iff_exists.mp hsome
  refine ⟨found, List.mem_of_find?_eq_some hfound, ?_, ?_⟩
  · unfold findFood
    rw [List.find?_append, hfound]
    rfl
  · have hp := List.find?_some hfound
    exact beq_iff_eq.mp hp

/-- C28: `buildMealEntry` is total. When no custom or base food has the given name, compared
after lower-casing, the five numbers are `Math.round(280 * s)`, `Math.round(12 * s)`,
`Math.round(36 * s)`, `Math.round(9 * s)`, `Math.round(5 * s)` with `s` the number `0.7`, `1`
or `1.3` for portion 1, 2 or 3 and `1` for any other portion (that is 196, 8, 25, 6, 4 for
portion 1, 280, 12, 36, 9, 5 for portion 2 and 364, 16, 47, 12, 7 for portion 3); when a food
is found its own values are scaled the same way; a custom food with the name is found before
any base food. -/
theorem buildMealEntry_scaling :
    (∀ (name : String) (customFoods : List FoodItem),
      findFood name customFoods = none ↔
        ∀ food ∈ customFoods ++ baseFoods,
          toLowerCase food.name.toList ≠ toLowerCase name.toList) ∧
    (∀ (name : String) (portion : Int) (customFoods : List FoodItem) (note : String),
      findFood name customFoods = none →
      (buildMealEntry name portion customFoods note).calories
        = mathRound (jsMul (JsNumber.finite 280) (scaleOfPortion portion)) ∧
      (buildMealEntry name portion customFoods note).protein
        = mathRound (jsMul (JsNumber.finite 12) (scaleOfPortion portion)) ∧
      (buildMealEntry name portion customFoods note).carbs
        = mathRound (jsMul (JsNumber.finite 36) (scaleOfPortion portion)) ∧
      (buildMealEntry name portion customFoods note).fat
        = mathRound (jsMul (JsNumber.finite 9) (scaleOfPortion portion)) ∧
      (buildMealEntry name portion customFoods note).fiber
        = mathRound (jsMul (JsNumber.finite 5) (scaleOfPortion portion))) ∧
    (∀ (name : String) (portion : Int) (customFoods : List FoodItem) (note : String)
        (food : FoodItem),
      findFood name customFoods = some food →
      (buildMealEntry name portion customFoods note).calories
        = mathRound (jsMul food.calories (scaleOfPortion portion)) ∧
      (buildMealEntry name portion customFoods note).protein
        = mathRound (jsMul food.protein (scaleOfPortion portion)) ∧
      (buildMealEntry name portion customFoods note).carbs
        = mathRound (jsMul food.carbs (scaleOfPortion portion)) ∧
      (buildMealEntry name portion customFoods note).fat
        = mathRound (jsMul food.fat (scaleOfPortion portion)) ∧
      (buildMealEntry name portion customFoods note).fiber
        = mathRound (jsMul food.fiber (scaleOfPortion portion))) ∧
    (scaleOfPortion 1 = numericLiteral (7 / 10) ∧ scaleOfPortion 2 = JsNumber.finite 1 ∧
      scaleOfPortion 3 = numericLiteral (13 / 10) ∧
      ∀ portion : Int, portion ≠ 1 → portion ≠ 2 → portion ≠ 3 →
        scaleOfPortion portion = JsNumber.finite 1) ∧
    (∀ (name : String) (customFoods : List FoodItem),
      (∃ custom ∈ customFoods, toLowerCase custom.name.toList = toLowerCase name.toList) →
      ∃ custom ∈ customFoods, findFood name customFoods = some custom ∧
        toLowerCase custom.name.toList = toLowerCase name.toList) ∧
    ([280, 12, 36, 9, 5].map (fun v => mathRound (jsMul (JsNumber.finite v) (scaleOfPortion 1)))
        = [JsNumber.finite 196, JsNumber.finite 8, JsNumber.finite 25, JsNumber.finite 6,
            JsNumber.finite 4] ∧
      [280, 12, 36, 9, 5].map (fun v => mathRound (jsMul (JsNumber.finite v) (scaleOfPortion 2)))
        = [JsNumber.finite 280, JsNumber.finite 12, JsNumber.finite 36, JsNumber.finite 9,
            JsNumber.finite 5] ∧
      [280, 12, 36, 9, 5].map (fun v => mathRound (jsMul (JsNumber.finite v) (scaleOfPortion 3)))
        = [JsNumber.finite 364, JsNumber.finite 16, JsNumber.finite 47, JsNumber.finite 12,
            JsNumber.finite 7]) ∧
    (findFood "manzana" [baseFood "c-1" "Manzana" "Frutas" 100 1 2 3 4]
        = some (baseFood "c-1" "Manzana" "Frutas" 100 1 2 3 4) ∧
      findFood "MANZANA" [] = some (baseFood "f-1" "Manzana" "Frutas" 95 0 25 0 4) ∧
      (buildMealEntry "MANZANA" 1 [] "").calories = JsNumber.finite 67) := by
  refine ⟨?_, ?_, ?_, ⟨rfl, numericLiteral_one, rfl, ?_⟩, findFood_custom,
    ⟨by decide!, by decide!, by decide!⟩, ⟨by decide!, by decide!, by decide!⟩⟩
  · intro name customFoods
    unfold findFood
    rw [List.find?_eq_none]
    constructor
    · intro h food hfood heq
      exact h food hfood (beq_iff_eq.mpr heq)
    · intro h food hfood hp
      exact h food hfood (beq_iff_eq.mp hp)
  · intro name portion customFoods note h
    rw [buildMealEntry_of_found name portion customFoods note none h]
    exact ⟨rfl, rfl, rfl, rfl, rfl⟩
  · intro name portion customFoods note food h
    rw [buildMealEntry_of_found name portion customFoods note (some food) h]
    exact ⟨rfl, rfl, rfl, rfl, rfl⟩
  · intro portion h1 h2 h3
    rw [scaleOfPortion_other portion h1 h2 h3, numericLiteral_one]

/-! ## Cleaning of the response -/

theorem tripleBacktick_eq : "```".toList = tripleBacktick := by decide

theorem jsonFence_eq : "```json".toList = jsonFence := by decide

theorem removeFence_nil (fence : List Char) (k : Nat) (b : Bool) :
    removeFence fence k b [] = [] := by
  cases k <;> rfl

theorem removeFence_skip (fence : List Char) (k : Nat) (b : Bool) (c : Char) (cs : List Char) :
    removeFence fence (k + 1) b (c :: cs) = removeFence fence k true cs := rfl

theorem removeFence_scan (fence : List Char) (b : Bool) (c : Char) (cs : List Char) :
    removeFence fence 0 b (c :: cs) =
      if (b && c == '\n') = true then removeFence fence 0 false cs
      else if (fence.isPrefixOf (c :: cs) && !fence.isEmpty) = true then
        removeFence fence (fence.length - 1) true cs
      else c :: removeFence fence 0 false cs := rfl

/-- A text without the fence is left as it is. -/
theorem removeFence_of_not_includes (fence t : List Char) (h : includes t fence = false) :
    removeFence fence 0 false t = t := by
  induction t with
  | nil => rfl
  | cons c cs ih =>
    rw [includes, Bool.or_eq_false_iff] at h
    rw [removeFence_scan]
    simp only [Bool.false_and, Bool.false_eq_true, if_false, h.1, ih h.2]

/-- A prefix of `l ++ x :: r` that does not hold `x` is a prefix of `l`. -/
theorem isPrefixOf_of_append (p l r : List Char) (x : Char) (hx : x ∉ p)
    (h : p.isPrefixOf (l ++ x :: r) = true) : p.isPrefixOf l = true := by
  induction p generalizing l with
  | nil => simp
  | cons a p' ih =>
    cases l with
    | nil =>
      simp only [List.nil_append, List.isPrefixOf, Bool.and_eq_true, beq_iff_eq] at h
      exact absurd (h.1 ▸ List.mem_cons_self a p') hx
    | cons b l' =>
      simp only [List.cons_append, List.isPrefixOf, Bool.and_eq_true, beq_iff_eq] at h ⊢
      exact ⟨h.1, ih l' (fun hmem => hx (List.mem_cons_of_mem a hmem)) h.2⟩

/-- An occurrence of `p` in `a ++ x :: b`, where `p` does not hold `x`, lies in `a` or in
`b`. -/
theorem includes_append_cons (p a b : List Char) (x : Char) (hx : x ∉ p)
    (h : includes (a ++ x :: b) p = true) : includes a p = true ∨ includes b p = true := by
  induction a with
  | nil =>
    rw [List.nil_append, includes, Bool.or_eq_true] at h
    rcases h with h | h
    · have := isPrefixOf_of_append p [] b x hx h
      left
      rw [includes]
      cases p with
      | nil => rfl
      | cons q qs => simp [List.isPrefixOf] at this
    · exact Or.inr h
  | cons c a' ih =>
    rw [List.cons_append, includes, Bool.or_eq_true] at h
    rcases h with h | h
    · left
      rw [includes, Bool.or_eq_true]
      exact Or.inl (isPrefixOf_of_append p (c :: a') b x hx h)
    · rcases ih h with h' | h'
      · left
        rw [includes, Bool.or_eq_true]
        exact Or.inr h'
      · exact Or.inr h'

theorem includes_jsonFence (t : List Char) (h : includes t jsonFence = true) :
    includes t tripleBacktick = true :=
  includes_trans t jsonFence tripleBacktick h (by decide)

/-- The tagged fence does not occur in `t` followed by the closing fence. -/
theorem not_includes_jsonFence_closing (t : List Char) (h : includes t tripleBacktick = false) :
    includes (t ++ '\n' :: tripleBacktick) jsonFence = false := by
  cases hinc : includes (t ++ '\n' :: tripleBacktick) jsonFence with
  | false => rfl
  | true =>
    rcases includes_append_cons jsonFence t tripleBacktick '\n' (by decide) hinc with h1 | h1
    · rw [includes_jsonFence t h1] at h
      exact Bool.noConfusion h
    · exact absurd h1 (by decide)

/-- The second replacement deletes the closing fence and leaves the line feed before it. -/
theorem removeFence_closing (t : List Char) (h : includes t tripleBacktick = false) :
    removeFence tripleBacktick 0 false (t ++ '\n' :: tripleBacktick) = t ++ ['\n'] := by
  induction t with
  | nil => decide
  | cons c cs ih =>
    rw [includes, Bool.or_eq_false_iff] at h
    have hno : tripleBacktick.isPrefixOf (c :: cs ++ '\n' :: tripleBacktick) = false := by
      cases hp : tripleBacktick.isPrefixOf (c :: cs ++ '\n' :: tripleBacktick) with
      | false => rfl
      | true =>
        have := isPrefixOf_of_append tripleBacktick (c :: cs) tripleBacktick '\n' (by decide) hp
        rw [h.1] at this
        exact Bool.noConfusion this
    rw [List.cons_append, removeFence_scan]
    rw [List.cons_append] at hno
    simp only [Bool.false_and, Bool.false_eq_true, if_false, hno, ih h.2, List.cons_append]
theorem dropWhile_of_head (l : List Char)
    (h : ∀ c, l.head? = some c → isWhiteSpace c = false) : l.dropWhile isWhiteSpace = l := by
  cases l with
  | nil => rfl
  | cons c cs =>
    have hc := h c rfl
    simp [List.dropWhile_cons, hc]

/-- A text without outer white space is left as it is by `trim`. -/
theorem trim_of_noOuterWhiteSpace (t : List Char) (h : NoOuterWhiteSpace t) : trim t = t := by
  unfold trim
  rw [dropWhile_of_head t h.1]
  have hrev : ∀ c, t.reverse.head? = some c → isWhiteSpace c = false := by
    intro c hc
    rw [List.head?_reverse] at hc
    exact h.2 c hc
  rw [dropWhile_of_head t.reverse hrev, List.reverse_reverse]

/-- A line feed after a text without outer white space is removed by `trim`. -/
theorem trim_append_newline (t : List Char) (h : NoOuterWhiteSpace t) :
    trim (t ++ ['\n']) = t := by
  cases t with
  | nil => decide
  | cons c cs =>
    unfold trim
    have hhead : ∀ d, (c :: cs ++ ['\n']).head? = some d → isWhiteSpace d = false := by
      intro d hd
      exact h.1 d (by simpa using hd)
    rw [dropWhile_of_head _ hhead, List.reverse_append]
    have hnl : isWhiteSpace '\n' = true := by decide
    simp only [List.reverse_cons, List.reverse_nil, List.nil_append, List.singleton_append,
      List.dropWhile_cons, hnl, if_true]
    have hrev : ∀ d, (cs.reverse ++ [c]).head? = some d → isWhiteSpace d = false := by
      intro d hd
      have : (c :: cs).reverse.head? = some d := by simpa using hd
      rw [List.head?_reverse] at this
      exact h.2 d this
    rw [dropWhile_of_head _ hrev]
    simp

/-- The three fence-free cases of the cleaning. -/
theorem cleanContent_of_fenced (t : List Char) (h : includes t tripleBacktick = false)
    (hw : NoOuterWhiteSpace t) :
    cleanContent (jsonFence ++ '\n' :: (t ++ '\n' :: tripleBacktick)) = t ∧
    cleanContent (tripleBacktick ++ '\n' :: (t ++ '\n' :: tripleBacktick)) = t ∧
    cleanContent t = t := by
  have hj : includes t jsonFence = false := by
    cases hinc : includes t jsonFence with
    | false => rfl
    | true =>
      rw [includes_jsonFence t hinc] at h
      exact Bool.noConfusion h
  have hclose := not_includes_jsonFence_closing t h
  unfold cleanContent
  rw [tripleBacktick_eq, jsonFence_eq]
  refine ⟨?_, ?_, ?_⟩
  · have h1 : removeFence jsonFence 0 false (jsonFence ++ '\n' :: (t ++ '\n' :: tripleBacktick))
        = removeFence jsonFence 0 false (t ++ '\n' :: tripleBacktick) := by
      simp [jsonFence, removeFence_scan, removeFence_skip, List.isPrefixOf]
    rw [h1, removeFence_of_not_includes _ _ hclose, removeFence_closing t h,
      trim_append_newline t hw]
  · have hopen : includes (tripleBacktick ++ '\n' :: (t ++ '\n' :: tripleBacktick)) jsonFence
        = false := by
      cases hinc : includes (tripleBacktick ++ '\n' :: (t ++ '\n' :: tripleBacktick)) jsonFence with
      | false => rfl
      | true =>
        rcases includes_append_cons jsonFence tripleBacktick _ '\n' (by decide) hinc with h1 | h1
        · exact absurd h1 (by decide)
        · rw [hclose] at h1
          exact Bool.noConfusion h1
    have h2 : removeFence tripleBacktick 0 false
        (tripleBacktick ++ '\n' :: (t ++ '\n' :: tripleBacktick))
        = removeFence tripleBacktick 0 false (t ++ '\n' :: tripleBacktick) := by
      simp [tripleBacktick, removeFence_scan, removeFence_skip, List.isPrefixOf]
    rw [removeFence_of_not_includes _ _ hopen, h2, removeFence_closing t h,
      trim_append_newline t hw]
  · rw [removeFence_of_not_includes _ _ hj, removeFence_of_not_includes _ _ h,
      trim_of_noOuterWhiteSpace t hw]
theorem removeFence_scan_other (b : Bool) (c : Char) (cs : List Char) (hc : c ≠ backtick)
    (hb : (b && c == '\n') = false) :
    removeFence tripleBacktick 0 b (c :: cs) = c :: removeFence tripleBacktick 0 false cs := by
  rw [removeFence_scan]
  have hne : (backtick == c) = false := by
    rw [beq_eq_false_iff_ne]
    exact fun h => hc h.symm
  simp [tripleBacktick, List.isPrefixOf, hb, hne]

/-- A scan that starts before a character other than a backtick emits no backtick first. -/
theorem head_removeFence (cs : List Char) (h : [backtick].isPrefixOf cs = false) :
    [backtick].isPrefixOf (removeFence tripleBacktick 0 false cs) = false := by
  cases cs with
  | nil => rfl
  | cons e r =>
    have he : e ≠ backtick := by
      intro heq
      simp [List.isPrefixOf, heq] at h
    rw [removeFence_scan_other false e r he rfl]
    have hne : (backtick == e) = false := by
      rw [beq_eq_false_iff_ne]
      exact fun h => he h.symm
    simp [List.isPrefixOf, hne]

/-- A scan that starts before fewer than two backticks emits fewer than two backticks
first. -/
theorem head2_removeFence (cs : List Char) (h : [backtick, backtick].isPrefixOf cs = false) :
    [backtick, backtick].isPrefixOf (removeFence tripleBacktick 0 false cs) = false := by
  cases cs with
  | nil => rfl
  | cons d r =>
    by_cases hd : d = backtick
    · subst hd
      have hr : [backtick].isPrefixOf r = false := by
        simpa [List.isPrefixOf] using h
      have hno : tripleBacktick.isPrefixOf (backtick :: r) = false := by
        cases r with
        | nil => rfl
        | cons e r' =>
          have he : (backtick == e) = false := by
            simpa [List.isPrefixOf] using hr
          simp [tripleBacktick, List.isPrefixOf, he]
      rw [removeFence_scan]
      simp only [Bool.false_and, Bool.false_eq_true, if_false, hno]
      have := head_removeFence r hr
      simpa [List.isPrefixOf] using this
    · rw [removeFence_scan_other false d r hd rfl]
      have hne : (backtick == d) = false := by
        rw [beq_eq_false_iff_ne]
        exact fun h => hd h.symm
      simp [List.isPrefixOf, hne]

/-- The second replacement leaves no fence of three backticks, whatever the text. -/
theorem not_includes_removeFence (cs : List Char) :
    ∀ (k : Nat) (b : Bool), includes (removeFence tripleBacktick k b cs) tripleBacktick = false := by
  induction cs with
  | nil =>
    intro k b
    rw [removeFence_nil]
    rfl
  | cons c cs ih =>
    intro k b
    cases k with
    | succ k => rw [removeFence_skip]; exact ih k true
    | zero =>
      rw [removeFence_scan]
      split
      · exact ih 0 false
      · split
        · exact ih _ true
        · rename_i hnl hmatch
          have hno : tripleBacktick.isPrefixOf (c :: cs) = false := by
            cases hp : tripleBacktick.isPrefixOf (c :: cs) with
            | false => rfl
            | true =>
              rw [hp] at hmatch
              exact absurd (by decide) hmatch
          rw [includes, ih 0 false, Bool.or_false]
          by_cases hc : c = backtick
          · subst hc
            have h2 : [backtick, backtick].isPrefixOf cs = false := by
              simpa [tripleBacktick, List.isPrefixOf] using hno
            have := head2_removeFence cs h2
            simpa [tripleBacktick, List.isPrefixOf] using this
          · have hne : (backtick == c) = false := by
              rw [beq_eq_false_iff_ne]
              exact fun h => hc h.symm
            simp [tripleBacktick, List.isPrefixOf, hne]

theorem trim_contiguous (l : List Char) : trim l <:+: l := by
  unfold trim
  have h1 : (l.dropWhile isWhiteSpace) <:+ l := List.dropWhile_suffix _
  have h2 : ((l.dropWhile isWhiteSpace).reverse.dropWhile isWhiteSpace)
      <:+ (l.dropWhile isWhiteSpace).reverse := List.dropWhile_suffix _
  have h3 : ((l.dropWhile isWhiteSpace).reverse.dropWhile isWhiteSpace).reverse
      <+: l.dropWhile isWhiteSpace := by
    have := List.reverse_prefix.mpr h2
    rwa [List.reverse_reverse] at this
  exact List.IsInfix.trans h3.isInfix h1.isInfix

theorem head_dropWhile (l : List Char) (c : Char)
    (h : (l.dropWhile isWhiteSpace).head? = some c) : isWhiteSpace c = false := by
  induction l with
  | nil => simp at h
  | cons a rest ih =>
    cases ha : isWhiteSpace a with
    | true =>
      rw [List.dropWhile_cons, ha] at h
      exact ih h
    | false =>
      rw [List.dropWhile_cons, ha] at h
      simp only [Bool.false_eq_true, if_false, List.head?_cons, Option.some.injEq] at h
      rw [← h]
      exact ha

theorem getLast?_dropWhile (l : List Char) (c : Char)
    (h : (l.dropWhile isWhiteSpace).getLast? = some c) : l.getLast? = some c := by
  obtain ⟨front, hfront⟩ := List.dropWhile_suffix (p := isWhiteSpace) (l := l)
  cases hd : l.dropWhile isWhiteSpace with
  | nil => rw [hd] at h; simp at h
  | cons a rest =>
    rw [hd] at h hfront
    rw [← hfront, List.getLast?_append_of_ne_nil _ (List.cons_ne_nil a rest)]
    exact h

/-- The result of `trim` has no outer white space. -/
theorem noOuterWhiteSpace_trim (l : List Char) : NoOuterWhiteSpace (trim l) := by
  unfold trim
  constructor
  · intro c hc
    rw [List.head?_reverse] at hc
    have h1 := getLast?_dropWhile _ c hc
    rw [List.getLast?_reverse] at h1
    exact head_dropWhile l c h1
  · intro c hc
    rw [List.getLast?_reverse] at hc
    exact head_dropWhile _ c hc

/-- Cleaning twice is cleaning once. -/
theorem cleanContent_idempotent (s : List Char) :
    cleanContent (cleanContent s) = cleanContent s := by
  have hno : includes (cleanContent s) tripleBacktick = false := by
    cases hinc : includes (cleanContent s) tripleBacktick with
    | false => rfl
    | true =>
      have h1 := (includes_iff_contiguous _ _).mp hinc
      have h2 : tripleBacktick <:+:
          removeFence tripleBacktick 0 false (removeFence jsonFence 0 false s) := by
        have := List.IsInfix.trans h1 (trim_contiguous _)
        unfold cleanContent at this
        rw [tripleBacktick_eq, jsonFence_eq] at this
        exact this
      have h3 := (includes_iff_contiguous _ _).mpr h2
      rw [not_includes_removeFence] at h3
      exact Bool.noConfusion h3
  have hw : NoOuterWhiteSpace (cleanContent s) := noOuterWhiteSpace_trim _
  exact (cleanContent_of_fenced (cleanContent s) hno hw).2.2
/-- C21: the cleaning step removes markdown code fences: for every text `t` without three
backticks in a row and without leading or trailing white space, cleaning `t` wrapped in a
`json` fence, cleaning `t` wrapped in a plain fence and cleaning `t` itself all give `t`; and
cleaning is idempotent on every text. -/
theorem cleaning_removes_fences :
    (∀ t : List Char, includes t "```".toList = false → NoOuterWhiteSpace t →
      cleanContent ("```json\n".toList ++ t ++ "\n```".toList) = t ∧
      cleanContent ("```\n".toList ++ t ++ "\n```".toList) = t ∧
      cleanContent t = t) ∧
    (∀ s : List Char, cleanContent (cleanContent s) = cleanContent s) := by
  refine ⟨?_, cleanContent_idempotent⟩
  intro t h hw
  rw [tripleBacktick_eq] at h
  have h1 : "```json\n".toList ++ t ++ "\n```".toList
      = jsonFence ++ '\n' :: (t ++ '\n' :: tripleBacktick) := by
    have a : "```json\n".toList = jsonFence ++ ['\n'] := by decide
    have b : "\n```".toList = '\n' :: tripleBacktick := by decide
    rw [a, b]
    simp
  have h2 : "```\n".toList ++ t ++ "\n```".toList
      = tripleBacktick ++ '\n' :: (t ++ '\n' :: tripleBacktick) := by
    have a : "```\n".toList = tripleBacktick ++ ['\n'] := by decide
    have b : "\n```".toList = '\n' :: tripleBacktick := by decide
    rw [a, b]
    simp
  rw [h1, h2]
  exact cleanContent_of_fenced t h hw

/-- Witness of C21 at the text `{}`. -/
theorem cleaning_removes_fences_witness :
    includes "\x7b\x7d".toList "```".toList = false ∧ NoOuterWhiteSpace "\x7b\x7d".toList ∧
    cleanContent "```json\n\x7b\x7d\n```".toList = "\x7b\x7d".toList ∧
    cleanContent "```\n\x7b\x7d\n```".toList = "\x7b\x7d".toList ∧
    cleanContent "\x7b\x7d".toList = "\x7b\x7d".toList :=
  ⟨by decide,
    ⟨fun c hc => by
        have : c = Char.ofNat 123 := by
          have h := hc
          simp only [String.toList] at h
          exact (Option.some.inj h).symm
        rw [this]
        decide,
      fun c hc => by
        have : c = Char.ofNat 125 := by
          have h := hc
          simp only [String.toList] at h
          exact (Option.some.inj h).symm
        rw [this]
        decide⟩,
    cleaning_removes_fences.1 "\x7b\x7d".toList (by decide)
      ⟨fun c hc => by
        have : c = Char.ofNat 123 := (Option.some.inj hc).symm
        rw [this]
        decide,
      fun c hc => by
        have : c = Char.ofNat 125 := (Option.some.inj hc).symm
        rw [this]
        decide⟩⟩

end NutriApp
